import Mathlib

/-!
# Scene graph, ECS dispatch and two-bone leg IK of the WebGL game engine

A shallow embedding of `src/engine/scene_graph.js` and `src/engine/ecs.js`, with the parts of
`src/engine/lighting.js`, `src/engine/material.js` and `src/engine/scene.js` that the
registries' properties need.

JavaScript numbers are modelled by an ordered field `K` (exact arithmetic), and
`Math.sqrt` is a parameter `sqrt : K → K` of every function that reaches it.
The matrix/vector library (`Vector3`, `Vector4`, `Quaternion`, `Matrix4`) is not
part of the source tree; its operations are modelled from the specification and
marked as such.
-/

namespace Engine

/-! ## The vector and matrix library -/

/-- Vector3 of the matrix library: the three numbers `elements[0]`, `elements[1]`,
`elements[2]`. -/
structure Vector3 (K : Type) where
  x : K
  y : K
  z : K
deriving DecidableEq

/-- Quaternion of the matrix library, fields `x`, `y`, `z`, `w`; `new Quaternion()` is the
identity rotation `(0, 0, 0, 1)`. -/
structure Quaternion (K : Type) where
  x : K
  y : K
  z : K
  w : K
deriving DecidableEq

/-- Matrix4 of the matrix library, as a 4×4 matrix; `new Matrix4()` is the identity. -/
abbrev Matrix4 (K : Type) := Matrix (Fin 4) (Fin 4) K

section Library

variable {K : Type} [LinearOrderedField K]

/-- Modelled from the spec: `new Vector3()` of the absent matrix library, the zero vector. -/
def Vector3.zero : Vector3 K := ⟨0, 0, 0⟩

/-- Modelled from the spec: `Vector3.add` of the absent matrix library, the componentwise sum
returned as a new vector. -/
def Vector3.add (a b : Vector3 K) : Vector3 K := ⟨a.x + b.x, a.y + b.y, a.z + b.z⟩

/-- Modelled from the spec: `Vector3.addSelf` of the absent matrix library, the componentwise
sum stored in the receiver, which is returned. -/
def Vector3.addSelf (a b : Vector3 K) : Vector3 K := a.add b

/-- Modelled from the spec: `Vector3.sub` of the absent matrix library, the componentwise
difference `this − other` returned as a new vector. -/
def Vector3.sub (a b : Vector3 K) : Vector3 K := ⟨a.x - b.x, a.y - b.y, a.z - b.z⟩

/-- Modelled from the spec: `Vector3.mul` of the absent matrix library, the product with a
scalar returned as a new vector. -/
def Vector3.mul (a : Vector3 K) (s : K) : Vector3 K := ⟨a.x * s, a.y * s, a.z * s⟩

/-- Modelled from the spec: `Vector3.dot` of the absent matrix library, the dot product. -/
def Vector3.dot (a b : Vector3 K) : K := a.x * b.x + a.y * b.y + a.z * b.z

/-- Modelled from the spec: `Vector3.cross` of the absent matrix library, the cross product
`this × other`. -/
def Vector3.cross (a b : Vector3 K) : Vector3 K :=
  ⟨a.y * b.z - a.z * b.y, a.z * b.x - a.x * b.z, a.x * b.y - a.y * b.x⟩

/-- Modelled from the spec: `Vector3.length` of the absent matrix library, the Euclidean norm
`Math.sqrt(x² + y² + z²)`. -/
def Vector3.length (sqrt : K → K) (a : Vector3 K) : K := sqrt (a.dot a)

/-- Modelled from the spec: `Vector3.distanceTo` of the absent matrix library, the Euclidean
distance between two points. -/
def Vector3.distanceTo (sqrt : K → K) (a b : Vector3 K) : K := (a.sub b).length sqrt

/-- Modelled from the spec: `Vector3.normalize` of the absent matrix library, the vector
divided by its length. For the zero vector the field convention `x / 0 = 0` stands in for the
library's result. -/
def Vector3.normalize (sqrt : K → K) (a : Vector3 K) : Vector3 K :=
  ⟨a.x / a.length sqrt, a.y / a.length sqrt, a.z / a.length sqrt⟩

/-- Modelled from the spec: `Quaternion.normalize` of the absent matrix library: the
quaternion divided by its length, and the identity rotation when the length is zero. -/
def Quaternion.normalize (sqrt : K → K) (q : Quaternion K) : Quaternion K :=
  let l := sqrt (q.x * q.x + q.y * q.y + q.z * q.z + q.w * q.w)
  if l = 0 then ⟨0, 0, 0, 1⟩ else ⟨q.x * (1 / l), q.y * (1 / l), q.z * (1 / l), q.w * (1 / l)⟩

/-- Modelled from the spec: `Matrix4.setTranslate` of the absent matrix library, the
translation matrix "Translate(position)". -/
def Matrix4.setTranslate (x y z : K) : Matrix4 K :=
  !![1, 0, 0, x; 0, 1, 0, y; 0, 0, 1, z; 0, 0, 0, 1]

/-- Modelled from the spec: `Matrix4.setScale` of the absent matrix library, the scaling
matrix "Scale(scale)". -/
def Matrix4.setScale (x y z : K) : Matrix4 K :=
  !![x, 0, 0, 0; 0, y, 0, 0; 0, 0, z, 0; 0, 0, 0, 1]

/-- Modelled from the spec: `Matrix4.setFromQuat` of the absent matrix library, the rotation
matrix "RotationMatrix(rotation)" of a quaternion. -/
def Matrix4.setFromQuat (qx qy qz qw : K) : Matrix4 K :=
  !![1 - 2 * qy * qy - 2 * qz * qz, 2 * qx * qy - 2 * qw * qz, 2 * qx * qz + 2 * qw * qy, 0;
     2 * qx * qy + 2 * qw * qz, 1 - 2 * qx * qx - 2 * qz * qz, 2 * qy * qz - 2 * qw * qx, 0;
     2 * qx * qz - 2 * qw * qy, 2 * qy * qz + 2 * qw * qx, 1 - 2 * qx * qx - 2 * qy * qy, 0;
     0, 0, 0, 1]

/-- Modelled from the spec: `Matrix4.multiply` of the absent matrix library, the product
`this · other` ("parent's world matrix · local matrix"). The library stores the product in the
receiver; every call site below owns its receiver (a fresh matrix or a copy), so the product
is passed by value. -/
def Matrix4.multiply (a b : Matrix4 K) : Matrix4 K := a * b

/-- Modelled from the spec: `Matrix4.multiplyVector4` of the absent matrix library, the
matrix applied to a 4-component column vector. -/
def Matrix4.multiplyVector4 (m : Matrix4 K) (v : Fin 4 → K) : Fin 4 → K := m.mulVec v

/-- Modelled from the spec: `Matrix4.multiplyVector3` of the absent matrix library, the
matrix applied to a position ("parent world matrix × local position"): the point is extended
by `w = 1` and the first three components of the image are kept. -/
def Matrix4.multiplyVector3 (m : Matrix4 K) (p : Vector3 K) : Vector3 K :=
  ⟨m.mulVec ![p.x, p.y, p.z, 1] 0, m.mulVec ![p.x, p.y, p.z, 1] 1, m.mulVec ![p.x, p.y, p.z, 1] 2⟩

end Library

/-! ## Transform -/

/-- Transform of `scene_graph.js`: `position`, `rotation`, `scale` and the `parent` link
(`none` for `null`/`undefined`). The field `worldPosition` is written by the traversal only
and read by no matrix derivation; it is recorded in the traversal's output (`Visit`). -/
inductive Transform (K : Type) where
  | mk (position : Vector3 K) (rotation : Quaternion K) (scale : Vector3 K)
      (parent : Option (Transform K)) : Transform K

namespace Transform

variable {K : Type} [LinearOrderedField K]

/-- Field `position`. -/
def position : Transform K → Vector3 K
  | mk p _ _ _ => p

/-- Field `rotation`. -/
def rotation : Transform K → Quaternion K
  | mk _ r _ _ => r

/-- Field `scale`. -/
def scale : Transform K → Vector3 K
  | mk _ _ s _ => s

/-- Field `parent`. -/
def parent : Transform K → Option (Transform K)
  | mk _ _ _ q => q

/-- The constructor `new Transform(position = null, rotation = null, scale = null, parent)`
with its defaults. -/
def new (position : Option (Vector3 K)) (rotation : Option (Quaternion K))
    (scale : Option (Vector3 K)) (parent : Option (Transform K)) : Transform K :=
  mk (position.getD ⟨0, 0, 0⟩) (rotation.getD ⟨0, 0, 0, 1⟩) (scale.getD ⟨1, 1, 1⟩) parent

/-- Transform.getLocalModelMatrix: the rotation is normalized, then
`translationMatrix.multiply(rotationMatrix.multiply(scaleMatrix))`. The source normalizes
`this.rotation` in place; the normalized value is not written back here, since a matrix
derived from it is the same (`Transform.getLocalModelMatrix_normalized`). -/
def getLocalModelMatrix (sqrt : K → K) (t : Transform K) : Matrix4 K :=
  let rotation := t.rotation.normalize sqrt
  let rotationMatrix := Matrix4.setFromQuat rotation.x rotation.y rotation.z rotation.w
  let scaleMatrix := Matrix4.setScale t.scale.x t.scale.y t.scale.z
  let translationMatrix := Matrix4.setTranslate t.position.x t.position.y t.position.z
  translationMatrix.multiply (rotationMatrix.multiply scaleMatrix)

/-- Transform.getWorldModelMatrix: the local matrix when `parent == null`, else a copy of the
parent's world matrix multiplied by the local matrix. -/
def getWorldModelMatrix (sqrt : K → K) : Transform K → Matrix4 K
  | mk p r s none => (mk p r s none).getLocalModelMatrix sqrt
  | mk p r s (some q) =>
      (q.getWorldModelMatrix sqrt).multiply ((mk p r s (some q)).getLocalModelMatrix sqrt)

/-- The matrix a transform's local matrix is composed with to give its world matrix, in the
spec's words: the parent's world matrix, and the identity for a transform without parent. -/
def parentWorldMatrix (sqrt : K → K) (t : Transform K) : Matrix4 K :=
  match t.parent with
  | none => 1
  | some q => q.getWorldModelMatrix sqrt

/-- The transforms on the parent chain of a transform, from the outermost ancestor down to
the transform itself. -/
def path : Transform K → List (Transform K)
  | mk p r s none => [mk p r s none]
  | mk p r s (some q) => q.path ++ [mk p r s (some q)]

/-- Transform.getWorldPosition: the world matrix applied to `(0, 0, 0, 1)`, first three
components. -/
def getWorldPosition (sqrt : K → K) (t : Transform K) : Vector3 K :=
  let worldPosition := (t.getWorldModelMatrix sqrt).multiplyVector4 ![0, 0, 0, 1]
  ⟨worldPosition 0, worldPosition 1, worldPosition 2⟩

end Transform

/-! ## SceneNode and SceneGraph -/

/-- RenderInfo of `scene_graph.js`: the material and mesh names. -/
structure RenderInfo where
  material : String
  mesh : String
deriving DecidableEq

/-- SceneNode of `scene_graph.js`: render info, transform and the ordered `children` list.
The node's own `parent` back-reference is set together with `transform.parent`
(`setParent`) and is represented by the latter. -/
inductive SceneNode (K : Type) where
  | mk (renderInfo : RenderInfo) (transform : Transform K) (children : List (SceneNode K)) :
      SceneNode K

/-- One call `callback(node, modelMatrix, cl)` of a traversal, together with the value the
traversal stored in `node.transform.worldPosition` just before the call. -/
structure Visit (K : Type) where
  node : SceneNode K
  modelMatrix : Matrix4 K
  worldPosition : Vector3 K

namespace SceneNode

variable {K : Type} [LinearOrderedField K]

/-- Field `renderInfo`. -/
def renderInfo : SceneNode K → RenderInfo
  | mk ri _ _ => ri

/-- Field `transform`. -/
def transform : SceneNode K → Transform K
  | mk _ t _ => t

/-- Field `children`. -/
def children : SceneNode K → List (SceneNode K)
  | mk _ _ cs => cs

/-- The function `createObject(meshName, materialName, position, rotation, scale)`: a node
without children whose transform has no parent. -/
def createObject (meshName materialName : String) (position : Option (Vector3 K))
    (rotation : Option (Quaternion K)) (scale : Option (Vector3 K)) : SceneNode K :=
  mk ⟨materialName, meshName⟩ (Transform.new position rotation scale none) []

mutual
/-- SceneNode.setParent: `this.transform.parent = parent.transform`. The descendants hold this
transform by reference and see the new link, so the value model links them again. -/
def setParent : SceneNode K → Transform K → SceneNode K
  | mk ri t cs, p =>
      mk ri (Transform.mk t.position t.rotation t.scale (some p))
        (setParentList cs (Transform.mk t.position t.rotation t.scale (some p)))
/-- The descendants' side of `setParent`: every child refers to the updated transform. -/
def setParentList : List (SceneNode K) → Transform K → List (SceneNode K)
  | [], _ => []
  | c :: cs, p => setParent c p :: setParentList cs p
end

/-- SceneNode.addChild: `child.setParent(this); this.children.push(child)`. -/
def addChild (node child : SceneNode K) : SceneNode K :=
  mk node.renderInfo node.transform (node.children ++ [child.setParent node.transform])

/-- SceneNode.addChildren: `addChild` for each element, in order. -/
def addChildren (node : SceneNode K) (children : List (SceneNode K)) : SceneNode K :=
  children.foldl addChild node

mutual
/-- The parent links as `addChild` leaves them: the transform of every node in a children list
has the transform of the list's owner as its `parent`. -/
def Linked : SceneNode K → Prop
  | mk _ t cs => LinkedList t cs
/-- The parent links of a children list whose owner has transform `t`. -/
def LinkedList : Transform K → List (SceneNode K) → Prop
  | _, [] => True
  | t, c :: cs => c.transform.parent = some t ∧ Linked c ∧ LinkedList t cs
end

mutual
/-- Number of nodes reachable from a node through children lists. -/
def size : SceneNode K → Nat
  | mk _ _ cs => 1 + sizeList cs
/-- Number of nodes reachable from the nodes of a children list. -/
def sizeList : List (SceneNode K) → Nat
  | [] => 0
  | c :: cs => size c + sizeList cs
end

mutual
/-- Depth-first pre-order, in the spec's words: the node first, then the subtrees of its
children in the order of the children list. -/
def preorder : SceneNode K → List (SceneNode K)
  | mk ri t cs => mk ri t cs :: preorderList cs
/-- Pre-order of the subtrees of a children list, one after the other. -/
def preorderList : List (SceneNode K) → List (SceneNode K)
  | [] => []
  | c :: cs => preorder c ++ preorderList cs
end

end SceneNode

/-- SceneGraph of `scene_graph.js`: the root node. (The cameras and the projection matrix take
no part in the traversal.) -/
structure SceneGraph (K : Type) where
  root : SceneNode K

namespace SceneGraph

variable {K : Type} [LinearOrderedField K]

/-- The constructor: `this.root = new SceneNode(null, new Transform())`. -/
def new : SceneGraph K :=
  ⟨SceneNode.mk ⟨"NONE", "NONE"⟩ (Transform.new none none none none) []⟩

/-- SceneGraph.addObject: `this.root.addChild(child)`. -/
def addObject (g : SceneGraph K) (child : SceneNode K) : SceneGraph K :=
  ⟨g.root.addChild child⟩

/-- SceneGraph.addObjects: `this.root.addChildren(children)`. -/
def addObjects (g : SceneGraph K) (children : List (SceneNode K)) : SceneGraph K :=
  ⟨g.root.addChildren children⟩

mutual
/-- SceneGraph._traverseHelper: store the world position, compose the parent matrix with the
local matrix, call the visitor, then recurse into the children, each with its own copy of the
model matrix. The result lists the visitor calls in the order they are made. -/
def _traverseHelper (sqrt : K → K) : SceneNode K → Matrix4 K → List (Visit K)
  | SceneNode.mk ri t cs, parentModelMatrix =>
      let worldPos := parentModelMatrix.multiplyVector3 t.position
      let localModelMatrix := t.getLocalModelMatrix sqrt
      let modelMatrix := parentModelMatrix.multiply localModelMatrix
      ⟨SceneNode.mk ri t cs, modelMatrix, worldPos⟩ :: _traverseChildren sqrt cs modelMatrix
/-- The loop `for (i = 0; i < node.children.length; i++)` of `_traverseHelper`. -/
def _traverseChildren (sqrt : K → K) : List (SceneNode K) → Matrix4 K → List (Visit K)
  | [], _ => []
  | c :: cs, modelMatrix =>
      _traverseHelper sqrt c modelMatrix ++ _traverseChildren sqrt cs modelMatrix
end

/-- SceneGraph.traverse: `_traverseHelper` from the root with a fresh identity matrix. -/
def traverse (sqrt : K → K) (g : SceneGraph K) : List (Visit K) :=
  _traverseHelper sqrt g.root 1

end SceneGraph

/-! ## JavaScript objects used as maps -/

/-- Decimal value of a list of digit characters. -/
def decimalValue (cs : List Char) : Nat :=
  cs.foldl (fun n c => 10 * n + (c.toNat - 48)) 0

/-- The property keys that JavaScript treats as array indices: canonical decimal numerals
(no sign, no leading zero) with a value below `2^32 - 1`. -/
def isArrayIndex (key : String) : Bool :=
  match key.data with
  | [] => false
  | c :: cs =>
      (c :: cs).all Char.isDigit && (c != '0' || cs.isEmpty) &&
        decide (decimalValue (c :: cs) < 2 ^ 32 - 1)

/-- An ordinary JavaScript object used as a map (`{}`): its own string-keyed properties in the
order they were created. -/
structure JSObject (V : Type) where
  props : List (String × V)

namespace JSObject

variable {V : Type}

/-- The object literal `{}`. -/
def empty : JSObject V := ⟨[]⟩

/-- Assignment to a property, on the property list: an existing property keeps its place and
gets the new value, a new property is created at the end. -/
def setProps (key : String) (value : V) : List (String × V) → List (String × V)
  | [] => [(key, value)]
  | (k, v) :: rest => if k = key then (k, value) :: rest else (k, v) :: setProps key value rest

/-- The assignment `obj[key] = value`. Assigning to `__proto__` stores no own property (it
replaces the prototype, which this model does not represent). -/
def set (o : JSObject V) (key : String) (value : V) : JSObject V :=
  if key = "__proto__" then o else ⟨setProps key value o.props⟩

/-- The lookup `obj[key]` among the own properties (`none` for `undefined`). -/
def get (o : JSObject V) (key : String) : Option V :=
  (o.props.find? (fun p => p.1 = key)).map (fun p => p.2)

/-- The key order of `for (let key in obj)` on an ordinary object whose prototype has not
been replaced: the array-index keys in ascending numeric order, then the other keys in
creation order. -/
def keys (o : JSObject V) : List String :=
  ((o.props.map (fun p => p.1)).filter isArrayIndex).insertionSort
      (fun a b => decimalValue a.data ≤ decimalValue b.data) ++
    (o.props.map (fun p => p.1)).filter (fun k => !isArrayIndex k)

/-- The loop `for (let key in obj) { body(obj[key]) }` over an object whose prototype has not
been replaced and that the body does not modify: the body runs on the value of each own key,
in key order. -/
def forIn {σ : Type} (o : JSObject V) (body : V → σ → σ) (st : σ) : σ :=
  o.keys.foldl
    (fun st key => match o.get key with
      | some value => body value st
      | none => st) st

end JSObject

/-! ## Entity, Component, ECS -/

/-- Component of `ecs.js`, polymorphic over `start()` and `update(deltaTime)`. Components act
on the program state `σ`; `disabled` reads the component's `disabled` flag in the current
state. -/
structure Component (σ D : Type) where
  start : σ → σ
  update : D → σ → σ
  disabled : σ → Bool

/-- One call of `components[index].start()` or `components[index].update(deltaTime)` made for
the entity called `entity`. -/
structure Call where
  entity : String
  index : Nat
deriving DecidableEq

/-- Entity of `ecs.js`: the name and the ordered list of attached components. (The node
reference is not read by `start` and `update`.) -/
structure Entity (σ D : Type) where
  name : String
  components : List (Component σ D)

namespace Entity

variable {σ D : Type}

/-- Entity.attachComponent: `this.components.push(component)`. -/
def attachComponent (e : Entity σ D) (component : Component σ D) : Entity σ D :=
  ⟨e.name, e.components ++ [component]⟩

/-- The loop of `Entity.start` from index `i` on: `this.components[i].start()`. The second
component of the state is the list of calls made so far. -/
def startFrom (name : String) : List (Component σ D) → Nat → σ × List Call → σ × List Call
  | [], _, st => st
  | c :: cs, i, st => startFrom name cs (i + 1) (c.start st.1, st.2 ++ [⟨name, i⟩])

/-- Entity.start: calls `start()` on the components, in order. -/
def start (e : Entity σ D) (st : σ × List Call) : σ × List Call :=
  startFrom e.name e.components 0 st

/-- One pass of the loop body of `Entity.update` for the component at index `i`:
`if (this.components[i].disabled == true) continue; this.components[i].update(deltaTime)`. -/
def updateStep (name : String) (deltaTime : D) (c : Component σ D) (i : Nat)
    (st : σ × List Call) : σ × List Call :=
  if c.disabled st.1 = true then st else (c.update deltaTime st.1, st.2 ++ [⟨name, i⟩])

/-- The loop of `Entity.update` from index `i` on. -/
def updateFrom (name : String) (deltaTime : D) :
    List (Component σ D) → Nat → σ × List Call → σ × List Call
  | [], _, st => st
  | c :: cs, i, st => updateFrom name deltaTime cs (i + 1) (updateStep name deltaTime c i st)

/-- Entity.update: calls `update(deltaTime)` on the components that are not disabled. -/
def update (e : Entity σ D) (deltaTime : D) (st : σ × List Call) : σ × List Call :=
  updateFrom e.name deltaTime e.components 0 st

end Entity

/-- ECS of `ecs.js`: the object `entities` mapping names to entities. (The scene graph and the
node cross-references take no part in `start` and `update`.) -/
structure ECS (σ D : Type) where
  entities : JSObject (Entity σ D)

namespace ECS

variable {σ D : Type}

/-- ECS.addEntity: `this.entities[name] = entity`. -/
def addEntity (ecs : ECS σ D) (name : String) (entity : Entity σ D) : ECS σ D :=
  ⟨ecs.entities.set name entity⟩

/-- The constructor: an empty `entities` object to which the entity "camera" is added. -/
def new : ECS σ D :=
  addEntity ⟨JSObject.empty⟩ "camera" ⟨"camera", []⟩

/-- ECS.createEntity, as far as the registry goes: an empty name is replaced by
`generateUUID()` (absent from the source tree, passed as `uuid`), the components are attached
in order and the entity is added under its name. -/
def createEntity (ecs : ECS σ D) (uuid : String) (entityName : String)
    (components : List (Component σ D)) : ECS σ D × Entity σ D :=
  let entityName := if entityName = "" then uuid else entityName
  let entity := components.foldl Entity.attachComponent ⟨entityName, []⟩
  (ecs.addEntity entityName entity, entity)

/-- ECS.getEntity: `this.entities[name]`. -/
def getEntity (ecs : ECS σ D) (name : String) : Option (Entity σ D) :=
  ecs.entities.get name

/-- ECS.start: `for (let key in this.entities) this.entities[key].start()`. -/
def start (ecs : ECS σ D) (st : σ × List Call) : σ × List Call :=
  ecs.entities.forIn (fun entity st => entity.start st) st

/-- ECS.update: `for (let key in this.entities) this.entities[key].update(deltaTime)`. -/
def update (ecs : ECS σ D) (deltaTime : D) (st : σ × List Call) : σ × List Call :=
  ecs.entities.forIn (fun entity st => entity.update deltaTime st) st

end ECS

/-- The part of the program state that a CameraControllerComponent shares with the
PlayerController it holds: the controller's `mode` (`CAMERA_MODE.FOLLOW = 0`,
`CAMERA_MODE.AIRPLANE = 1`) and the `disabled` flags of the two components. -/
structure ControlState where
  mode : Nat
  playerControllerDisabled : Bool
  cameraControllerDisabled : Bool
deriving DecidableEq

/-- PlayerController as a component over `ControlState`: its `disabled` flag lives in the
state; its `update` is a parameter. -/
def playerController {D : Type} (update : D → ControlState → ControlState) :
    Component ControlState D :=
  ⟨id, update, fun s => s.playerControllerDisabled⟩

/-- CameraControllerComponent.update on `ControlState`: the space key (down this frame)
switches the mode; `handleFollowMode` clears the PlayerController's `disabled` flag when the
followed entity exists, `handleAirplaneMode` sets it. (The camera pose is not represented.) -/
def cameraControllerComponent {D : Type} (spaceDownThisFrame followEntityPresent : Bool) :
    Component ControlState D :=
  ⟨id,
   fun _ s =>
    let mode := if spaceDownThisFrame then (s.mode + 1) % 2 else s.mode
    if mode = 0 then
      if followEntityPresent then
        ⟨mode, false, s.cameraControllerDisabled⟩
      else ⟨mode, s.playerControllerDisabled, s.cameraControllerDisabled⟩
    else if mode = 1 then ⟨mode, true, s.cameraControllerDisabled⟩
    else ⟨mode, s.playerControllerDisabled, s.cameraControllerDisabled⟩,
   fun s => s.cameraControllerDisabled⟩

/-! ## Two-bone leg IK -/

section LegIK

variable {K : Type} [LinearOrderedField K]

/-- The local function `projectOntoPlane(point, planePoint, normal)` of `ikSolveNew`. -/
def projectOntoPlane (point planePoint normal : Vector3 K) : Vector3 K :=
  let pointToPlanePoint := point.sub planePoint
  let distance := pointToPlanePoint.dot normal
  point.sub (normal.mul distance)

/-- The variables of the FABRIK loop of `ikSolveNew`: `pelvis` (reassigned by the backward
pass), `currentFootPosition`, `kneePosition` and `iteration`; `forwardKnee` records the value
`kneePosition` had after the forward pass of the latest iteration, before the pole
correction. -/
structure FabrikState (K : Type) where
  pelvis : Vector3 K
  currentFootPosition : Vector3 K
  kneePosition : Vector3 K
  iteration : Nat
  forwardKnee : Vector3 K
deriving DecidableEq

/-- The body of the `while` loop of `ikSolveNew`: backward pass, forward pass, pole
correction, `iteration++`. -/
def fabrikBody (sqrt : K → K) (foot kneeTarget : Vector3 K) (upperLegLength lowerLegLength : K)
    (st : FabrikState K) : FabrikState K :=
  -- Backward
  let kneePosition := (((foot.sub st.pelvis).normalize sqrt).mul upperLegLength).add st.pelvis
  let pelvis := (((foot.sub kneePosition).normalize sqrt).mul lowerLegLength).add kneePosition
  -- Forward
  let kneePosition := pelvis.add (((kneePosition.sub pelvis).normalize sqrt).mul upperLegLength)
  let currentFootPosition :=
    kneePosition.add (((foot.sub kneePosition).normalize sqrt).mul lowerLegLength)
  -- Adjust knee using pole target
  let kneeToKneeTarget := kneeTarget.sub kneePosition
  let kneeToPelvis := pelvis.sub kneePosition
  let correction := (kneeToKneeTarget.normalize sqrt).mul (kneeToPelvis.length sqrt)
  ⟨pelvis, currentFootPosition, kneePosition.addSelf correction, st.iteration + 1, kneePosition⟩

/-- The `while` loop of `ikSolveNew`, `tolerance = 0.01` and `maxIterations = 10`:
`while (currentFootPosition.distanceTo(foot) > tolerance && iteration < maxIterations)`.
The first argument bounds the number of passes; from `iteration = 0` a bound of 10 is never
used up before the loop condition fails (`fabrikLoop_guard`). -/
def fabrikLoop (sqrt : K → K) (foot kneeTarget : Vector3 K) (upperLegLength lowerLegLength : K) :
    Nat → FabrikState K → FabrikState K
  | 0, st => st
  | n + 1, st =>
      if st.currentFootPosition.distanceTo sqrt foot > 0.01 ∧ st.iteration < 10 then
        fabrikLoop sqrt foot kneeTarget upperLegLength lowerLegLength n
          (fabrikBody sqrt foot kneeTarget upperLegLength lowerLegLength st)
      else st

/-- The reachable branch of `ikSolveNew` up to the exit of the loop: plane normal, projection
of the three points, then the FABRIK loop from `currentFootPosition = kneePosition = 0`. -/
def ikSolveNewLoop (sqrt : K → K) (pelvisPosition footPosition kneeTargetPosition : Vector3 K)
    (upperLegLength lowerLegLength : K) : FabrikState K :=
  let pelvis := pelvisPosition
  let foot := footPosition
  let kneeTarget := kneeTargetPosition
  let pelvisToFoot := foot.sub pelvis
  let pelvisToKneeTarget := kneeTarget.sub pelvis
  let planeNormal := (pelvisToFoot.cross pelvisToKneeTarget).normalize sqrt
  let pelvis := projectOntoPlane pelvis pelvis planeNormal
  let foot := projectOntoPlane foot pelvis planeNormal
  let kneeTarget := projectOntoPlane kneeTarget pelvis planeNormal
  fabrikLoop sqrt foot kneeTarget upperLegLength lowerLegLength 10
    ⟨pelvis, Vector3.zero, Vector3.zero, 0, Vector3.zero⟩

/-- RobotLegCompoent.ikSolveNew: the midpoint of pelvis and foot when the foot is farther
than both leg lengths, else the knee position the FABRIK loop ends with. -/
def ikSolveNew (sqrt : K → K) (pelvisPosition footPosition kneeTargetPosition : Vector3 K)
    (upperLegLength lowerLegLength : K) : Vector3 K :=
  let pelvis := pelvisPosition
  let foot := footPosition
  let pelvisToFoot := foot.sub pelvis
  if pelvisToFoot.length sqrt > upperLegLength + lowerLegLength then
    pelvis.add (pelvisToFoot.mul 0.5)
  else
    (ikSolveNewLoop sqrt pelvisPosition footPosition kneeTargetPosition
      upperLegLength lowerLegLength).kneePosition

/-- Number of passes of the FABRIK loop that one call of `ikSolveNew` runs: none when it
returns the midpoint, else the final value of `iteration`. -/
def ikSolveNewIterations (sqrt : K → K)
    (pelvisPosition footPosition kneeTargetPosition : Vector3 K)
    (upperLegLength lowerLegLength : K) : Nat :=
  if (footPosition.sub pelvisPosition).length sqrt > upperLegLength + lowerLegLength then 0
  else
    (ikSolveNewLoop sqrt pelvisPosition footPosition kneeTargetPosition
      upperLegLength lowerLegLength).iteration

/-- The midpoint of two points, in the spec's words. -/
def midpoint (a b : Vector3 K) : Vector3 K := ⟨(a.x + b.x) / 2, (a.y + b.y) / 2, (a.z + b.z) / 2⟩

/-- The point `x` lies on the plane that contains the points `p`, `f` and `t`: the vector from
`p` to `x` is orthogonal to the normal `(f − p) × (t − p)`. -/
def OnPlane (p f t x : Vector3 K) : Prop :=
  (x.sub p).dot ((f.sub p).cross (t.sub p)) = 0

/-- The point `x` lies on the line through the points `p` and `f`: the vector from `p` to
`x` is parallel to `f − p`. -/
def OnLine (p f x : Vector3 K) : Prop :=
  (x.sub p).cross (f.sub p) = Vector3.zero

/-- The points `p`, `f` and `t` are not collinear. -/
def NonCollinear (p f t : Vector3 K) : Prop :=
  (f.sub p).cross (t.sub p) ≠ Vector3.zero

end LegIK

/-! ## Robot leg component -/

section RobotLeg

variable {K : Type} [LinearOrderedField K]

/-- Modelled from the spec: `Vector3.lerp` of the absent matrix library, the linear
interpolation `a + (b − a)·t` returned as a new vector. -/
def Vector3.lerp (a b : Vector3 K) (t : K) : Vector3 K :=
  ⟨a.x + (b.x - a.x) * t, a.y + (b.y - a.y) * t, a.z + (b.z - a.z) * t⟩

/-- RobotLegCompoent of `ecs.js`: the settings given to the constructor and the fields set by
`start` and `update`. The entities it refers to (pelvis, knee target) are passed to `start`
and `update` as their transforms; the debug markers written by `updateGizmos` are not
represented. -/
structure RobotLegCompoent (K : Type) where
  groundY : K
  speed : K
  footPosOffset : Vector3 K
  stepDistance : K
  stepSpeed : K
  stepHeight : K
  upperLegLength : K
  lowerLegLength : K
  time : K
  allowStep : Bool
  footIdealPosition : Vector3 K
  footActualPosition : Vector3 K
  kneePosition : Vector3 K
  pelvisPosition : Vector3 K
  moving : Bool
  movementProgress : K
  startingFootRaisePosition : Vector3 K
  endingFootRaisePosition : Vector3 K
  previousKneePosition : Vector3 K

namespace RobotLegCompoent

/-- The constructor: `stepDistance = lowerLegLength + upperLegLength`,
`stepSpeed = c_PLAYER_MOVE_SPEED` (10 in `config.js`), `stepHeight = 2`, `allowStep = true`.
The fields that only `start` defines hold zero until then. -/
def new (footPosOffset : Vector3 K) (groundY speed upperLegLength lowerLegLength : K) :
    RobotLegCompoent K where
  groundY := groundY
  speed := speed
  footPosOffset := footPosOffset
  stepDistance := lowerLegLength + upperLegLength
  stepSpeed := 10
  stepHeight := 2
  upperLegLength := upperLegLength
  lowerLegLength := lowerLegLength
  time := 0
  allowStep := true
  footIdealPosition := Vector3.zero
  footActualPosition := Vector3.zero
  kneePosition := Vector3.zero
  pelvisPosition := Vector3.zero
  moving := false
  movementProgress := 0
  startingFootRaisePosition := Vector3.zero
  endingFootRaisePosition := Vector3.zero
  previousKneePosition := Vector3.zero

/-- RobotLegCompoent.calculateIdealFootPlacementPosition: the foot offset taken through the
pelvis's world matrix as a direction (`w = 0`), added to the pelvis's world position in `x`
and `z`, with `y = groundY`. -/
def calculateIdealFootPlacementPosition (sqrt : K → K) (pelvis : Transform K)
    (leg : RobotLegCompoent K) : Vector3 K :=
  let pelvisWorldPosition := pelvis.getWorldPosition sqrt
  let pelvisModelMatrix := pelvis.getWorldModelMatrix sqrt
  let offsetVector : Fin 4 → K :=
    ![leg.footPosOffset.x, leg.footPosOffset.y, leg.footPosOffset.z, 0]
  let rotatedOffset := pelvisModelMatrix.multiplyVector4 offsetVector
  ⟨pelvisWorldPosition.x + rotatedOffset 0, leg.groundY, pelvisWorldPosition.z + rotatedOffset 2⟩

/-- RobotLegCompoent.calculateKneePosition: `ikSolveNew` on the pelvis's world position, the
actual foot position and the knee target's world position. -/
def calculateKneePosition (sqrt : K → K) (pelvis kneeTarget : Transform K)
    (leg : RobotLegCompoent K) : Vector3 K :=
  let pelvisWorldPosition := pelvis.getWorldPosition sqrt
  let footWorldPosition := leg.footActualPosition
  let kneeTargetWorldPosition := kneeTarget.getWorldPosition sqrt
  ikSolveNew sqrt pelvisWorldPosition footWorldPosition kneeTargetWorldPosition
    leg.upperLegLength leg.lowerLegLength

/-- RobotLegCompoent.parabolicLerp: `a.lerp(b, t)` with `h * Math.sin(t * Math.PI)` added to its
`y` coordinate. `Math.sin` and `Math.PI` are the parameters `sin` and `pi`. -/
def parabolicLerp (sin : K → K) (pi : K) (a b : Vector3 K) (h t : K) : Vector3 K :=
  let linear := a.lerp b t
  ⟨linear.x, linear.y + h * sin (t * pi), linear.z⟩

/-- RobotLegCompoent.start: the actual foot starts at the ideal position, the leg is idle with
`movementProgress = 0` and both step anchors at the actual foot position. -/
def start (sqrt : K → K) (pelvis kneeTarget : Transform K) (leg : RobotLegCompoent K) :
    RobotLegCompoent K :=
  let leg := { leg with footIdealPosition := leg.calculateIdealFootPlacementPosition sqrt pelvis }
  let leg := { leg with footActualPosition := leg.footIdealPosition }
  let leg := { leg with kneePosition := leg.calculateKneePosition sqrt pelvis kneeTarget }
  let leg := { leg with pelvisPosition := pelvis.getWorldPosition sqrt }
  let leg := { leg with moving := false }
  let leg := { leg with movementProgress := 0 }
  let leg := { leg with startingFootRaisePosition := leg.footActualPosition }
  let leg := { leg with endingFootRaisePosition := leg.footActualPosition }
  { leg with previousKneePosition := leg.kneePosition }

/-- The block `if (this.moving == true) { ... }` of `update`: advance and clamp
`movementProgress`, pull both step anchors toward the ideal position, and place the foot on
the parabola between them. -/
def moveFoot (sin : K → K) (pi : K) (idealFootPosition : Vector3 K) (deltaTime : K)
    (leg : RobotLegCompoent K) : RobotLegCompoent K :=
  let leg := { leg with movementProgress := leg.movementProgress + deltaTime * leg.stepSpeed }
  let leg := { leg with startingFootRaisePosition :=
    leg.startingFootRaisePosition.lerp idealFootPosition (deltaTime * leg.stepSpeed * 2) }
  let leg := { leg with endingFootRaisePosition :=
    leg.endingFootRaisePosition.lerp idealFootPosition (deltaTime * leg.stepSpeed * 2) }
  let leg := if leg.movementProgress > 1 then { leg with movementProgress := 1 } else leg
  let leg := if leg.movementProgress < 0 then { leg with movementProgress := 0 } else leg
  { leg with footActualPosition :=
    (parabolicLerp sin pi leg.startingFootRaisePosition leg.endingFootRaisePosition
      leg.stepHeight leg.movementProgress) }

/-- RobotLegCompoent.update: refresh ideal foot, knee and pelvis positions; hold when stepping
is not allowed and the foot is within leg length of the pelvis; start a step when the ideal
position is farther than `stepDistance` from the actual one; stop a step that has arrived;
move the foot while stepping. -/
def update (sqrt sin : K → K) (pi : K) (pelvis kneeTarget : Transform K) (deltaTime : K)
    (leg : RobotLegCompoent K) : RobotLegCompoent K :=
  let idealFootPosition := leg.calculateIdealFootPlacementPosition sqrt pelvis
  let leg := { leg with footIdealPosition := idealFootPosition }
  let idealKneePosition := leg.calculateKneePosition sqrt pelvis kneeTarget
  let leg := { leg with kneePosition := leg.kneePosition.lerp idealKneePosition 0.5 }
  let leg := { leg with pelvisPosition := pelvis.getWorldPosition sqrt }
  let idealDistance := idealFootPosition.distanceTo sqrt leg.footActualPosition
  let footToPelvis := leg.pelvisPosition.sub leg.footActualPosition
  let footToPelvisLength := footToPelvis.length sqrt
  let legLength := leg.upperLegLength + leg.lowerLegLength
  if leg.allowStep = false ∧ leg.moving = false ∧ footToPelvisLength < legLength then leg
  else
    let nextStepDistance := leg.endingFootRaisePosition.distanceTo sqrt leg.footActualPosition
    if idealDistance > leg.stepDistance ∧ leg.moving = false then
      { leg with
        moving := true
        movementProgress := 0
        startingFootRaisePosition := leg.footActualPosition
        endingFootRaisePosition := idealFootPosition }
    else
      let leg :=
        if nextStepDistance < 0.01 ∧ leg.moving = true then
          { leg with
            moving := false
            movementProgress := 0
            startingFootRaisePosition := leg.footActualPosition
            endingFootRaisePosition := leg.footActualPosition }
        else leg
      if leg.moving = true then moveFoot sin pi idealFootPosition deltaTime leg else leg

end RobotLegCompoent

/-- What one frame brings to a leg from outside: the `allowStep` flag as the orchestrator last
set it, the frame's `deltaTime`, and the current transforms of the pelvis and of the knee
target. -/
structure LegFrame (K : Type) where
  allowStep : Bool
  deltaTime : K
  pelvis : Transform K
  kneeTarget : Transform K

/-- One frame of a leg: `allowStep` is set from outside, then `update(deltaTime)` runs. -/
def RobotLegCompoent.frame (sqrt sin : K → K) (pi : K) (leg : RobotLegCompoent K)
    (f : LegFrame K) : RobotLegCompoent K :=
  RobotLegCompoent.update sqrt sin pi f.pelvis f.kneeTarget f.deltaTime
    { leg with allowStep := f.allowStep }

/-- A sequence of frames of a leg, first to last. -/
def RobotLegCompoent.run (sqrt sin : K → K) (pi : K) (frames : List (LegFrame K))
    (leg : RobotLegCompoent K) : RobotLegCompoent K :=
  frames.foldl (RobotLegCompoent.frame sqrt sin pi) leg

end RobotLeg

/-! ## Gait orchestrator -/

/-- ACTIVE_LEG_SET of `ecs.js`: `EVEN = 0`, `ODD = 1`, `ALL = 2`, `NONE = 3`. -/
inductive ACTIVE_LEG_SET where
  | EVEN
  | ODD
  | ALL
  | NONE
deriving DecidableEq

/-- RobotLegOrchestratorComponent of `ecs.js`. The leg components it refers to are distinct
objects (each leg has one index); `legComponents` lists their current states in index
order. -/
structure RobotLegOrchestratorComponent (K : Type) where
  legIDs : List String
  legComponents : List (RobotLegCompoent K)
  activeLegSet : ACTIVE_LEG_SET
  timeSinceLastSwitch : K
  minSwitchTime : K

namespace RobotLegOrchestratorComponent

variable {K : Type} [LinearOrderedField K]

/-- The constructor: no leg components yet, `activeLegSet = EVEN`,
`timeSinceLastSwitch = 0`, `minSwitchTime = 2`. -/
def new (legIDs : List String) : RobotLegOrchestratorComponent K :=
  ⟨legIDs, [], ACTIVE_LEG_SET.EVEN, 0, 2⟩

/-- The local function `isValidState(index)` of `setLegStates(state)`. -/
def isValidState (state : ACTIVE_LEG_SET) (index : Nat) : Bool :=
  match state with
  | ACTIVE_LEG_SET.EVEN => index % 2 == 0
  | ACTIVE_LEG_SET.ODD => index % 2 == 1
  | ACTIVE_LEG_SET.ALL => true
  | ACTIVE_LEG_SET.NONE => false

/-- The loop of `setLegStates` from index `i` on:
`this.legComponents[i].allowStep = isValidState(i)`. -/
def setLegStatesFrom (state : ACTIVE_LEG_SET) :
    List (RobotLegCompoent K) → Nat → List (RobotLegCompoent K)
  | [], _ => []
  | leg :: rest, i =>
      { leg with allowStep := isValidState state i } :: setLegStatesFrom state rest (i + 1)

/-- RobotLegOrchestratorComponent.setLegStates, on the leg components. -/
def setLegStates (state : ACTIVE_LEG_SET) (legComponents : List (RobotLegCompoent K)) :
    List (RobotLegCompoent K) :=
  setLegStatesFrom state legComponents 0

/-- RobotLegOrchestratorComponent.start: the leg IDs that resolve to a leg component
(`g_ecs.getEntity(id)` and then `getComponent(RobotLegCompoent)`, `none` when either is null)
are pushed in order, then `activeLegSet = EVEN` and `setLegStates(EVEN)`. -/
def start (resolve : String → Option (RobotLegCompoent K))
    (o : RobotLegOrchestratorComponent K) : RobotLegOrchestratorComponent K :=
  let legComponents := o.legComponents ++ o.legIDs.filterMap resolve
  { o with
    activeLegSet := ACTIVE_LEG_SET.EVEN
    legComponents := setLegStates ACTIVE_LEG_SET.EVEN legComponents }

/-- The loop of `update` that looks for a moving leg, from index `i` on: indices with
`i % 2 != checkIndex` are passed over, the first moving leg among the others ends the loop
with `isMoving = true`. -/
def isMovingFrom (checkIndex : Nat) : List (RobotLegCompoent K) → Nat → Bool
  | [], _ => false
  | leg :: rest, i =>
      if i % 2 ≠ checkIndex then isMovingFrom checkIndex rest (i + 1)
      else if leg.moving = true then true
      else isMovingFrom checkIndex rest (i + 1)

/-- The value `checkIndex` of `update`: 0 for `EVEN` or `ALL`, 1 for `ODD` or `NONE`. -/
def checkIndex (state : ACTIVE_LEG_SET) : Nat :=
  if state = ACTIVE_LEG_SET.EVEN ∨ state = ACTIVE_LEG_SET.ALL then 0
  else if state = ACTIVE_LEG_SET.ODD ∨ state = ACTIVE_LEG_SET.NONE then 1
  else 0

/-- RobotLegOrchestratorComponent.update: after more than `minSwitchTime` without a switch,
`setLegStates(ALL)` and the timer is reset; else, when no leg of the examined group is moving,
the active set is switched, pushed to the legs and the timer is reset; else the timer grows by
`deltaTime`. -/
def update (deltaTime : K) (o : RobotLegOrchestratorComponent K) :
    RobotLegOrchestratorComponent K :=
  let checkIndex := checkIndex o.activeLegSet
  let isMoving := isMovingFrom checkIndex o.legComponents 0
  if o.timeSinceLastSwitch > o.minSwitchTime then
    { o with
      legComponents := setLegStates ACTIVE_LEG_SET.ALL o.legComponents
      timeSinceLastSwitch := 0 }
  else if isMoving = false then
    let activeLegSet :=
      if o.activeLegSet = ACTIVE_LEG_SET.EVEN then ACTIVE_LEG_SET.ODD
      else if o.activeLegSet = ACTIVE_LEG_SET.ODD then ACTIVE_LEG_SET.EVEN
      else if o.activeLegSet = ACTIVE_LEG_SET.ALL then ACTIVE_LEG_SET.EVEN
      else if o.activeLegSet = ACTIVE_LEG_SET.NONE then ACTIVE_LEG_SET.ODD
      else o.activeLegSet
    { o with
      activeLegSet := activeLegSet
      legComponents := setLegStates activeLegSet o.legComponents
      timeSinceLastSwitch := 0 }
  else { o with timeSinceLastSwitch := o.timeSinceLastSwitch + deltaTime }

/-- Some leg of the group with index parity `parity` is moving, in the spec's words. -/
def GroupMoving (parity : Nat) (legComponents : List (RobotLegCompoent K)) : Prop :=
  ∃ i leg, legComponents[i]? = some leg ∧ i % 2 = parity ∧ leg.moving = true

end RobotLegOrchestratorComponent

/-! ## PlayerController: position -/

section PlayerPosition

variable {K : Type} [LinearOrderedField K]

/-- The part of `PlayerController.update` that computes the value stored in
`this.transform.position`: the movement axis `(x, y)` is remapped to `(x, 0, y)`, scaled by
`deltaTime * movementSpeed` and added to the old position (the depth coordinate is
subtracted); a result longer than `walkableRadius` is normalized and multiplied by
`walkableRadius`. The rest of `update` turns the body and does not touch the position. -/
def PlayerController.updatePosition (sqrt : K → K) (movementSpeed walkableRadius : K)
    (oldPosition axis : Vector3 K) (deltaTime : K) : Vector3 K :=
  let axis : Vector3 K := ⟨axis.x, 0, axis.y⟩
  let moveAmount := deltaTime * movementSpeed
  let newPosition : Vector3 K :=
    ⟨oldPosition.x + axis.x * moveAmount, oldPosition.y + axis.y * moveAmount,
      oldPosition.z - axis.z * moveAmount⟩
  if newPosition.length sqrt > walkableRadius then
    (newPosition.normalize sqrt).mul walkableRadius
  else newPosition

/-- The unclamped new position of `PlayerController.update`, in the spec's words:
`(x + axis.x·speed·dt, y, z − axis.y·speed·dt)`. -/
def PlayerController.unclampedPosition (movementSpeed : K) (oldPosition axis : Vector3 K)
    (deltaTime : K) : Vector3 K :=
  ⟨oldPosition.x + axis.x * movementSpeed * deltaTime, oldPosition.y,
    oldPosition.z - axis.y * movementSpeed * deltaTime⟩

end PlayerPosition

/-! ## PlayerController: heading -/

/-- The operations of the absent matrix library's `Quaternion` that `PlayerController.update`
calls, taken as parameters: `new Quaternion().setFromAxisAngle(x, y, z, angle)`,
`a.multiplySelf(b)` (receiver first), `new Quaternion().multiply(a, b)` and
`Quaternion.slerp(a, b, output, t)` (the value stored in `output`). -/
structure QuaternionOps (K : Type) where
  setFromAxisAngle : K → K → K → K → Quaternion K
  multiplySelf : Quaternion K → Quaternion K → Quaternion K
  multiply : Quaternion K → Quaternion K → Quaternion K
  slerp : Quaternion K → Quaternion K → K → Quaternion K

/-- PlayerController of `ecs.js`: the settings given to the constructor, `previousTheta`, and
the `position` and `rotation` of the transform it is attached to. -/
structure PlayerController (K : Type) where
  movementSpeed : K
  rotationSpeed : K
  originalRotation : Quaternion K
  previousTheta : K
  leanAmount : K
  walkableRadius : K
  position : Vector3 K
  rotation : Quaternion K

section PlayerHeading

variable {K : Type} [LinearOrderedField K]

/-- The constructor, with the transform of the node the component is attached to:
`previousTheta = 0`. -/
def PlayerController.new (movementSpeed rotationSpeed leanAmount : K)
    (originalRotation : Quaternion K) (walkableRadius : K) (position : Vector3 K)
    (rotation : Quaternion K) : PlayerController K :=
  ⟨movementSpeed, rotationSpeed, originalRotation, 0, leanAmount, walkableRadius, position,
    rotation⟩

/-- The rotation `PlayerController.update` turns towards, from the yaw `theta` and the lean
angle `leanAmount` it has settled on: the yaw about the y axis times `originalRotation`,
multiplied by `originalRotation` times (the lean about the z axis times
`originalRotation`). -/
def PlayerController.targetRotation (q : QuaternionOps K) (originalRotation : Quaternion K)
    (theta leanAmount : K) : Quaternion K :=
  let yRotation := q.multiplySelf (q.setFromAxisAngle 0 1 0 theta) originalRotation
  let iKLean := q.multiplySelf (q.setFromAxisAngle 0 0 1 leanAmount) originalRotation
  let iKLean := q.multiply originalRotation iKLean
  q.multiply yRotation iKLean

/-- PlayerController.update, for the movement axis `axis` read from the input manager: the
position is moved and clamped (`updatePosition`); `theta` is `atan2(axis.x, -axis.z)` in
degrees, or `previousTheta` when the remapped axis is zero, and is stored in `previousTheta`;
the lean angle is `leanAmount`, or 0 when the remapped axis is zero; the rotation is the
`slerp` from the current rotation towards the target rotation by `rotationSpeed * deltaTime`.
`Math.atan2` and `Math.PI` are parameters. -/
def PlayerController.update (sqrt : K → K) (atan2 : K → K → K) (pi : K) (q : QuaternionOps K)
    (axis : Vector3 K) (deltaTime : K) (c : PlayerController K) : PlayerController K :=
  let newPosition :=
    PlayerController.updatePosition sqrt c.movementSpeed c.walkableRadius c.position axis
      deltaTime
  let axis : Vector3 K := ⟨axis.x, 0, axis.y⟩
  let theta := atan2 axis.x (-axis.z)
  let theta := theta * 180 / pi
  let theta := if axis.x = 0 ∧ axis.z = 0 then c.previousTheta else theta
  let leanAmount := if axis.x = 0 ∧ axis.z = 0 then 0 else c.leanAmount
  let yRotation := PlayerController.targetRotation q c.originalRotation theta leanAmount
  { c with
    position := newPosition
    previousTheta := theta
    rotation := q.slerp c.rotation yRotation (c.rotationSpeed * deltaTime) }

/-- Consecutive frames of `PlayerController.update`, each with its movement axis and its
`deltaTime`. -/
def PlayerController.run (sqrt : K → K) (atan2 : K → K → K) (pi : K) (q : QuaternionOps K)
    (frames : List (Vector3 K × K)) (c : PlayerController K) : PlayerController K :=
  frames.foldl (fun c f => PlayerController.update sqrt atan2 pi q f.1 f.2 c) c

end PlayerHeading

/-! ## CameraControllerComponent -/

/-- ButtonState of `input.js`: `DOWN_THIS_FRAME = 0`, `DOWN = 1`, `UP_THIS_FRAME = 2`,
`UP = 3`. -/
inductive ButtonState where
  | DOWN_THIS_FRAME
  | DOWN
  | UP_THIS_FRAME
  | UP
deriving DecidableEq

/-- What one call of `CameraControllerComponent.update` reads from outside the component:
the states of the space key and of `mouse0`, `g_inputManager.clickedCanvas`, the mouse
change, the position of the followed entity (`none` when `g_ecs.getEntity(entityFollowID)` is
null) and the position of the camera. -/
structure CameraFrame (K : Type) where
  space : ButtonState
  mouse0 : ButtonState
  clickedCanvas : String
  mouseChange : Vector3 K
  followEntity : Option (Vector3 K)
  cameraPosition : Vector3 K

/-- CameraControllerComponent of `ecs.js`: `cameraEntityID`, `rotationSpeed`, `mode`
(`CAMERA_MODE.FOLLOW = 0`, `CAMERA_MODE.AIRPLANE = 1`), `phi`, `theta`, and the `disabled`
flag of the PlayerController it holds (`none` when `playerController` is null). The pose
written to the camera object is not represented. -/
structure CameraControllerComponent (K : Type) where
  cameraEntityID : String
  rotationSpeed : K
  mode : Nat
  phi : K
  theta : K
  playerController : Option Bool

namespace CameraControllerComponent

variable {K : Type} [LinearOrderedField K]

/-- The constructor: `mode = CAMERA_MODE.FOLLOW`, `phi = 0`, `theta = 0`. -/
def new (cameraEntityID : String) (rotationSpeed : K) (playerController : Option Bool) :
    CameraControllerComponent K :=
  ⟨cameraEntityID, rotationSpeed, 0, 0, 0, playerController⟩

/-- CameraControllerComponent.handleFollowMode: nothing when the followed entity is null; else
the held PlayerController is enabled and `theta`, `phi` are set from the normalized direction
from the camera to the entity. `Math.atan2` and `Math.acos` are parameters. -/
def handleFollowMode (sqrt : K → K) (atan2 : K → K → K) (acos : K → K) (f : CameraFrame K)
    (c : CameraControllerComponent K) : CameraControllerComponent K :=
  match f.followEntity with
  | none => c
  | some entityPosition =>
      let lookAtDirection := (entityPosition.sub f.cameraPosition).normalize sqrt
      { c with
        playerController := c.playerController.map (fun _ => false)
        theta := atan2 lookAtDirection.z lookAtDirection.x
        phi := acos lookAtDirection.y }

/-- The two statements after the comment "clamp the phi" in `handleAirplaneMode`. -/
def clampPhi (pi : K) (c : CameraControllerComponent K) : CameraControllerComponent K :=
  let c := if c.phi < 0.1 then { c with phi := 0.1 } else c
  if c.phi > pi - 0.1 then { c with phi := pi - 0.1 } else c

/-- CameraControllerComponent.handleAirplaneMode: the held PlayerController is disabled; when
`mouse0` is `DOWN` the call returns if the clicked canvas is not the camera's, else `theta` and
`phi` are moved by the mouse change; then `phi` is clamped. `Math.PI` is a parameter. -/
def handleAirplaneMode (pi : K) (f : CameraFrame K) (deltaTime : K)
    (c : CameraControllerComponent K) : CameraControllerComponent K :=
  let c := { c with playerController := c.playerController.map (fun _ => true) }
  if f.mouse0 = ButtonState.DOWN then
    if f.clickedCanvas ≠ c.cameraEntityID then c
    else
      clampPhi pi
        { c with
          theta := c.theta + f.mouseChange.x * -c.rotationSpeed * deltaTime
          phi := c.phi + f.mouseChange.y * -c.rotationSpeed * deltaTime }
  else clampPhi pi c

/-- CameraControllerComponent.update: the space key, down this frame, switches the mode to
`(mode + 1) % 2`; then `handleFollowMode` runs for `FOLLOW`, `handleAirplaneMode` for
`AIRPLANE`, and nothing for any other value of `mode`. -/
def update (sqrt : K → K) (atan2 : K → K → K) (acos : K → K) (pi : K) (f : CameraFrame K)
    (deltaTime : K) (c : CameraControllerComponent K) : CameraControllerComponent K :=
  let c :=
    if f.space = ButtonState.DOWN_THIS_FRAME then { c with mode := (c.mode + 1) % 2 } else c
  if c.mode = 0 then handleFollowMode sqrt atan2 acos f c
  else if c.mode = 1 then handleAirplaneMode pi f deltaTime c
  else c

/-- Consecutive calls of `update`, each with what it reads and its `deltaTime`. -/
def run (sqrt : K → K) (atan2 : K → K → K) (acos : K → K) (pi : K)
    (frames : List (CameraFrame K × K)) (c : CameraControllerComponent K) :
    CameraControllerComponent K :=
  frames.foldl (fun c f => update sqrt atan2 acos pi f.1 f.2 c) c

/-- The PlayerController held by the camera controller, as a component of its own entity: its
`disabled` flag is the one the camera controller writes; its `update` is a parameter. -/
def heldPlayerController {D : Type}
    (update : D → CameraControllerComponent K → CameraControllerComponent K) :
    Component (CameraControllerComponent K) D :=
  ⟨id, update, fun s => s.playerController == some true⟩

end CameraControllerComponent

/-! ## LightingRegistry -/

/-- Light of `lighting.js`. -/
structure Light (K : Type) where
  lightType : Nat
  diffuseColor : Vector3 K
  specularColor : Vector3 K
  intensity : K
  attenuationFunction : Nat
  position : Vector3 K
  transformBinding : Option (Transform K)
  active : Bool

/-- The constructor of `Light` with the default `attenuationFunction = 2`: the position is
copied, no transform is bound, the light is active. -/
def Light.new {K : Type} (lightType : Nat) (diffuseColor specularColor : Vector3 K)
    (intensity : K) (position : Vector3 K) : Light K :=
  ⟨lightType, diffuseColor, specularColor, intensity, 2, position, none, true⟩

/-- LightingRegistry of `lighting.js`: the light list and `MAX_LIGHTS`. (The uniform
locations and the ambient light take no part in `addLight`.) -/
structure LightingRegistry (K : Type) where
  lights : List (Light K)
  MAX_LIGHTS : Nat

namespace LightingRegistry

variable {K : Type}

/-- The constructor: the given light list and `MAX_LIGHTS = 16`. -/
def new (lights : List (Light K)) : LightingRegistry K := ⟨lights, 16⟩

/-- LightingRegistry.addLight: `null` when `this.lights.length > this.MAX_LIGHTS`, else a new
light is pushed and returned. -/
def addLight (r : LightingRegistry K) (diffuseColor specularColor : Vector3 K) (intensity : K)
    (position : Vector3 K) (lightType : Nat) : LightingRegistry K × Option (Light K) :=
  if r.lights.length > r.MAX_LIGHTS then (r, none)
  else
    let light := Light.new lightType diffuseColor specularColor intensity position
    ({ r with lights := r.lights ++ [light] }, some light)

end LightingRegistry

/-! ## MaterialRegistry -/

/-- MaterialParameter of `material.js`. -/
structure MaterialParameter (V : Type) where
  name : String
  value : V
deriving DecidableEq

/-- Material of `material.js`. -/
structure Material (V : Type) where
  name : String
  shaderName : String
  params : List (MaterialParameter V)
deriving DecidableEq

/-- MaterialRegistry of `material.js`: the map `materials`, as its entries in insertion order
(the order of `for (let [key, material] of this.materials)`). -/
structure MaterialRegistry (V : Type) where
  materials : List (String × Material V)

namespace MaterialRegistry

variable {V : Type}

/-- The inner loop of `setGlobalParam`: the first parameter called `name` gets the value and
the loop ends (`break`). -/
def setFirstParam (name : String) (value : V) :
    List (MaterialParameter V) → List (MaterialParameter V)
  | [] => []
  | p :: ps =>
      if p.name = name then { p with value := value } :: ps
      else p :: setFirstParam name value ps

/-- MaterialRegistry.setGlobalParam: for each material, the inner loop and then
`material.params.push(new MaterialParameter(name, value))`. -/
def setGlobalParam (r : MaterialRegistry V) (name : String) (value : V) : MaterialRegistry V :=
  ⟨r.materials.map (fun km =>
    (km.1,
      { km.2 with params := setFirstParam name value km.2.params ++ [⟨name, value⟩] }))⟩

/-- Number of parameters of a material that are called `name`. -/
def paramCount (name : String) (m : Material V) : Nat :=
  (m.params.filter (fun p => p.name = name)).length

end MaterialRegistry

/-! ## Runs of the gait orchestrator -/

/-- What can happen to a RobotLegOrchestratorComponent after its construction: `start()` (with
the resolution of leg IDs), `update(deltaTime)`, and, between these calls, any change of the
leg components' states by the legs' own updates. -/
inductive OrchestratorStep (K : Type) where
  | start (resolve : String → Option (RobotLegCompoent K))
  | update (deltaTime : K)
  | legs (change : List (RobotLegCompoent K) → List (RobotLegCompoent K))

namespace RobotLegOrchestratorComponent

variable {K : Type} [LinearOrderedField K]

/-- One step of a run. -/
def step (o : RobotLegOrchestratorComponent K) :
    OrchestratorStep K → RobotLegOrchestratorComponent K
  | OrchestratorStep.start resolve => o.start resolve
  | OrchestratorStep.update deltaTime => o.update deltaTime
  | OrchestratorStep.legs change => { o with legComponents := change o.legComponents }

/-- The state after the constructor and a sequence of steps. -/
def run (legIDs : List String) (steps : List (OrchestratorStep K)) :
    RobotLegOrchestratorComponent K :=
  steps.foldl step (RobotLegOrchestratorComponent.new legIDs)

end RobotLegOrchestratorComponent

/-! ## Scene nodes as objects -/

/-- A SceneNode object as far as `setParent`, `addChild`, `addChildren` and `removeChild` go:
the references in `children`, the reference `parent` (`none` for `null`), and the node whose
transform is `transform.parent`. Every node has a transform of its own, as the constructor's
default and `createObject` give it. -/
structure NodeCell where
  children : List Nat
  parent : Option Nat
  transformParent : Option Nat
deriving DecidableEq

/-- The SceneNode objects, by reference. -/
structure NodeStore where
  cell : Nat → NodeCell

/-- A call made on a node: `node.addChild(child)`, `node.addChildren(children)` or
`node.removeChild(child)`. -/
inductive NodeOp where
  | addChild (node child : Nat)
  | addChildren (node : Nat) (children : List Nat)
  | removeChild (node child : Nat)
deriving DecidableEq

namespace NodeStore

/-- Fresh SceneNodes: every node as its constructor leaves it, `children = []` and
`parent = null`, its transform without parent. -/
def fresh : NodeStore := ⟨fun _ => ⟨[], none, none⟩⟩

/-- The assignment of a new state to the object `node`. -/
def write (h : NodeStore) (node : Nat) (c : NodeCell) : NodeStore :=
  ⟨fun n => if n = node then c else h.cell n⟩

/-- SceneNode.setParent: `this.parent = parent; this.transform.parent = parent.transform`. -/
def setParent (h : NodeStore) (node parent : Nat) : NodeStore :=
  h.write node { h.cell node with parent := some parent, transformParent := some parent }

/-- SceneNode.addChild: `child.setParent(this); this.children.push(child)`. -/
def addChild (h : NodeStore) (node child : Nat) : NodeStore :=
  let h := h.setParent child node
  h.write node { h.cell node with children := (h.cell node).children ++ [child] }

/-- SceneNode.addChildren: `addChild` for each element, in order. -/
def addChildren (h : NodeStore) (node : Nat) (children : List Nat) : NodeStore :=
  children.foldl (fun h child => h.addChild node child) h

/-- SceneNode.removeChild: the children other than `child` are kept, then
`child.parent = null`. -/
def removeChild (h : NodeStore) (node child : Nat) : NodeStore :=
  let h := h.write node
    { h.cell node with children := (h.cell node).children.filter (fun value => value != child) }
  h.write child { h.cell child with parent := none }

/-- One call. -/
def apply (h : NodeStore) : NodeOp → NodeStore
  | NodeOp.addChild node child => h.addChild node child
  | NodeOp.addChildren node children => h.addChildren node children
  | NodeOp.removeChild node child => h.removeChild node child

/-- The state reached from fresh SceneNodes through a sequence of calls. -/
def run (ops : List NodeOp) : NodeStore := ops.foldl apply fresh

/-- The parent pointer in sync with the owning children list, in the spec's words: `c` occurs
in `p.children` if and only if `c.parent` is `p`, then `c.transform.parent` is `p.transform`,
and no node occurs in the children lists of two different nodes. -/
def InSync (h : NodeStore) : Prop :=
  (∀ p c : Nat, c ∈ (h.cell p).children ↔ (h.cell c).parent = some p) ∧
  (∀ p c : Nat, c ∈ (h.cell p).children → (h.cell c).transformParent = some p) ∧
  (∀ p q c : Nat, c ∈ (h.cell p).children → c ∈ (h.cell q).children → p = q)

/-- The node `child` has no parent, or its parent is `node`. -/
def ParentFree (h : NodeStore) (node child : Nat) : Prop :=
  (h.cell child).parent = none ∨ (h.cell child).parent = some node

/-- Every element of `children` has no parent or the parent `node` when `addChildren` reaches
it. -/
def ChildrenFree (node : Nat) : NodeStore → List Nat → Prop
  | _, [] => True
  | h, child :: children =>
      h.ParentFree node child ∧ ChildrenFree node (h.addChild node child) children

/-- The call is made on a child (or on children) without parent or with the receiver as
parent. -/
def Admits (h : NodeStore) : NodeOp → Prop
  | NodeOp.addChild node child => h.ParentFree node child
  | NodeOp.addChildren node children => ChildrenFree node h children
  | NodeOp.removeChild node child => h.ParentFree node child

/-- Every call of the sequence is admitted in the state it is made in. -/
def AdmitsAll : NodeStore → List NodeOp → Prop
  | _, [] => True
  | h, op :: ops => h.Admits op ∧ AdmitsAll (h.apply op) ops

end NodeStore

/-! ## The ECS together with the scene graph -/

/-- The ECS with the scene graph it is tied to: the registry, the SceneNode objects, the root
node of the scene graph, the reference the next `new SceneNode` gets, and the object
`entityToNode`. -/
structure World (σ D : Type) where
  ecs : ECS σ D
  nodes : NodeStore
  root : Nat
  next : Nat
  entityToNode : JSObject Nat

namespace World

variable {σ D : Type}

/-- A new scene graph (its root is node 0) and a new ECS on it. -/
def new : World σ D := ⟨ECS.new, NodeStore.fresh, 0, 1, JSObject.empty⟩

/-- ECS.createEntity: a node is created, the entity is built and registered under its name
(`ECS.createEntity` above), `entityToNode[entityName] = node`, and the node is added to the
parent entity's node, or to the scene graph (`root.addChild`) when `parent` is null. The parent
entity is given by its node. The result is the new state, the entity and its node. -/
def createEntity (w : World σ D) (uuid entityName : String) (parent : Option Nat)
    (components : List (Component σ D)) : World σ D × Entity σ D × Nat :=
  let node := w.next
  let registered := w.ecs.createEntity uuid entityName components
  let nodes :=
    match parent with
    | some parentNode => w.nodes.addChild parentNode node
    | none => w.nodes.addChild w.root node
  (⟨registered.1, nodes, w.root, w.next + 1, w.entityToNode.set registered.2.name node⟩,
    registered.2, node)

/-- The name `buildCrystal` of `scene.js` gives the child crystal `i`:
`"child_crystal_" + i + "_" + i`. -/
def childCrystalName (i : Nat) : String :=
  "child_crystal_" ++ toString i ++ "_" ++ toString i

/-- The loop of `buildCrystal` that creates the child crystals `i`, `i + 1`, ... below 3,
with the crystal's node as parent. -/
def buildChildCrystals (uuid : String) (crystalNode : Nat)
    (childComponents : List (Component σ D)) : Nat → Nat → World σ D → World σ D
  | 0, _, w => w
  | fuel + 1, i, w =>
      if i < 3 then
        buildChildCrystals uuid crystalNode childComponents fuel (i + 1)
          (w.createEntity uuid (childCrystalName i) (some crystalNode) childComponents).1
      else w

/-- The function `buildCrystal(identifier, position, scale, parent)` of `scene.js`, as far as
the registry and the scene graph go: the crystal entity is created under `identifier`, then
three child crystals under it. The components built inside are parameters. -/
def buildCrystal (w : World σ D) (uuid identifier : String) (parent : Option Nat)
    (crystalComponents childComponents : List (Component σ D)) : World σ D × Entity σ D × Nat :=
  let crystal := w.createEntity uuid identifier parent crystalComponents
  (buildChildCrystals uuid crystal.2.2 childComponents 3 0 crystal.1, crystal.2.1, crystal.2.2)

end World

/-- A call that registers an entity: `createEntity(...)` or `addEntity(name, entity)`. -/
inductive WorldOp (σ D : Type) where
  | createEntity (uuid entityName : String) (parent : Option Nat)
      (components : List (Component σ D))
  | addEntity (name : String) (entity : Entity σ D)

namespace World

variable {σ D : Type}

/-- One registering call. -/
def apply (w : World σ D) : WorldOp σ D → World σ D
  | WorldOp.createEntity uuid entityName parent components =>
      (w.createEntity uuid entityName parent components).1
  | WorldOp.addEntity name entity => { w with ecs := w.ecs.addEntity name entity }

/-- The state reached from a new scene graph and ECS through a sequence of registering
calls. -/
def run (ops : List (WorldOp σ D)) : World σ D := ops.foldl apply World.new

end World

/-! ## Example data -/

/-- A transform without parent: position `(1, 2, 3)`, identity rotation, unit scale. -/
def exampleParentTransform : Transform ℚ :=
  Transform.mk ⟨1, 2, 3⟩ ⟨0, 0, 0, 1⟩ ⟨1, 1, 1⟩ none

/-- A transform whose parent is `exampleParentTransform`: position `(4, 5, 6)`, a rotation
quaternion of length 2, scale `(2, 2, 2)`. -/
def exampleChildTransform : Transform ℚ :=
  Transform.mk ⟨4, 5, 6⟩ ⟨0, 0, 2, 0⟩ ⟨2, 2, 2⟩ (some exampleParentTransform)

/-- A scene graph built with `addObject` and `addChild`: the root holds a cube, which holds a
ball. -/
def exampleSceneGraph : SceneGraph ℚ :=
  SceneGraph.new.addObject
    ((SceneNode.createObject "cube" "red" (some ⟨1, 0, 0⟩) none none).addChild
      (SceneNode.createObject "ball" "blue" (some ⟨0, 2, 0⟩) none (some ⟨2, 2, 2⟩)))

/-- A component over the state "list of tags": `start()` and `update(deltaTime)` append the
component's tag; it is never disabled. -/
def tagComponent (tag : String) : Component (List String) Unit :=
  ⟨fun s => s ++ [tag], fun _ s => s ++ [tag], fun _ => false⟩

/-- Two registrations whose names are array indices: "2" first, then "1". -/
def exampleIndexRegistrations : List (String × Entity (List String) Unit) :=
  [("2", ⟨"2", [tagComponent "first"]⟩), ("1", ⟨"1", [tagComponent "second"]⟩)]

/-- Three registrations, the third under the name of the first. -/
def exampleDuplicateRegistrations : List (String × Entity (List String) Unit) :=
  [("a", ⟨"a", [tagComponent "A1"]⟩), ("b", ⟨"b", [tagComponent "B"]⟩),
   ("a", ⟨"a", [tagComponent "A2"]⟩)]

/-- Two registrations with distinct names, neither an array index. -/
def exampleRegistrations : List (String × Entity (List String) Unit) :=
  [("player", ⟨"player", [tagComponent "p1", tagComponent "p2"]⟩),
   ("light", ⟨"light", [tagComponent "l"]⟩)]

/-- The player entity with its PlayerController, registered before the entity that carries the
CameraControllerComponent; the space key is down this frame and the followed entity exists. -/
def exampleControlRegistrations : List (String × Entity ControlState Unit) :=
  [("player", ⟨"player", [playerController (fun _ s => s)]⟩),
   ("camera controller", ⟨"camera controller", [cameraControllerComponent true true]⟩)]

/-- One registration under the name `__proto__`. -/
def examplePrototypeRegistrations : List (String × Entity (List String) Unit) :=
  [("__proto__", ⟨"__proto__", [tagComponent "hidden"]⟩)]

/-- A leg with both leg lengths 1, foot offset `(3, 0, 0)` and ground height 0, started under a
pelvis at the origin with the knee target at `(0, 1, 0)`: its foot stands at `(3, 0, 0)`. -/
def exampleLeg (K : Type) [LinearOrderedField K] (sqrt : K → K) : RobotLegCompoent K :=
  (RobotLegCompoent.new ⟨3, 0, 0⟩ 0 1 1 1).start sqrt
    (Transform.new (some ⟨0, 0, 0⟩) none none none)
    (Transform.new (some ⟨0, 1, 0⟩) none none none)

/-- The knee target of `exampleLeg`. -/
def exampleKneeTarget (K : Type) [LinearOrderedField K] : Transform K :=
  Transform.new (some ⟨0, 1, 0⟩) none none none

/-- A pelvis that has moved to `(5/2, 0, 0)`. -/
def examplePelvisAhead (K : Type) [LinearOrderedField K] : Transform K :=
  Transform.new (some ⟨5 / 2, 0, 0⟩) none none none

/-- A pelvis that has moved to `(3, 0, 0)`, right above the foot of `exampleLeg`. -/
def examplePelvisAbove (K : Type) [LinearOrderedField K] : Transform K :=
  Transform.new (some ⟨3, 0, 0⟩) none none none

/-- The leg `exampleLeg` after the orchestrator has set `allowStep = false`. -/
def exampleHeldLeg (K : Type) [LinearOrderedField K] (sqrt : K → K) : RobotLegCompoent K :=
  { exampleLeg K sqrt with allowStep := false }

/-- The leg `exampleLeg` in the stepping state, its foot at the end anchor. -/
def exampleSteppingLeg (K : Type) [LinearOrderedField K] (sqrt : K → K) : RobotLegCompoent K :=
  { exampleLeg K sqrt with moving := true }

/-- An orchestrator over two constructed legs, neither moving, in the given gait state and with
the given time since the last switch. -/
def exampleOrchestrator (state : ACTIVE_LEG_SET) (timeSinceLastSwitch : ℚ) :
    RobotLegOrchestratorComponent ℚ :=
  ⟨["robot_leg_0", "robot_leg_1"],
   [RobotLegCompoent.new ⟨1, 0, 0⟩ 0 1 1 1, RobotLegCompoent.new ⟨0, 0, 1⟩ 0 1 1 1],
   state, timeSinceLastSwitch, 2⟩

/-- The registry after a list of `addEntity` calls on a new ECS. -/
def registered {σ D : Type} (regs : List (String × Entity σ D)) : ECS σ D :=
  regs.foldl (fun ecs r => ecs.addEntity r.1 r.2) ECS.new

/-- Names under which the `entities` object keeps registration order: pairwise distinct and
different from the pre-registered "camera", none an array index, none `__proto__`. -/
def OrdinaryNames (names : List String) : Prop :=
  ("camera" :: names).Nodup ∧ ∀ n ∈ names, isArrayIndex n = false ∧ n ≠ "__proto__"

instance (names : List String) : Decidable (OrdinaryNames names) := by
  unfold OrdinaryNames
  infer_instance

/-- Stand-ins for the quaternion operations in concrete runs: the axis scaled by the angle with
`w = 1`, the Hamilton product for both products, and the blend `a + (b − a)·t` for `slerp`. -/
def exampleQuaternionOps : QuaternionOps ℚ where
  setFromAxisAngle := fun x y z angle => ⟨x * angle, y * angle, z * angle, 1⟩
  multiplySelf := fun a b =>
    ⟨a.w * b.x + a.x * b.w + a.y * b.z - a.z * b.y, a.w * b.y - a.x * b.z + a.y * b.w + a.z * b.x,
      a.w * b.z + a.x * b.y - a.y * b.x + a.z * b.w, a.w * b.w - a.x * b.x - a.y * b.y - a.z * b.z⟩
  multiply := fun a b =>
    ⟨a.w * b.x + a.x * b.w + a.y * b.z - a.z * b.y, a.w * b.y - a.x * b.z + a.y * b.w + a.z * b.x,
      a.w * b.z + a.x * b.y - a.y * b.x + a.z * b.w, a.w * b.w - a.x * b.x - a.y * b.y - a.z * b.z⟩
  slerp := fun a b t =>
    ⟨a.x + (b.x - a.x) * t, a.y + (b.y - a.y) * t, a.z + (b.z - a.z) * t, a.w + (b.w - a.w) * t⟩

/-- A PlayerController that last headed to 90 degrees: speed 10, lean 20, walkable radius 100,
standing at `(1, 0, 2)`. -/
def examplePlayerController : PlayerController ℚ :=
  { PlayerController.new 10 1 20 ⟨0, 0, 0, 1⟩ 100 ⟨1, 0, 2⟩ ⟨0, 0, 0, 1⟩ with previousTheta := 90 }

/-- A camera controller as its constructor leaves it (`FOLLOW`, `phi = 0`, `theta = 0`) for the
camera "webgl", holding a PlayerController that is not disabled. -/
def exampleCameraController (K : Type) [LinearOrderedField K] : CameraControllerComponent K :=
  CameraControllerComponent.new "webgl" 1 (some false)

/-- A frame in which the space key went down, `mouse0` is held down after a click on the other
canvas "webgl2", and the mouse moved by `(4, 3)`. -/
def exampleOtherCanvasFrame (K : Type) [LinearOrderedField K] : CameraFrame K :=
  ⟨ButtonState.DOWN_THIS_FRAME, ButtonState.DOWN, "webgl2", ⟨4, 3, 0⟩, some ⟨0, 0, 0⟩, ⟨0, 5, 10⟩⟩

/-- A white point light at the origin. -/
def exampleLight : Light ℚ := Light.new 0 ⟨1, 1, 1⟩ ⟨1, 1, 1⟩ 1 ⟨0, 0, 0⟩

/-- A registry with two materials: "crystal" has the parameters `u_color` and `u_time`,
"ground" has the parameter `u_color` only. -/
def exampleMaterialRegistry : MaterialRegistry ℚ :=
  ⟨[("crystal", ⟨"crystal", "lit", [⟨"u_color", 5⟩, ⟨"u_time", 0⟩]⟩),
    ("ground", ⟨"ground", "lit", [⟨"u_color", 3⟩]⟩)]⟩

/-- A run that reaches the timeout: one leg is resolved by `start()`, it starts moving, and an
`update(3)` finds it moving, so that 3 seconds have passed since the last switch. -/
def exampleTimeoutSteps : List (OrchestratorStep ℚ) :=
  [OrchestratorStep.start
     (fun id => if id = "robot_leg_0" then some (RobotLegCompoent.new ⟨1, 0, 0⟩ 0 1 1 1) else none),
   OrchestratorStep.legs (fun legs => legs.map (fun leg => { leg with moving := true })),
   OrchestratorStep.update 3]

/-- The scene after `buildCrystal("crystal_0_0", ...)` on a new scene: the crystal is node 1, its
child crystals are the nodes 2, 3 and 4; every child carries a component tagged
"child of 0". -/
def exampleCrystalWorld : World (List String) Unit :=
  (World.new.buildCrystal "uuid" "crystal_0_0" none [tagComponent "crystal 0"]
    [tagComponent "child of 0"]).1

/-- The scene after two calls of `buildCrystal`, for "crystal_0_0" and "crystal_0_1". -/
def exampleTwoCrystalsWorld : World (List String) Unit :=
  (exampleCrystalWorld.buildCrystal "uuid" "crystal_0_1" none [tagComponent "crystal 1"]
    [tagComponent "child of 1"]).1

/-- The registering calls of `buildCrystal("crystal_0_0", ...)` on a new scene, followed by the
creation of the entity of a second crystal, "crystal_0_1" (node 5). -/
def exampleCrystalOps : List (WorldOp (List String) Unit) :=
  [WorldOp.createEntity "uuid" "crystal_0_0" none [tagComponent "crystal 0"],
   WorldOp.createEntity "uuid" (World.childCrystalName 0) (some 1) [tagComponent "child of 0"],
   WorldOp.createEntity "uuid" (World.childCrystalName 1) (some 1) [tagComponent "child of 0"],
   WorldOp.createEntity "uuid" (World.childCrystalName 2) (some 1) [tagComponent "child of 0"],
   WorldOp.createEntity "uuid" "crystal_0_1" none [tagComponent "crystal 1"]]

/-! ## Theorems: transforms and traversal -/

section SceneTheorems

set_option linter.unusedSectionVars false

variable {K : Type} [LinearOrderedField K]

theorem Transform.getWorldModelMatrix_eq (sqrt : K → K) (t : Transform K) :
    t.getWorldModelMatrix sqrt = t.parentWorldMatrix sqrt * t.getLocalModelMatrix sqrt := by
  cases t with
  | mk p r s q =>
    cases q with
    | none => simp [Transform.getWorldModelMatrix, Transform.parentWorldMatrix, Transform.parent]
    | some q =>
      simp [Transform.getWorldModelMatrix, Transform.parentWorldMatrix, Transform.parent,
        Matrix4.multiply]

theorem Transform.getLocalModelMatrix_origin (sqrt : K → K) (t : Transform K) :
    (t.getLocalModelMatrix sqrt).mulVec ![0, 0, 0, 1] =
      ![t.position.x, t.position.y, t.position.z, 1] := by
  funext i
  fin_cases i <;>
    simp [Transform.getLocalModelMatrix, Matrix4.multiply, Matrix4.setTranslate,
      Matrix4.setScale, Matrix4.setFromQuat, Matrix.mulVec, Matrix.dotProduct,
      Fin.sum_univ_four, Matrix.mul_apply]

theorem Transform.getWorldPosition_eq (sqrt : K → K) (t : Transform K) :
    t.getWorldPosition sqrt = (t.parentWorldMatrix sqrt).multiplyVector3 t.position := by
  have h : (t.getWorldModelMatrix sqrt).mulVec ![0, 0, 0, 1] =
      (t.parentWorldMatrix sqrt).mulVec ![t.position.x, t.position.y, t.position.z, 1] := by
    rw [Transform.getWorldModelMatrix_eq, ← Matrix.mulVec_mulVec,
      Transform.getLocalModelMatrix_origin]
  simp only [Transform.getWorldPosition, Matrix4.multiplyVector4, Matrix4.multiplyVector3, h]

mutual
theorem SceneGraph.traverseHelper_inv (sqrt : K → K) :
    ∀ (n : SceneNode K) (M : Matrix4 K), n.Linked →
      M = n.transform.parentWorldMatrix sqrt →
      ∀ v ∈ SceneGraph._traverseHelper sqrt n M,
        v.modelMatrix = v.node.transform.getWorldModelMatrix sqrt ∧
        v.worldPosition =
          (v.node.transform.parentWorldMatrix sqrt).multiplyVector3 v.node.transform.position
  | .mk ri t cs, M, hl, hM, v, hv => by
      simp only [SceneGraph._traverseHelper, List.mem_cons] at hv
      rcases hv with rfl | hv
      · simp only [SceneNode.transform] at hM ⊢
        simp [Transform.getWorldModelMatrix_eq, hM, Matrix4.multiply]
      · have hl2 : SceneNode.LinkedList t cs := by simpa [SceneNode.Linked] using hl
        refine SceneGraph.traverseChildren_inv sqrt cs t _ hl2 ?_ v hv
        simp only [SceneNode.transform] at hM
        rw [Transform.getWorldModelMatrix_eq, hM]
        rfl
theorem SceneGraph.traverseChildren_inv (sqrt : K → K) :
    ∀ (cs : List (SceneNode K)) (t : Transform K) (M : Matrix4 K), SceneNode.LinkedList t cs →
      M = t.getWorldModelMatrix sqrt →
      ∀ v ∈ SceneGraph._traverseChildren sqrt cs M,
        v.modelMatrix = v.node.transform.getWorldModelMatrix sqrt ∧
        v.worldPosition =
          (v.node.transform.parentWorldMatrix sqrt).multiplyVector3 v.node.transform.position
  | [], _, _, _, _, v, hv => by simp [SceneGraph._traverseChildren] at hv
  | c :: cs, t, M, hl, hM, v, hv => by
      simp only [SceneGraph._traverseChildren, List.mem_append] at hv
      simp only [SceneNode.LinkedList] at hl
      obtain ⟨hp, hc, hcs⟩ := hl
      rcases hv with hv | hv
      · exact SceneGraph.traverseHelper_inv sqrt c M hc
          (by simp [Transform.parentWorldMatrix, hp, hM]) v hv
      · exact SceneGraph.traverseChildren_inv sqrt cs t M hcs hM v hv
end

theorem SceneGraph.traverse_inv (sqrt : K → K) (g : SceneGraph K)
    (hroot : g.root.transform.parent = none) (hl : g.root.Linked) :
    ∀ v ∈ g.traverse sqrt,
      v.modelMatrix = v.node.transform.getWorldModelMatrix sqrt ∧
      v.worldPosition =
        (v.node.transform.parentWorldMatrix sqrt).multiplyVector3 v.node.transform.position :=
  SceneGraph.traverseHelper_inv sqrt g.root 1 hl
    (by simp [Transform.parentWorldMatrix, hroot])

theorem Transform.getWorldModelMatrix_path (sqrt : K → K) :
    ∀ t : Transform K, t.getWorldModelMatrix sqrt =
      (t.path.map (Transform.getLocalModelMatrix sqrt)).foldl (fun a b => a.multiply b) 1
  | .mk p r s none => by
      simp [Transform.getWorldModelMatrix, Transform.path, Matrix4.multiply]
  | .mk p r s (some q) => by
      simp [Transform.getWorldModelMatrix, Transform.path, List.foldl_append,
        Transform.getWorldModelMatrix_path sqrt q]

mutual
theorem SceneNode.setParent_linked : ∀ (n : SceneNode K) (p : Transform K),
    (n.setParent p).Linked ∧ (n.setParent p).transform.parent = some p
  | .mk ri t cs, p => by
      simp only [SceneNode.setParent, SceneNode.Linked, SceneNode.transform, Transform.parent,
        and_true]
      exact SceneNode.setParentList_linked cs _
theorem SceneNode.setParentList_linked : ∀ (cs : List (SceneNode K)) (p : Transform K),
    SceneNode.LinkedList p (SceneNode.setParentList cs p)
  | [], _ => by simp [SceneNode.setParentList, SceneNode.LinkedList]
  | c :: cs, p => by
      simp only [SceneNode.setParentList, SceneNode.LinkedList]
      exact ⟨(SceneNode.setParent_linked c p).2, (SceneNode.setParent_linked c p).1,
        SceneNode.setParentList_linked cs p⟩
end

theorem SceneNode.linkedList_append (t : Transform K) :
    ∀ (cs ds : List (SceneNode K)), SceneNode.LinkedList t cs → SceneNode.LinkedList t ds →
      SceneNode.LinkedList t (cs ++ ds)
  | [], _, _, hd => by simpa using hd
  | c :: cs, ds, hc, hd => by
      simp only [List.cons_append, SceneNode.LinkedList] at hc ⊢
      exact ⟨hc.1, hc.2.1, SceneNode.linkedList_append t cs ds hc.2.2 hd⟩

theorem SceneNode.addChild_linked (n c : SceneNode K) (hn : n.Linked) :
    (n.addChild c).Linked ∧ (n.addChild c).transform = n.transform := by
  cases n with
  | mk ri t cs =>
    simp only [SceneNode.addChild, SceneNode.Linked, SceneNode.transform, SceneNode.children,
      SceneNode.renderInfo, and_true] at hn ⊢
    refine SceneNode.linkedList_append t cs _ hn ?_
    simp only [SceneNode.LinkedList, and_true]
    exact ⟨(SceneNode.setParent_linked c t).2, (SceneNode.setParent_linked c t).1⟩

mutual
theorem SceneGraph.traverseHelper_nodes (sqrt : K → K) :
    ∀ (n : SceneNode K) (M : Matrix4 K),
      (SceneGraph._traverseHelper sqrt n M).map Visit.node = n.preorder ∧
      (SceneGraph._traverseHelper sqrt n M).length = n.size
  | .mk ri t cs, M => by
      simp only [SceneGraph._traverseHelper, List.map_cons, SceneNode.preorder,
        List.length_cons, SceneNode.size]
      have h := SceneGraph.traverseChildren_nodes sqrt cs
        (M.multiply (t.getLocalModelMatrix sqrt))
      exact ⟨by rw [h.1], by rw [h.2]; omega⟩
theorem SceneGraph.traverseChildren_nodes (sqrt : K → K) :
    ∀ (cs : List (SceneNode K)) (M : Matrix4 K),
      (SceneGraph._traverseChildren sqrt cs M).map Visit.node = SceneNode.preorderList cs ∧
      (SceneGraph._traverseChildren sqrt cs M).length = SceneNode.sizeList cs
  | [], _ => by
      simp [SceneGraph._traverseChildren, SceneNode.preorderList, SceneNode.sizeList]
  | c :: cs, M => by
      simp only [SceneGraph._traverseChildren, List.map_append, SceneNode.preorderList,
        List.length_append, SceneNode.sizeList]
      have h1 := SceneGraph.traverseHelper_nodes sqrt c M
      have h2 := SceneGraph.traverseChildren_nodes sqrt cs M
      exact ⟨by rw [h1.1, h2.1], by rw [h1.2, h2.2]⟩
end

theorem SceneGraph.new_linked : (SceneGraph.new : SceneGraph K).root.Linked ∧
    (SceneGraph.new : SceneGraph K).root.transform.parent = none := by
  simp [SceneGraph.new, SceneNode.Linked, SceneNode.LinkedList, SceneNode.transform,
    Transform.new, Transform.parent]

theorem SceneGraph.addObject_linked (g : SceneGraph K) (c : SceneNode K)
    (h : g.root.Linked ∧ g.root.transform.parent = none) :
    (g.addObject c).root.Linked ∧ (g.addObject c).root.transform.parent = none := by
  have h2 := SceneNode.addChild_linked g.root c h.1
  exact ⟨h2.1, by simp only [SceneGraph.addObject]; rw [h2.2]; exact h.2⟩

theorem exampleSceneGraph_linked :
    exampleSceneGraph.root.Linked ∧ exampleSceneGraph.root.transform.parent = none :=
  SceneGraph.addObject_linked _ _ SceneGraph.new_linked

theorem Quaternion.normalize_normalize (sqrt : K → K) (h1 : sqrt 1 = 1)
    (hsq : ∀ x : K, 0 ≤ x → sqrt x * sqrt x = x) (q : Quaternion K) :
    (q.normalize sqrt).normalize sqrt = q.normalize sqrt := by
  have hn : 0 ≤ q.x * q.x + q.y * q.y + q.z * q.z + q.w * q.w :=
    add_nonneg (add_nonneg (add_nonneg (mul_self_nonneg _) (mul_self_nonneg _))
      (mul_self_nonneg _)) (mul_self_nonneg _)
  have hl := hsq _ hn
  by_cases h0 : sqrt (q.x * q.x + q.y * q.y + q.z * q.z + q.w * q.w) = 0
  · simp [Quaternion.normalize, h0, h1]
  · have hone : q.x * (1 / sqrt (q.x * q.x + q.y * q.y + q.z * q.z + q.w * q.w)) *
          (q.x * (1 / sqrt (q.x * q.x + q.y * q.y + q.z * q.z + q.w * q.w))) +
        q.y * (1 / sqrt (q.x * q.x + q.y * q.y + q.z * q.z + q.w * q.w)) *
          (q.y * (1 / sqrt (q.x * q.x + q.y * q.y + q.z * q.z + q.w * q.w))) +
        q.z * (1 / sqrt (q.x * q.x + q.y * q.y + q.z * q.z + q.w * q.w)) *
          (q.z * (1 / sqrt (q.x * q.x + q.y * q.y + q.z * q.z + q.w * q.w))) +
        q.w * (1 / sqrt (q.x * q.x + q.y * q.y + q.z * q.z + q.w * q.w)) *
          (q.w * (1 / sqrt (q.x * q.x + q.y * q.y + q.z * q.z + q.w * q.w))) = 1 := by
      field_simp
      linear_combination -hl
    simp only [Quaternion.normalize, if_neg h0, hone, h1, one_ne_zero, if_false, div_one,
      mul_one]

theorem Transform.getLocalModelMatrix_normalized (sqrt : K → K) (h1 : sqrt 1 = 1)
    (hsq : ∀ x : K, 0 ≤ x → sqrt x * sqrt x = x) (p s : Vector3 K) (r : Quaternion K)
    (q : Option (Transform K)) :
    (Transform.mk p (r.normalize sqrt) s q).getLocalModelMatrix sqrt =
      (Transform.mk p r s q).getLocalModelMatrix sqrt := by
  simp only [Transform.getLocalModelMatrix, Transform.rotation,
    Quaternion.normalize_normalize sqrt h1 hsq]
  rfl

/-- C1: for every Transform `t`, if `t` has a parent `P` then `t.getWorldModelMatrix()` is
`P.getWorldModelMatrix()` multiplied on the right by `t.getLocalModelMatrix()`, and if `t` has
no parent then `t.getWorldModelMatrix()` is `t.getLocalModelMatrix()`. -/
theorem Transform.getWorldModelMatrix_compose (sqrt : K → K) (t : Transform K) :
    (∀ P : Transform K, t.parent = some P →
      t.getWorldModelMatrix sqrt =
        (P.getWorldModelMatrix sqrt).multiply (t.getLocalModelMatrix sqrt)) ∧
    (t.parent = none → t.getWorldModelMatrix sqrt = t.getLocalModelMatrix sqrt) := by
  cases t with
  | mk p r s q =>
    cases q with
    | none => simp [Transform.getWorldModelMatrix, Transform.parent]
    | some q =>
      simp only [Transform.parent, Option.some.injEq, reduceCtorEq, false_implies, and_true]
      intro P hP
      subst hP
      simp [Transform.getWorldModelMatrix]

theorem Transform.getWorldModelMatrix_compose_witness :
    exampleChildTransform.parent = some exampleParentTransform ∧
      exampleChildTransform.getWorldModelMatrix Rat.sqrt =
        (exampleParentTransform.getWorldModelMatrix Rat.sqrt).multiply
          (exampleChildTransform.getLocalModelMatrix Rat.sqrt) ∧
      exampleParentTransform.parent = none ∧
      exampleParentTransform.getWorldModelMatrix Rat.sqrt =
        exampleParentTransform.getLocalModelMatrix Rat.sqrt :=
  ⟨rfl,
   (Transform.getWorldModelMatrix_compose Rat.sqrt exampleChildTransform).1
     exampleParentTransform rfl,
   rfl,
   (Transform.getWorldModelMatrix_compose Rat.sqrt exampleParentTransform).2 rfl⟩

/-- C2: for a scene graph whose parent links are as `addChild`/`addObject` leave them, every
matrix that `traverse` passes to the visitor is the `getWorldModelMatrix()` of the visited
node's transform, which is the product of the local model matrices along the path from the
root to the node; the visits made for a child's subtree are those of the child under its
parent's model matrix, whatever siblings stand before or after it. -/
theorem SceneGraph.traverse_modelMatrix (sqrt : K → K) (g : SceneGraph K)
    (hroot : g.root.transform.parent = none) (hl : g.root.Linked) :
    (∀ v ∈ g.traverse sqrt,
      v.modelMatrix = v.node.transform.getWorldModelMatrix sqrt ∧
      v.modelMatrix =
        (v.node.transform.path.map (Transform.getLocalModelMatrix sqrt)).foldl
          (fun a b => a.multiply b) 1) ∧
    (∀ (ri : RenderInfo) (t : Transform K) (pre post : List (SceneNode K)) (c : SceneNode K)
      (M : Matrix4 K),
      SceneGraph._traverseHelper sqrt (SceneNode.mk ri t (pre ++ c :: post)) M =
        ⟨SceneNode.mk ri t (pre ++ c :: post), M.multiply (t.getLocalModelMatrix sqrt),
          M.multiplyVector3 t.position⟩ ::
          (SceneGraph._traverseChildren sqrt pre (M.multiply (t.getLocalModelMatrix sqrt)) ++
            (SceneGraph._traverseHelper sqrt c (M.multiply (t.getLocalModelMatrix sqrt)) ++
              SceneGraph._traverseChildren sqrt post
                (M.multiply (t.getLocalModelMatrix sqrt))))) := by
  refine ⟨fun v hv => ?_, ?_⟩
  · have h := (SceneGraph.traverse_inv sqrt g hroot hl v hv).1
    exact ⟨h, by rw [h, Transform.getWorldModelMatrix_path]⟩
  · intro ri t pre post c M
    have happ : ∀ (xs ys : List (SceneNode K)) (N : Matrix4 K),
        SceneGraph._traverseChildren sqrt (xs ++ ys) N =
          SceneGraph._traverseChildren sqrt xs N ++ SceneGraph._traverseChildren sqrt ys N := by
      intro xs ys N
      induction xs with
      | nil => simp [SceneGraph._traverseChildren]
      | cons x xs ih => simp [SceneGraph._traverseChildren, ih]
    simp [SceneGraph._traverseHelper, happ, SceneGraph._traverseChildren]

theorem SceneGraph.traverse_modelMatrix_witness :
    exampleSceneGraph.root.transform.parent = none ∧ exampleSceneGraph.root.Linked ∧
      (exampleSceneGraph.traverse Rat.sqrt).length = 3 ∧
      ∀ v ∈ exampleSceneGraph.traverse Rat.sqrt,
        v.modelMatrix = v.node.transform.getWorldModelMatrix Rat.sqrt :=
  ⟨exampleSceneGraph_linked.2, exampleSceneGraph_linked.1,
   (SceneGraph.traverseHelper_nodes Rat.sqrt exampleSceneGraph.root 1).2.trans (by decide),
   fun v hv =>
    ((SceneGraph.traverse_modelMatrix Rat.sqrt exampleSceneGraph exampleSceneGraph_linked.2
      exampleSceneGraph_linked.1).1 v hv).1⟩

theorem Matrix4.setFromQuat_axis_zero (w : K) : Matrix4.setFromQuat 0 0 0 w = 1 := by
  ext i j
  fin_cases i <;> fin_cases j <;>
      simp [Matrix4.setFromQuat, Matrix.one_apply, Matrix.vecHead, Matrix.vecTail]

theorem Transform.new_getLocalModelMatrix (sqrt : K → K) (q : Option (Transform K)) :
    (Transform.new none none none q).getLocalModelMatrix sqrt = 1 := by
  have hT : Matrix4.setTranslate (0 : K) 0 0 = 1 := by
    ext i j
    fin_cases i <;> fin_cases j <;>
      simp [Matrix4.setTranslate, Matrix.one_apply, Matrix.vecHead, Matrix.vecTail]
  have hS : Matrix4.setScale (1 : K) 1 1 = 1 := by
    ext i j
    fin_cases i <;> fin_cases j <;>
      simp [Matrix4.setScale, Matrix.one_apply, Matrix.vecHead, Matrix.vecTail]
  have hn : ((⟨0, 0, 0, 1⟩ : Quaternion K).normalize sqrt).x = 0 ∧
      ((⟨0, 0, 0, 1⟩ : Quaternion K).normalize sqrt).y = 0 ∧
      ((⟨0, 0, 0, 1⟩ : Quaternion K).normalize sqrt).z = 0 := by
    simp only [Quaternion.normalize]
    split <;> simp
  simp only [Transform.getLocalModelMatrix, Transform.new, Option.getD_none,
    Transform.rotation, Transform.scale, Transform.position, hn.1, hn.2.1, hn.2.2,
    Matrix4.setFromQuat_axis_zero, hT, hS, Matrix4.multiply, mul_one]

/-- C3: for every Transform, `getLocalModelMatrix()` is
Translate(position) · RotationMatrix(normalize(rotation)) · Scale(scale); applied to a vector
it scales first, then rotates, then translates; and the default Transform (position 0,
identity rotation, scale 1), such as the transform of the scene-graph root, has the identity
matrix as local model matrix. -/
theorem Transform.getLocalModelMatrix_srt (sqrt : K → K) (t : Transform K) :
    t.getLocalModelMatrix sqrt =
      Matrix4.setTranslate t.position.x t.position.y t.position.z *
        Matrix4.setFromQuat (t.rotation.normalize sqrt).x (t.rotation.normalize sqrt).y
          (t.rotation.normalize sqrt).z (t.rotation.normalize sqrt).w *
        Matrix4.setScale t.scale.x t.scale.y t.scale.z ∧
    (∀ v : Fin 4 → K,
      (t.getLocalModelMatrix sqrt).multiplyVector4 v =
        (Matrix4.setTranslate t.position.x t.position.y t.position.z).multiplyVector4
          ((Matrix4.setFromQuat (t.rotation.normalize sqrt).x (t.rotation.normalize sqrt).y
              (t.rotation.normalize sqrt).z (t.rotation.normalize sqrt).w).multiplyVector4
            ((Matrix4.setScale t.scale.x t.scale.y t.scale.z).multiplyVector4 v))) ∧
    (∀ q : Option (Transform K), (Transform.new none none none q).getLocalModelMatrix sqrt = 1) ∧
    (SceneGraph.new : SceneGraph K).root.transform.getLocalModelMatrix sqrt = 1 := by
  refine ⟨?_, ?_, Transform.new_getLocalModelMatrix sqrt, ?_⟩
  · simp only [Transform.getLocalModelMatrix, Matrix4.multiply, Matrix.mul_assoc]
  · intro v
    simp only [Transform.getLocalModelMatrix, Matrix4.multiply, Matrix4.multiplyVector4,
      Matrix.mulVec_mulVec]
  · exact Transform.new_getLocalModelMatrix sqrt none

/-- C4: `traverse` calls the visitor exactly once for every node reachable from the root
through children lists, in depth-first pre-order: the root first, each node before its
descendants, the subtrees of the children in the order of the children list. -/
theorem SceneGraph.traverse_preorder (sqrt : K → K) (g : SceneGraph K) :
    (g.traverse sqrt).map Visit.node = g.root.preorder ∧
    (g.traverse sqrt).length = g.root.size ∧
    ((g.traverse sqrt).head?).map Visit.node = some g.root := by
  refine ⟨(SceneGraph.traverseHelper_nodes sqrt g.root 1).1,
    (SceneGraph.traverseHelper_nodes sqrt g.root 1).2, ?_⟩
  cases g with
  | mk root =>
    cases root with
    | mk ri t cs => simp [SceneGraph.traverse, SceneGraph._traverseHelper]

/-- C5: after `traverse` over a scene graph whose parent links are as `addChild` leaves them,
the `worldPosition` stored for every visited node is the parent's world matrix (the identity
for the root) applied to the node's local position, and it equals
`transform.getWorldPosition()`; every node of the tree is visited. -/
theorem SceneGraph.traverse_worldPosition (sqrt : K → K) (g : SceneGraph K)
    (hroot : g.root.transform.parent = none) (hl : g.root.Linked) :
    (g.traverse sqrt).map Visit.node = g.root.preorder ∧
    ∀ v ∈ g.traverse sqrt,
      v.worldPosition =
        (v.node.transform.parentWorldMatrix sqrt).multiplyVector3 v.node.transform.position ∧
      v.worldPosition = v.node.transform.getWorldPosition sqrt := by
  refine ⟨(SceneGraph.traverseHelper_nodes sqrt g.root 1).1, fun v hv => ?_⟩
  have h := (SceneGraph.traverse_inv sqrt g hroot hl v hv).2
  exact ⟨h, by rw [h, Transform.getWorldPosition_eq]⟩

theorem SceneGraph.traverse_worldPosition_witness :
    exampleSceneGraph.root.transform.parent = none ∧ exampleSceneGraph.root.Linked ∧
      (exampleSceneGraph.traverse Rat.sqrt).map Visit.node = exampleSceneGraph.root.preorder ∧
      ∀ v ∈ exampleSceneGraph.traverse Rat.sqrt,
        v.worldPosition = v.node.transform.getWorldPosition Rat.sqrt :=
  ⟨exampleSceneGraph_linked.2, exampleSceneGraph_linked.1,
   (SceneGraph.traverse_worldPosition Rat.sqrt exampleSceneGraph exampleSceneGraph_linked.2
      exampleSceneGraph_linked.1).1,
   fun v hv =>
    ((SceneGraph.traverse_worldPosition Rat.sqrt exampleSceneGraph exampleSceneGraph_linked.2
      exampleSceneGraph_linked.1).2 v hv).2⟩

end SceneTheorems

/-! ## Theorems: ECS dispatch -/

section ECSTheorems

variable {σ D V : Type}

theorem JSObject.setProps_append (key : String) (value : V) :
    ∀ ps : List (String × V), key ∉ ps.map Prod.fst →
      JSObject.setProps key value ps = ps ++ [(key, value)]
  | [], _ => rfl
  | (k, v) :: rest, h => by
      simp only [List.map_cons, List.mem_cons, not_or] at h
      have hk : ¬ k = key := fun e => h.1 e.symm
      simp [JSObject.setProps, hk, JSObject.setProps_append key value rest h.2]

theorem ECS.addEntity_fold_props :
    ∀ (regs : List (String × Entity σ D)) (ps : List (String × Entity σ D)),
      (ps.map Prod.fst ++ regs.map Prod.fst).Nodup →
      (∀ r ∈ regs, r.1 ≠ "__proto__") →
      (regs.foldl (fun ecs r => ECS.addEntity ecs r.1 r.2)
        (⟨⟨ps⟩⟩ : ECS σ D)).entities.props = ps ++ regs
  | [], ps, _, _ => by simp
  | r :: regs, ps, h, hproto => by
      have hr : r.1 ∉ ps.map Prod.fst := by
        intro hmem
        have := List.disjoint_of_nodup_append h hmem
        simp at this
      have h2 : ((ps ++ [r]).map Prod.fst ++ regs.map Prod.fst).Nodup := by
        simpa [List.append_assoc] using h
      have hp1 : r.1 ≠ "__proto__" := hproto r (List.mem_cons_self _ _)
      have := ECS.addEntity_fold_props regs (ps ++ [r]) h2
        (fun x hx => hproto x (List.mem_cons_of_mem _ hx))
      simp only [List.foldl_cons, ECS.addEntity, JSObject.set, if_neg hp1,
        JSObject.setProps_append r.1 r.2 ps hr]
      simpa [List.append_assoc] using this

theorem JSObject.get_of_mem (key : String) (value : V) :
    ∀ ps : List (String × V), (ps.map Prod.fst).Nodup → (key, value) ∈ ps →
      JSObject.get ⟨ps⟩ key = some value
  | [], _, h => by simp at h
  | (k, v) :: rest, hnd, h => by
      simp only [List.map_cons, List.nodup_cons] at hnd
      simp only [List.mem_cons, Prod.mk.injEq] at h
      rcases h with ⟨rfl, rfl⟩ | h
      · simp [JSObject.get]
      · have hk : ¬ k = key := by
          intro e
          subst e
          exact hnd.1 (List.mem_map_of_mem Prod.fst h)
        have ih := JSObject.get_of_mem key value rest hnd.2 h
        simp only [JSObject.get] at ih ⊢
        simp [List.find?_cons, hk, ih]

theorem JSObject.keys_of_no_index (ps : List (String × V))
    (h : ∀ p ∈ ps, isArrayIndex p.1 = false) :
    JSObject.keys ⟨ps⟩ = ps.map Prod.fst := by
  have h1 : (ps.map (fun p => p.1)).filter isArrayIndex = [] := by
    rw [List.filter_eq_nil_iff]
    intro k hk
    obtain ⟨p, hp, rfl⟩ := List.mem_map.1 hk
    simp [h p hp]
  have h2 : (ps.map (fun p => p.1)).filter (fun k => !isArrayIndex k) =
      ps.map (fun p => p.1) := by
    rw [List.filter_eq_self]
    intro k hk
    obtain ⟨p, hp, rfl⟩ := List.mem_map.1 hk
    simp [h p hp]
  simp only [JSObject.keys, h1, h2, List.insertionSort, List.nil_append]

theorem JSObject.forIn_eq (f : V → σ → σ) (ps : List (String × V))
    (hnd : (ps.map Prod.fst).Nodup) (h : ∀ p ∈ ps, isArrayIndex p.1 = false) (st : σ) :
    JSObject.forIn ⟨ps⟩ f st = ps.foldl (fun st p => f p.2 st) st := by
  rw [JSObject.forIn, JSObject.keys_of_no_index ps h, List.foldl_map]
  apply List.foldl_ext
  intro a p hp
  rw [JSObject.get_of_mem p.1 p.2 ps hnd hp]

theorem ECS.forIn_registration_order (f : Entity σ D → σ × List Call → σ × List Call)
    (hcam : ∀ st, f ⟨"camera", []⟩ st = st)
    (regs : List (String × Entity σ D))
    (h : OrdinaryNames (regs.map Prod.fst)) (st : σ × List Call) :
    (registered regs).entities.forIn f st = regs.foldl (fun st r => f r.2 st) st := by
  obtain ⟨hnd, hn⟩ := h
  have hidx : ∀ r ∈ regs, isArrayIndex r.1 = false :=
    fun r hr => (hn r.1 (List.mem_map_of_mem Prod.fst hr)).1
  have hproto : ∀ r ∈ regs, r.1 ≠ "__proto__" :=
    fun r hr => (hn r.1 (List.mem_map_of_mem Prod.fst hr)).2
  have hnew : (ECS.new : ECS σ D) = ⟨⟨[("camera", ⟨"camera", []⟩)]⟩⟩ := by
    simp [ECS.new, ECS.addEntity, JSObject.set, JSObject.empty, JSObject.setProps]
  have hp : (registered regs).entities.props = [("camera", ⟨"camera", []⟩)] ++ regs := by
    rw [registered, hnew]
    exact ECS.addEntity_fold_props regs [("camera", ⟨"camera", []⟩)] (by simpa using hnd)
      hproto
  have hobj : (registered regs).entities = ⟨[("camera", ⟨"camera", []⟩)] ++ regs⟩ := by
    rw [← hp]
  rw [hobj, JSObject.forIn_eq f _ (by simpa using hnd)]
  · simp [hcam]
  · intro p hp2
    simp only [List.singleton_append, List.mem_cons] at hp2
    rcases hp2 with rfl | hp2
    · show isArrayIndex "camera" = false
      decide
    · exact hidx p hp2

theorem Entity.startFrom_eq (name : String) :
    ∀ (cs : List (Component σ D)) (i : Nat) (st : σ × List Call),
      Entity.startFrom name cs i st =
        (cs.foldl (fun s c => c.start s) st.1,
          st.2 ++ (List.range' i cs.length).map (fun j => (⟨name, j⟩ : Call)))
  | [], _, st => by simp [Entity.startFrom]
  | c :: cs, i, st => by
      simp [Entity.startFrom, Entity.startFrom_eq name cs (i + 1), List.range'_succ]

theorem Entity.updateFrom_append (name : String) (deltaTime : D) :
    ∀ (pre cs : List (Component σ D)) (i : Nat) (st : σ × List Call),
      Entity.updateFrom name deltaTime (pre ++ cs) i st =
        Entity.updateFrom name deltaTime cs (i + pre.length)
          (Entity.updateFrom name deltaTime pre i st)
  | [], _, _, _ => by simp [Entity.updateFrom]
  | c :: pre, cs, i, st => by
      have hi : i + 1 + pre.length = i + (pre.length + 1) := by omega
      have ih := Entity.updateFrom_append name deltaTime pre cs (i + 1)
        (Entity.updateStep name deltaTime c i st)
      rw [hi] at ih
      simpa only [List.cons_append, Entity.updateFrom, List.length_cons] using ih

theorem Entity.updateFrom_calls (name : String) (deltaTime : D) :
    ∀ (cs : List (Component σ D)) (i : Nat) (st : σ × List Call),
      ∃ L : List Nat,
        (Entity.updateFrom name deltaTime cs i st).2 =
          st.2 ++ L.map (fun j => (⟨name, j⟩ : Call)) ∧
        L.Sublist (List.range' i cs.length)
  | [], _, st => ⟨[], by simp [Entity.updateFrom]⟩
  | c :: cs, i, st => by
      obtain ⟨L, hL, hsub⟩ := Entity.updateFrom_calls name deltaTime cs (i + 1)
        (Entity.updateStep name deltaTime c i st)
      by_cases hd : c.disabled st.1 = true
      · refine ⟨L, ?_, ?_⟩
        · rw [Entity.updateFrom, hL]
          simp [Entity.updateStep, hd]
        · simpa [List.range'_succ] using hsub.cons i
      · refine ⟨i :: L, ?_, ?_⟩
        · rw [Entity.updateFrom, hL]
          simp [Entity.updateStep, hd]
        · simpa [List.range'_succ] using hsub

theorem ECS.createEntity_registry (ecs : ECS σ D) (uuid entityName : String)
    (components : List (Component σ D)) :
    (ecs.createEntity uuid entityName components).1 =
      ecs.addEntity (if entityName = "" then uuid else entityName)
        ⟨if entityName = "" then uuid else entityName, components⟩ := by
  have h : ∀ (cs acc : List (Component σ D)) (n : String),
      cs.foldl Entity.attachComponent (⟨n, acc⟩ : Entity σ D) = ⟨n, acc ++ cs⟩ := by
    intro cs
    induction cs with
    | nil => intro acc n; simp
    | cons c cs ih => intro acc n; simp [Entity.attachComponent, ih]
  simp [ECS.createEntity, h]

/-- C6, as stated, fails: with the names "2" and "1" registered in this order `ECS.update`
visits "1" first; with a name registered twice the later entity is visited in the earlier
one's place; an entity registered under `__proto__` is not among the registry's own
properties; and a PlayerController whose `disabled` flag is true when it is reached is not
updated, yet the same sweep changes its state (the CameraControllerComponent, updated later,
clears the flag). -/
theorem ECS.update_counterexample :
    ((registered exampleIndexRegistrations).update () ([], []) =
        (["second", "first"], [⟨"1", 0⟩, ⟨"2", 0⟩]) ∧
      (registered exampleIndexRegistrations).update () ([], []) ≠
        exampleIndexRegistrations.foldl (fun st r => r.2.update () st) ([], [])) ∧
    ((registered exampleDuplicateRegistrations).update () ([], []) =
        (["A2", "B"], [⟨"a", 0⟩, ⟨"b", 0⟩]) ∧
      (registered exampleDuplicateRegistrations).update () ([], []) ≠
        exampleDuplicateRegistrations.foldl (fun st r => r.2.update () st) ([], [])) ∧
    ((registered examplePrototypeRegistrations).entities.props.map Prod.fst = ["camera"]) ∧
    ((playerController (fun (_ : Unit) s => s)).disabled ⟨1, true, false⟩ = true ∧
      (registered exampleControlRegistrations).update () (⟨1, true, false⟩, []) =
        (⟨0, false, false⟩, [⟨"camera controller", 0⟩])) := by
  refine ⟨⟨?_, ?_⟩, ⟨?_, ?_⟩, ?_, ?_, ?_⟩ <;> decide

/-- C6 (amended): when the registered names are pairwise distinct (and differ from the
pre-registered "camera") and none is an array index or `__proto__`, `ECS.update(dt)` runs
`entity.update(dt)` on the registered entities in registration order; within an entity the
components are reached in attach order, each at most once: a component whose `disabled` flag
is true when it is reached is passed over with state and call log as they were, and otherwise
`update(dt)` is called on it. -/
theorem ECS.update_sweep (regs : List (String × Entity σ D))
    (h : OrdinaryNames (regs.map Prod.fst)) (deltaTime : D) (st : σ × List Call) :
    (registered regs).update deltaTime st =
      regs.foldl (fun st r => r.2.update deltaTime st) st ∧
    (∀ (e : Entity σ D) (pre post : List (Component σ D)) (c : Component σ D)
      (s : σ × List Call), e.components = pre ++ c :: post →
      e.update deltaTime s =
        Entity.updateFrom e.name deltaTime post (pre.length + 1)
          (if c.disabled (Entity.updateFrom e.name deltaTime pre 0 s).1 = true then
            Entity.updateFrom e.name deltaTime pre 0 s
          else
            (c.update deltaTime (Entity.updateFrom e.name deltaTime pre 0 s).1,
              (Entity.updateFrom e.name deltaTime pre 0 s).2 ++ [⟨e.name, pre.length⟩]))) ∧
    (∀ (e : Entity σ D) (s : σ × List Call), ∃ L : List Nat,
      (e.update deltaTime s).2 = s.2 ++ L.map (fun j => (⟨e.name, j⟩ : Call)) ∧
      L.Sublist (List.range e.components.length)) := by
  refine ⟨?_, ?_, ?_⟩
  · exact ECS.forIn_registration_order (fun e st => e.update deltaTime st)
      (fun st => rfl) regs h st
  · intro e pre post c s he
    rw [Entity.update, he, Entity.updateFrom_append]
    simp only [Entity.updateFrom, Entity.updateStep, Nat.zero_add]
  · intro e s
    obtain ⟨L, hL, hsub⟩ := Entity.updateFrom_calls e.name deltaTime e.components 0 s
    exact ⟨L, hL, by simpa [List.range_eq_range'] using hsub⟩

theorem ECS.update_sweep_witness :
    OrdinaryNames (exampleControlRegistrations.map Prod.fst) ∧
      (registered exampleControlRegistrations).update () (⟨1, true, false⟩, []) =
        exampleControlRegistrations.foldl (fun st r => r.2.update () st)
          (⟨1, true, false⟩, []) ∧
      exampleControlRegistrations.foldl (fun st r => r.2.update () st)
          (⟨1, true, false⟩, []) = (⟨0, false, false⟩, [⟨"camera controller", 0⟩]) :=
  ⟨by decide,
   (ECS.update_sweep exampleControlRegistrations (by decide) () (⟨1, true, false⟩, [])).1,
   by decide⟩

/-- C7, as stated, fails: with the names "2" and "1" registered in this order `ECS.start`
starts the entity "1" first; when a name is registered twice the later entity is started in
the earlier one's place, before an entity that was registered before it; and an entity
registered under `__proto__` is not stored as an own property of the registry. -/
theorem ECS.start_counterexample :
    ((registered exampleIndexRegistrations).start ([], []) =
        (["second", "first"], [⟨"1", 0⟩, ⟨"2", 0⟩]) ∧
      (registered exampleIndexRegistrations).start ([], []) ≠
        exampleIndexRegistrations.foldl (fun st r => r.2.start st) ([], [])) ∧
    ((registered exampleDuplicateRegistrations).start ([], []) =
        (["A2", "B"], [⟨"a", 0⟩, ⟨"b", 0⟩]) ∧
      (registered exampleDuplicateRegistrations).start ([], []) ≠
        exampleDuplicateRegistrations.foldl (fun st r => r.2.start st) ([], [])) ∧
    (registered examplePrototypeRegistrations).entities.props.map Prod.fst = ["camera"] := by
  refine ⟨⟨?_, ?_⟩, ⟨?_, ?_⟩, ?_⟩ <;> decide

/-- C7 (amended): for every sequence of registrations (`addEntity`, or `createEntity`, which
registers through `addEntity`) whose names are pairwise distinct (and differ from the
pre-registered "camera") and none of which is an array index or `__proto__`, `ECS.start()`
runs `entity.start()` on the registered entities in registration order, and `entity.start()`
calls `start()` exactly once on every attached component, in attach order. -/
theorem ECS.start_sweep (regs : List (String × Entity σ D))
    (h : OrdinaryNames (regs.map Prod.fst)) (st : σ × List Call) :
    (registered regs).start st = regs.foldl (fun st r => r.2.start st) st ∧
    (∀ (e : Entity σ D) (s : σ × List Call),
      e.start s =
        (e.components.foldl (fun x c => c.start x) s.1,
          s.2 ++ (List.range e.components.length).map (fun j => (⟨e.name, j⟩ : Call)))) ∧
    (∀ (ecs : ECS σ D) (uuid entityName : String) (components : List (Component σ D)),
      (ecs.createEntity uuid entityName components).1 =
        ecs.addEntity (if entityName = "" then uuid else entityName)
          ⟨if entityName = "" then uuid else entityName, components⟩) := by
  refine ⟨?_, ?_, ECS.createEntity_registry⟩
  · exact ECS.forIn_registration_order (fun e st => e.start st)
      (fun st => rfl) regs h st
  · intro e s
    rw [Entity.start, Entity.startFrom_eq, List.range_eq_range']

theorem ECS.start_sweep_witness :
    OrdinaryNames (exampleRegistrations.map Prod.fst) ∧
      (registered exampleRegistrations).start ([], []) =
        (["p1", "p2", "l"], [⟨"player", 0⟩, ⟨"player", 1⟩, ⟨"light", 0⟩]) :=
  ⟨by decide,
   (ECS.start_sweep exampleRegistrations (by decide) ([], [])).1.trans (by decide)⟩

end ECSTheorems

/-! ## Theorems: two-bone leg IK -/

section LegIKTheorems

variable {K : Type} [LinearOrderedField K]

theorem Vector3.distanceTo_comm (sqrt : K → K) (a b : Vector3 K) :
    a.distanceTo sqrt b = (b.sub a).length sqrt := by
  simp only [Vector3.distanceTo, Vector3.length, Vector3.sub, Vector3.dot]
  congr 1
  ring

theorem ratSqrt_sq (x : ℚ) (hx : 0 ≤ x) : Rat.sqrt (x * x) = x := by
  rw [Rat.sqrt_eq, abs_of_nonneg hx]

theorem ratSqrt_values :
    Rat.sqrt 0 = 0 ∧ Rat.sqrt 1 = 1 ∧ Rat.sqrt 4 = 2 ∧ Rat.sqrt 9 = 3 ∧ Rat.sqrt 25 = 5 ∧
      Rat.sqrt 81 = 9 ∧ Rat.sqrt (1 / 40000) = 1 / 200 := by
  refine ⟨?_, ?_, ?_, ?_, ?_, ?_, ?_⟩
  · have h := ratSqrt_sq 0 (le_refl 0)
    rwa [mul_zero] at h
  · have h := ratSqrt_sq 1 zero_le_one
    rwa [mul_one] at h
  · rw [show (4 : ℚ) = 2 * 2 by norm_num]
    exact ratSqrt_sq 2 (by norm_num)
  · rw [show (9 : ℚ) = 3 * 3 by norm_num]
    exact ratSqrt_sq 3 (by norm_num)
  · rw [show (25 : ℚ) = 5 * 5 by norm_num]
    exact ratSqrt_sq 5 (by norm_num)
  · rw [show (81 : ℚ) = 9 * 9 by norm_num]
    exact ratSqrt_sq 9 (by norm_num)
  · rw [show (1 / 40000 : ℚ) = 1 / 200 * (1 / 200) by norm_num]
    exact ratSqrt_sq (1 / 200) (by norm_num)

/-- C8: whenever the distance from pelvis to foot exceeds `upperLegLength + lowerLegLength`,
`ikSolveNew` returns exactly the midpoint of pelvis and foot, runs no pass of the FABRIK loop,
and its result does not depend on the knee target. -/
theorem ikSolveNew_unreachable (sqrt : K → K) (pelvis foot kneeTarget : Vector3 K)
    (upperLegLength lowerLegLength : K)
    (h : pelvis.distanceTo sqrt foot > upperLegLength + lowerLegLength) :
    ikSolveNew sqrt pelvis foot kneeTarget upperLegLength lowerLegLength = midpoint pelvis foot ∧
    ikSolveNewIterations sqrt pelvis foot kneeTarget upperLegLength lowerLegLength = 0 ∧
    ∀ kneeTarget2 : Vector3 K,
      ikSolveNew sqrt pelvis foot kneeTarget2 upperLegLength lowerLegLength =
        ikSolveNew sqrt pelvis foot kneeTarget upperLegLength lowerLegLength := by
  rw [Vector3.distanceTo_comm] at h
  have hmid : pelvis.add ((foot.sub pelvis).mul 0.5) = midpoint pelvis foot := by
    simp only [Vector3.add, Vector3.sub, Vector3.mul, midpoint, Vector3.mk.injEq]
    refine ⟨?_, ?_, ?_⟩ <;> norm_num <;> ring
  refine ⟨?_, ?_, fun kneeTarget2 => ?_⟩
  · simp only [ikSolveNew, if_pos h, hmid]
  · simp only [ikSolveNewIterations, if_pos h]
  · simp only [ikSolveNew, if_pos h]

theorem ikSolveNew_unreachable_witness :
    Vector3.distanceTo Rat.sqrt (⟨0, 0, 0⟩ : Vector3 ℚ) ⟨5, 0, 0⟩ > 2 + 2 ∧
      ikSolveNew Rat.sqrt (⟨0, 0, 0⟩ : Vector3 ℚ) ⟨5, 0, 0⟩ ⟨0, 1, 0⟩ 2 2 = ⟨5 / 2, 0, 0⟩ ∧
      ikSolveNewIterations Rat.sqrt (⟨0, 0, 0⟩ : Vector3 ℚ) ⟨5, 0, 0⟩ ⟨0, 1, 0⟩ 2 2 = 0 := by
  have h : Vector3.distanceTo Rat.sqrt (⟨0, 0, 0⟩ : Vector3 ℚ) ⟨5, 0, 0⟩ > 2 + 2 := by
    simp only [Vector3.distanceTo, Vector3.length, Vector3.sub, Vector3.dot]
    norm_num [ratSqrt_values]
  have hw := ikSolveNew_unreachable Rat.sqrt (⟨0, 0, 0⟩ : Vector3 ℚ) ⟨5, 0, 0⟩ ⟨0, 1, 0⟩ 2 2 h
  refine ⟨h, hw.1.trans ?_, hw.2.1⟩
  simp only [midpoint, Vector3.mk.injEq]
  norm_num

theorem Vector3.dot_normalize_cross (sqrt : K → K) (a b : Vector3 K) :
    a.dot ((a.cross b).normalize sqrt) = 0 ∧ b.dot ((a.cross b).normalize sqrt) = 0 := by
  simp only [Vector3.dot, Vector3.normalize, Vector3.cross, div_eq_mul_inv]
  constructor <;> ring

theorem projectOntoPlane_of_dot_eq_zero (point planePoint normal : Vector3 K)
    (h : (point.sub planePoint).dot normal = 0) :
    projectOntoPlane point planePoint normal = point := by
  simp only [projectOntoPlane, h]
  simp [Vector3.sub, Vector3.mul]

theorem ikSolveNewLoop_eq (sqrt : K → K) (pelvis foot kneeTarget : Vector3 K)
    (upperLegLength lowerLegLength : K) :
    ikSolveNewLoop sqrt pelvis foot kneeTarget upperLegLength lowerLegLength =
      fabrikLoop sqrt foot kneeTarget upperLegLength lowerLegLength 10
        ⟨pelvis, Vector3.zero, Vector3.zero, 0, Vector3.zero⟩ := by
  have h0 : projectOntoPlane pelvis pelvis
      (((foot.sub pelvis).cross (kneeTarget.sub pelvis)).normalize sqrt) = pelvis := by
    apply projectOntoPlane_of_dot_eq_zero
    simp [Vector3.sub, Vector3.dot]
  have h1 := projectOntoPlane_of_dot_eq_zero foot pelvis _
    (Vector3.dot_normalize_cross sqrt (foot.sub pelvis) (kneeTarget.sub pelvis)).1
  have h2 := projectOntoPlane_of_dot_eq_zero kneeTarget pelvis _
    (Vector3.dot_normalize_cross sqrt (foot.sub pelvis) (kneeTarget.sub pelvis)).2
  simp only [ikSolveNewLoop, h0, h1, h2]

theorem fabrikLoop_exit (sqrt : K → K) (foot kneeTarget : Vector3 K)
    (upperLegLength lowerLegLength : K) (st : FabrikState K)
    (h : ¬ (st.currentFootPosition.distanceTo sqrt foot > 0.01 ∧ st.iteration < 10)) :
    ∀ n, fabrikLoop sqrt foot kneeTarget upperLegLength lowerLegLength n st = st
  | 0 => rfl
  | n + 1 => by rw [fabrikLoop, if_neg h]

theorem fabrikLoop_step (sqrt : K → K) (foot kneeTarget : Vector3 K)
    (upperLegLength lowerLegLength : K) (st : FabrikState K) (n : Nat)
    (h : st.currentFootPosition.distanceTo sqrt foot > 0.01 ∧ st.iteration < 10) :
    fabrikLoop sqrt foot kneeTarget upperLegLength lowerLegLength (n + 1) st =
      fabrikLoop sqrt foot kneeTarget upperLegLength lowerLegLength n
        (fabrikBody sqrt foot kneeTarget upperLegLength lowerLegLength st) := by
  rw [fabrikLoop, if_pos h]

theorem fabrikLoop_guard (sqrt : K → K) (foot kneeTarget : Vector3 K)
    (upperLegLength lowerLegLength : K) :
    ∀ (n : Nat) (st : FabrikState K), 10 ≤ st.iteration + n →
      ¬ ((fabrikLoop sqrt foot kneeTarget upperLegLength lowerLegLength n
            st).currentFootPosition.distanceTo sqrt foot > 0.01 ∧
          (fabrikLoop sqrt foot kneeTarget upperLegLength lowerLegLength n st).iteration < 10)
  | 0, st, h => by
      simp only [fabrikLoop, not_and, not_lt]
      intro _
      simpa using h
  | n + 1, st, h => by
      by_cases hg : st.currentFootPosition.distanceTo sqrt foot > 0.01 ∧ st.iteration < 10
      · rw [fabrikLoop_step _ _ _ _ _ _ _ hg]
        exact fabrikLoop_guard sqrt foot kneeTarget upperLegLength lowerLegLength n _
          (by simp only [fabrikBody]; omega)
      · rw [fabrikLoop_exit _ _ _ _ _ _ hg]
        exact hg

theorem onPlane_toward (sqrt : K → K) (p f t a b : Vector3 K) (s : K)
    (ha : OnPlane p f t a) (hb : OnPlane p f t b) :
    OnPlane p f t ((((b.sub a).normalize sqrt).mul s).add a) ∧
      OnPlane p f t (a.add (((b.sub a).normalize sqrt).mul s)) := by
  unfold Vector3.normalize
  generalize (b.sub a).length sqrt = L
  simp only [OnPlane, Vector3.sub, Vector3.add, Vector3.mul, Vector3.dot, Vector3.cross]
    at ha hb ⊢
  constructor
  · linear_combination (1 - s / L) * ha + (s / L) * hb
  · linear_combination (1 - s / L) * ha + (s / L) * hb

theorem fabrikBody_onPlane (sqrt : K → K) (p f t kneeTarget : Vector3 K)
    (upperLegLength lowerLegLength : K) (st : FabrikState K)
    (hk : OnPlane p f t kneeTarget) (hf : OnPlane p f t f) (hp : OnPlane p f t st.pelvis) :
    OnPlane p f t (fabrikBody sqrt f kneeTarget upperLegLength lowerLegLength st).pelvis ∧
      OnPlane p f t
        (fabrikBody sqrt f kneeTarget upperLegLength lowerLegLength st).kneePosition := by
  have h1 := (onPlane_toward sqrt p f t st.pelvis f upperLegLength hp hf).1
  have h2 := (onPlane_toward sqrt p f t _ f lowerLegLength h1 hf).1
  have h3 := (onPlane_toward sqrt p f t _ _ upperLegLength h2 h1).2
  have h4 := fun s : K => (onPlane_toward sqrt p f t _ kneeTarget s h3 hk).2
  exact ⟨h2, h4 _⟩

theorem fabrikLoop_onPlane (sqrt : K → K) (p f t kneeTarget : Vector3 K)
    (upperLegLength lowerLegLength : K)
    (hk : OnPlane p f t kneeTarget) (hf : OnPlane p f t f) :
    ∀ (n : Nat) (st : FabrikState K), OnPlane p f t st.pelvis →
      OnPlane p f t st.kneePosition →
      OnPlane p f t
        (fabrikLoop sqrt f kneeTarget upperLegLength lowerLegLength n st).kneePosition
  | 0, _, _, hkn => hkn
  | n + 1, st, hp, hkn => by
      by_cases hg : st.currentFootPosition.distanceTo sqrt f > 0.01 ∧ st.iteration < 10
      · rw [fabrikLoop_step _ _ _ _ _ _ _ hg]
        have hb := fabrikBody_onPlane sqrt p f t kneeTarget upperLegLength lowerLegLength st
          hk hf hp
        exact fabrikLoop_onPlane sqrt p f t kneeTarget upperLegLength lowerLegLength hk hf n _
          hb.1 hb.2
      · rw [fabrikLoop_exit _ _ _ _ _ _ hg]
        exact hkn

theorem ikSolveNew_onPlane (sqrt : K → K) (p f t : Vector3 K)
    (upperLegLength lowerLegLength : K)
    (h : p.distanceTo sqrt f > upperLegLength + lowerLegLength ∨
      (Vector3.zero : Vector3 K).distanceTo sqrt f > 0.01) :
    OnPlane p f t (ikSolveNew sqrt p f t upperLegLength lowerLegLength) := by
  have hp : OnPlane p f t p := by
    simp [OnPlane, Vector3.sub, Vector3.dot]
  have hf : OnPlane p f t f := by
    simp only [OnPlane, Vector3.sub, Vector3.dot, Vector3.cross]
    ring
  have hk : OnPlane p f t t := by
    simp only [OnPlane, Vector3.sub, Vector3.dot, Vector3.cross]
    ring
  by_cases hfar : (f.sub p).length sqrt > upperLegLength + lowerLegLength
  · simp only [ikSolveNew, if_pos hfar]
    simp only [OnPlane, Vector3.sub, Vector3.add, Vector3.mul, Vector3.dot, Vector3.cross]
    ring
  · have hnear : (Vector3.zero : Vector3 K).distanceTo sqrt f > 0.01 := by
      rcases h with h | h
      · rw [Vector3.distanceTo_comm] at h
        exact absurd h hfar
      · exact h
    simp only [ikSolveNew, if_neg hfar]
    rw [ikSolveNewLoop_eq, fabrikLoop_step _ _ _ _ _ _ _ ⟨hnear, by show (0 : Nat) < 10; omega⟩]
    have hb := fabrikBody_onPlane sqrt p f t t upperLegLength lowerLegLength
      ⟨p, Vector3.zero, Vector3.zero, 0, Vector3.zero⟩ hk hf hp
    exact fabrikLoop_onPlane sqrt p f t t upperLegLength lowerLegLength hk hf 9 _ hb.1 hb.2

theorem onLine_toward (sqrt : K → K) (p f a b : Vector3 K) (s : K)
    (ha : OnLine p f a) (hb : OnLine p f b) :
    OnLine p f ((((b.sub a).normalize sqrt).mul s).add a) ∧
      OnLine p f (a.add (((b.sub a).normalize sqrt).mul s)) := by
  unfold Vector3.normalize
  generalize (b.sub a).length sqrt = L
  simp only [OnLine, Vector3.sub, Vector3.add, Vector3.mul, Vector3.cross, Vector3.zero,
    Vector3.mk.injEq] at ha hb ⊢
  obtain ⟨ha1, ha2, ha3⟩ := ha
  obtain ⟨hb1, hb2, hb3⟩ := hb
  refine ⟨⟨?_, ?_, ?_⟩, ⟨?_, ?_, ?_⟩⟩
  · linear_combination (1 - s / L) * ha1 + (s / L) * hb1
  · linear_combination (1 - s / L) * ha2 + (s / L) * hb2
  · linear_combination (1 - s / L) * ha3 + (s / L) * hb3
  · linear_combination (1 - s / L) * ha1 + (s / L) * hb1
  · linear_combination (1 - s / L) * ha2 + (s / L) * hb2
  · linear_combination (1 - s / L) * ha3 + (s / L) * hb3

theorem fabrikBody_onLine (sqrt : K → K) (p f kneeTarget : Vector3 K)
    (upperLegLength lowerLegLength : K) (st : FabrikState K)
    (hf : OnLine p f f) (hp : OnLine p f st.pelvis) :
    OnLine p f (fabrikBody sqrt f kneeTarget upperLegLength lowerLegLength st).pelvis ∧
      OnLine p f (fabrikBody sqrt f kneeTarget upperLegLength lowerLegLength st).forwardKnee ∧
      OnLine p f
        (fabrikBody sqrt f kneeTarget upperLegLength lowerLegLength st).currentFootPosition := by
  have h1 := (onLine_toward sqrt p f st.pelvis f upperLegLength hp hf).1
  have h2 := (onLine_toward sqrt p f _ f lowerLegLength h1 hf).1
  have h3 := (onLine_toward sqrt p f _ _ upperLegLength h2 h1).2
  have h4 := (onLine_toward sqrt p f _ f lowerLegLength h3 hf).2
  exact ⟨h2, h3, h4⟩

theorem fabrikLoop_onLine (sqrt : K → K) (p f kneeTarget : Vector3 K)
    (upperLegLength lowerLegLength : K) (hf : OnLine p f f) :
    ∀ (n : Nat) (st : FabrikState K), OnLine p f st.pelvis → OnLine p f st.forwardKnee →
      OnLine p f
        (fabrikLoop sqrt f kneeTarget upperLegLength lowerLegLength n st).forwardKnee
  | 0, _, _, hkn => hkn
  | n + 1, st, hp, hkn => by
      by_cases hg : st.currentFootPosition.distanceTo sqrt f > 0.01 ∧ st.iteration < 10
      · rw [fabrikLoop_step _ _ _ _ _ _ _ hg]
        have hb := fabrikBody_onLine sqrt p f kneeTarget upperLegLength lowerLegLength st hf hp
        exact fabrikLoop_onLine sqrt p f kneeTarget upperLegLength lowerLegLength hf n _
          hb.1 hb.2.1
      · rw [fabrikLoop_exit _ _ _ _ _ _ hg]
        exact hkn

theorem ikSolveNewLoop_forwardKnee_onLine (sqrt : K → K) (p f t : Vector3 K)
    (upperLegLength lowerLegLength : K)
    (h : (Vector3.zero : Vector3 K).distanceTo sqrt f > 0.01) :
    OnLine p f (ikSolveNewLoop sqrt p f t upperLegLength lowerLegLength).forwardKnee := by
  have hp : OnLine p f p := by
    simp [OnLine, Vector3.sub, Vector3.cross, Vector3.zero]
  have hf : OnLine p f f := by
    simp only [OnLine, Vector3.sub, Vector3.cross, Vector3.zero, Vector3.mk.injEq]
    refine ⟨?_, ?_, ?_⟩ <;> ring
  rw [ikSolveNewLoop_eq, fabrikLoop_step _ _ _ _ _ _ _ ⟨h, by show (0 : Nat) < 10; omega⟩]
  have hb := fabrikBody_onLine sqrt p f t upperLegLength lowerLegLength
    ⟨p, Vector3.zero, Vector3.zero, 0, Vector3.zero⟩ hf hp
  exact fabrikLoop_onLine sqrt p f t upperLegLength lowerLegLength hf 9 _ hb.1 hb.2.1

theorem fabrikBody_example (n : Nat) (p : Vector3 ℚ) (hp : p = ⟨0, 0, 0⟩ ∨ p = ⟨4, 0, 0⟩)
    (cf k fk : Vector3 ℚ) :
    fabrikBody Rat.sqrt ⟨3, 0, 0⟩ ⟨2, 3, 0⟩ 2 2 ⟨p, cf, k, n, fk⟩ =
      ⟨⟨4, 0, 0⟩, ⟨4, 0, 0⟩, ⟨2, 2, 0⟩, n + 1, ⟨2, 0, 0⟩⟩ := by
  rcases hp with rfl | rfl <;>
  · simp only [fabrikBody, Vector3.sub, Vector3.add, Vector3.addSelf, Vector3.normalize,
      Vector3.length, Vector3.dot, Vector3.mul]
    norm_num [ratSqrt_values]

theorem fabrikLoop_example : ∀ m n : Nat, n + m = 10 →
    fabrikLoop Rat.sqrt (⟨3, 0, 0⟩ : Vector3 ℚ) ⟨2, 3, 0⟩ 2 2 m
        ⟨⟨4, 0, 0⟩, ⟨4, 0, 0⟩, ⟨2, 2, 0⟩, n, ⟨2, 0, 0⟩⟩ =
      ⟨⟨4, 0, 0⟩, ⟨4, 0, 0⟩, ⟨2, 2, 0⟩, 10, ⟨2, 0, 0⟩⟩
  | 0, n, h => by
      have hn : n = 10 := by omega
      subst hn
      rfl
  | m + 1, n, h => by
      rw [fabrikLoop_step, fabrikBody_example n _ (Or.inr rfl),
        fabrikLoop_example m (n + 1) (by omega)]
      refine ⟨?_, by show n < 10; omega⟩
      simp only [Vector3.distanceTo, Vector3.length, Vector3.sub, Vector3.dot]
      norm_num [ratSqrt_values]

/-- C9, evaluated on a reachable target in general position (pelvis `(0,0,0)`, foot
`(3,0,0)`, knee target `(2,3,0)`, both leg lengths 2): the loop of `ikSolveNew` uses its whole
budget of 10 passes without converging; in the last pass the forward-pass knee is `(2,0,0)`,
at distance 1 (not 2) from the foot, and the reconstructed foot `(4,0,0)` is still at
distance 1 from the foot. -/
theorem ikSolveNew_forward_knee_example :
    Vector3.distanceTo Rat.sqrt (⟨0, 0, 0⟩ : Vector3 ℚ) ⟨3, 0, 0⟩ ≤ 2 + 2 ∧
    NonCollinear (⟨0, 0, 0⟩ : Vector3 ℚ) ⟨3, 0, 0⟩ ⟨2, 3, 0⟩ ∧
    ikSolveNewLoop Rat.sqrt (⟨0, 0, 0⟩ : Vector3 ℚ) ⟨3, 0, 0⟩ ⟨2, 3, 0⟩ 2 2 =
      ⟨⟨4, 0, 0⟩, ⟨4, 0, 0⟩, ⟨2, 2, 0⟩, 10, ⟨2, 0, 0⟩⟩ ∧
    Vector3.distanceTo Rat.sqrt (⟨2, 0, 0⟩ : Vector3 ℚ) ⟨0, 0, 0⟩ = 2 ∧
    Vector3.distanceTo Rat.sqrt (⟨2, 0, 0⟩ : Vector3 ℚ) ⟨3, 0, 0⟩ = 1 ∧
    Vector3.distanceTo Rat.sqrt (⟨4, 0, 0⟩ : Vector3 ℚ) ⟨3, 0, 0⟩ = 1 := by
  refine ⟨?_, ?_, ?_, ?_, ?_, ?_⟩
  · simp only [Vector3.distanceTo, Vector3.length, Vector3.sub, Vector3.dot]
    norm_num [ratSqrt_values]
  · simp only [NonCollinear, Vector3.sub, Vector3.cross, Vector3.zero, ne_eq,
      Vector3.mk.injEq]
    norm_num
  · rw [ikSolveNewLoop_eq, fabrikLoop_step, fabrikBody_example 0 _ (Or.inl rfl)]
    · exact fabrikLoop_example 9 1 rfl
    · refine ⟨?_, by show (0 : Nat) < 10; omega⟩
      simp only [Vector3.distanceTo, Vector3.length, Vector3.sub, Vector3.dot, Vector3.zero]
      norm_num [ratSqrt_values]
  · simp only [Vector3.distanceTo, Vector3.length, Vector3.sub, Vector3.dot]
    norm_num [ratSqrt_values]
  · simp only [Vector3.distanceTo, Vector3.length, Vector3.sub, Vector3.dot]
    norm_num [ratSqrt_values]
  · simp only [Vector3.distanceTo, Vector3.length, Vector3.sub, Vector3.dot]
    norm_num [ratSqrt_values]

/-- C10, evaluated where the foot is within 0.01 of the world origin (pelvis `(1,0,1/200)`,
foot `(0,0,1/200)`, knee target `(0,1,1/200)`, both leg lengths 1): the three points are not
collinear and the target is reachable, the loop of `ikSolveNew` runs no pass, and the returned
knee is the zero vector, which does not lie on the plane of the three points. -/
theorem ikSolveNew_foot_near_origin_example :
    NonCollinear (⟨1, 0, 1 / 200⟩ : Vector3 ℚ) ⟨0, 0, 1 / 200⟩ ⟨0, 1, 1 / 200⟩ ∧
    Vector3.distanceTo Rat.sqrt (⟨1, 0, 1 / 200⟩ : Vector3 ℚ) ⟨0, 0, 1 / 200⟩ ≤ 1 + 1 ∧
    ikSolveNewIterations Rat.sqrt (⟨1, 0, 1 / 200⟩ : Vector3 ℚ) ⟨0, 0, 1 / 200⟩
      ⟨0, 1, 1 / 200⟩ 1 1 = 0 ∧
    ikSolveNew Rat.sqrt (⟨1, 0, 1 / 200⟩ : Vector3 ℚ) ⟨0, 0, 1 / 200⟩ ⟨0, 1, 1 / 200⟩ 1 1 =
      ⟨0, 0, 0⟩ ∧
    ¬ OnPlane (⟨1, 0, 1 / 200⟩ : Vector3 ℚ) ⟨0, 0, 1 / 200⟩ ⟨0, 1, 1 / 200⟩
      (ikSolveNew Rat.sqrt (⟨1, 0, 1 / 200⟩ : Vector3 ℚ) ⟨0, 0, 1 / 200⟩ ⟨0, 1, 1 / 200⟩ 1 1) := by
  have hlen : ¬ (Vector3.length Rat.sqrt
      ((⟨0, 0, 1 / 200⟩ : Vector3 ℚ).sub ⟨1, 0, 1 / 200⟩) > 1 + 1) := by
    simp only [Vector3.length, Vector3.sub, Vector3.dot]
    norm_num [ratSqrt_values]
  have hloop : ikSolveNewLoop Rat.sqrt (⟨1, 0, 1 / 200⟩ : Vector3 ℚ) ⟨0, 0, 1 / 200⟩
      ⟨0, 1, 1 / 200⟩ 1 1 = ⟨⟨1, 0, 1 / 200⟩, ⟨0, 0, 0⟩, ⟨0, 0, 0⟩, 0, ⟨0, 0, 0⟩⟩ := by
    rw [ikSolveNewLoop_eq, fabrikLoop_exit]
    · rfl
    · simp only [Vector3.sub, Vector3.length, Vector3.dot, Vector3.distanceTo, Vector3.zero]
      norm_num [ratSqrt_values]
  have hknee : ikSolveNew Rat.sqrt (⟨1, 0, 1 / 200⟩ : Vector3 ℚ) ⟨0, 0, 1 / 200⟩
      ⟨0, 1, 1 / 200⟩ 1 1 = ⟨0, 0, 0⟩ := by
    simp only [ikSolveNew, if_neg hlen, hloop]
  refine ⟨?_, ?_, ?_, hknee, ?_⟩
  · simp only [NonCollinear, Vector3.sub, Vector3.cross, Vector3.zero, ne_eq,
      Vector3.mk.injEq]
    norm_num
  · simp only [Vector3.distanceTo, Vector3.length, Vector3.sub, Vector3.dot]
    norm_num [ratSqrt_values]
  · simp only [ikSolveNewIterations, if_neg hlen, hloop]
  · rw [hknee]
    simp only [OnPlane, Vector3.sub, Vector3.cross, Vector3.dot]
    norm_num

end LegIKTheorems

/-! ## Theorems: robot leg step state machine -/

section RobotLegTheorems

variable {K : Type} [LinearOrderedField K]

theorem Transform.new_position_getWorldModelMatrix (sqrt : K → K) (p : Vector3 K) :
    (Transform.new (some p) none none none).getWorldModelMatrix sqrt =
      Matrix4.setTranslate p.x p.y p.z := by
  have hS : Matrix4.setScale (1 : K) 1 1 = 1 := by
    ext i j
    fin_cases i <;> fin_cases j <;>
      simp [Matrix4.setScale, Matrix.one_apply, Matrix.vecHead, Matrix.vecTail]
  have hn : ((⟨0, 0, 0, 1⟩ : Quaternion K).normalize sqrt).x = 0 ∧
      ((⟨0, 0, 0, 1⟩ : Quaternion K).normalize sqrt).y = 0 ∧
      ((⟨0, 0, 0, 1⟩ : Quaternion K).normalize sqrt).z = 0 := by
    simp only [Quaternion.normalize]
    split <;> simp
  simp only [Transform.new, Option.getD_some, Option.getD_none, Transform.getWorldModelMatrix,
    Transform.getLocalModelMatrix, Transform.rotation, Transform.scale, Transform.position,
    hn.1, hn.2.1, hn.2.2, Matrix4.setFromQuat_axis_zero, hS, Matrix4.multiply, mul_one]

theorem RobotLegCompoent.calculateIdeal_translated (sqrt : K → K) (p : Vector3 K)
    (leg : RobotLegCompoent K) :
    leg.calculateIdealFootPlacementPosition sqrt (Transform.new (some p) none none none) =
      ⟨p.x + leg.footPosOffset.x, leg.groundY, p.z + leg.footPosOffset.z⟩ := by
  have hw := Transform.new_position_getWorldModelMatrix sqrt p
  simp only [RobotLegCompoent.calculateIdealFootPlacementPosition, Transform.getWorldPosition,
    hw, Matrix4.multiplyVector4, Vector3.mk.injEq]
  refine ⟨?_, trivial, ?_⟩ <;>
    simp [Matrix4.setTranslate, Matrix.mulVec, Matrix.dotProduct, Fin.sum_univ_four]

theorem Transform.new_position_getWorldPosition (sqrt : K → K) (p : Vector3 K) :
    (Transform.new (some p) none none none).getWorldPosition sqrt = p := by
  have hw := Transform.new_position_getWorldModelMatrix sqrt p
  simp only [Transform.getWorldPosition, hw, Matrix4.multiplyVector4]
  cases p
  simp [Matrix4.setTranslate, Matrix.mulVec, Matrix.dotProduct, Fin.sum_univ_four]

/-- C11: for every leg with `allowStep == true` and `moving == false` whose ideal foot position
is farther than `stepDistance` from `footActualPosition`, one `update(dt)` yields
`moving == true`, `movementProgress == 0`, `endingFootRaisePosition` equal to the ideal foot
position computed in that update, `startingFootRaisePosition` equal to the previous
`footActualPosition`, and `footActualPosition` unchanged; for a constructed and started leg
`stepDistance` is `upperLegLength + lowerLegLength`. -/
theorem RobotLegCompoent.update_starts_step (sqrt sin : K → K) (pi : K)
    (pelvis kneeTarget : Transform K) (deltaTime : K) (leg : RobotLegCompoent K)
    (hallow : leg.allowStep = true) (hidle : leg.moving = false)
    (hfar : (leg.calculateIdealFootPlacementPosition sqrt pelvis).distanceTo sqrt
      leg.footActualPosition > leg.stepDistance) :
    (leg.update sqrt sin pi pelvis kneeTarget deltaTime).moving = true ∧
    (leg.update sqrt sin pi pelvis kneeTarget deltaTime).movementProgress = 0 ∧
    (leg.update sqrt sin pi pelvis kneeTarget deltaTime).endingFootRaisePosition =
      leg.calculateIdealFootPlacementPosition sqrt pelvis ∧
    (leg.update sqrt sin pi pelvis kneeTarget deltaTime).startingFootRaisePosition =
      leg.footActualPosition ∧
    (leg.update sqrt sin pi pelvis kneeTarget deltaTime).footActualPosition =
      leg.footActualPosition ∧
    (∀ (footPosOffset : Vector3 K) (groundY speed upperLegLength lowerLegLength : K)
      (pelvis0 kneeTarget0 : Transform K),
      ((RobotLegCompoent.new footPosOffset groundY speed upperLegLength lowerLegLength).start
        sqrt pelvis0 kneeTarget0).stepDistance = upperLegLength + lowerLegLength) := by
  have h1 : ¬ (leg.allowStep = false ∧ leg.moving = false ∧
      Vector3.length sqrt ((pelvis.getWorldPosition sqrt).sub leg.footActualPosition) <
        leg.upperLegLength + leg.lowerLegLength) := by
    simp [hallow]
  have hu : leg.update sqrt sin pi pelvis kneeTarget deltaTime =
      { leg with
        footIdealPosition := leg.calculateIdealFootPlacementPosition sqrt pelvis
        kneePosition := leg.kneePosition.lerp
          (leg.calculateKneePosition sqrt pelvis kneeTarget) 0.5
        pelvisPosition := pelvis.getWorldPosition sqrt
        moving := true
        movementProgress := 0
        startingFootRaisePosition := leg.footActualPosition
        endingFootRaisePosition := leg.calculateIdealFootPlacementPosition sqrt pelvis } := by
    unfold RobotLegCompoent.update
    simp only []
    rw [if_neg h1, if_pos ⟨hfar, hidle⟩]
    rfl
  rw [hu]
  refine ⟨rfl, rfl, rfl, rfl, rfl, ?_⟩
  intro o g sp u l p0 k0
  simp [RobotLegCompoent.start, RobotLegCompoent.new, add_comm]

theorem RobotLegCompoent.update_hold (sqrt sin : K → K) (pi : K)
    (pelvis kneeTarget : Transform K) (deltaTime : K) (leg : RobotLegCompoent K)
    (h : leg.allowStep = false ∧ leg.moving = false ∧
      Vector3.length sqrt ((pelvis.getWorldPosition sqrt).sub leg.footActualPosition) <
        leg.upperLegLength + leg.lowerLegLength) :
    leg.update sqrt sin pi pelvis kneeTarget deltaTime =
      { leg with
        footIdealPosition := leg.calculateIdealFootPlacementPosition sqrt pelvis
        kneePosition := leg.kneePosition.lerp
          (leg.calculateKneePosition sqrt pelvis kneeTarget) 0.5
        pelvisPosition := pelvis.getWorldPosition sqrt } := by
  unfold RobotLegCompoent.update
  simp only []
  rw [if_pos h]
  rfl

theorem RobotLegCompoent.update_step (sqrt sin : K → K) (pi : K)
    (pelvis kneeTarget : Transform K) (deltaTime : K) (leg : RobotLegCompoent K)
    (hgate : ¬ (leg.allowStep = false ∧ leg.moving = false ∧
      Vector3.length sqrt ((pelvis.getWorldPosition sqrt).sub leg.footActualPosition) <
        leg.upperLegLength + leg.lowerLegLength))
    (hidle : leg.moving = false)
    (hfar : (leg.calculateIdealFootPlacementPosition sqrt pelvis).distanceTo sqrt
      leg.footActualPosition > leg.stepDistance) :
    leg.update sqrt sin pi pelvis kneeTarget deltaTime =
      { leg with
        footIdealPosition := leg.calculateIdealFootPlacementPosition sqrt pelvis
        kneePosition := leg.kneePosition.lerp
          (leg.calculateKneePosition sqrt pelvis kneeTarget) 0.5
        pelvisPosition := pelvis.getWorldPosition sqrt
        moving := true
        movementProgress := 0
        startingFootRaisePosition := leg.footActualPosition
        endingFootRaisePosition := leg.calculateIdealFootPlacementPosition sqrt pelvis } := by
  unfold RobotLegCompoent.update
  simp only []
  rw [if_neg hgate, if_pos ⟨hfar, hidle⟩]
  rfl

/-- C12 (amended): for every leg that is idle (`moving == false`) and whose ideal-to-actual
foot distance exceeds `stepDistance`, unless `allowStep` is false while the pelvis is closer
than `upperLegLength + lowerLegLength` to the actual foot, the leg is stepping
(`moving == true`) at the end of that same `update` call, whatever its other fields are. -/
theorem RobotLegCompoent.update_idle_to_stepping (sqrt sin : K → K) (pi : K)
    (pelvis kneeTarget : Transform K) (deltaTime : K) (leg : RobotLegCompoent K)
    (hidle : leg.moving = false)
    (hfar : (leg.calculateIdealFootPlacementPosition sqrt pelvis).distanceTo sqrt
      leg.footActualPosition > leg.stepDistance)
    (hgate : ¬ (leg.allowStep = false ∧
      (pelvis.getWorldPosition sqrt).distanceTo sqrt leg.footActualPosition <
        leg.upperLegLength + leg.lowerLegLength)) :
    (leg.update sqrt sin pi pelvis kneeTarget deltaTime).moving = true := by
  have hg : ¬ (leg.allowStep = false ∧ leg.moving = false ∧
      Vector3.length sqrt ((pelvis.getWorldPosition sqrt).sub leg.footActualPosition) <
        leg.upperLegLength + leg.lowerLegLength) :=
    fun h => hgate ⟨h.1, h.2.2⟩
  rw [RobotLegCompoent.update_step sqrt sin pi pelvis kneeTarget deltaTime leg hg hidle hfar]

/-- C13: for every leg with `moving == true` whose `footActualPosition` is closer than 0.01 to
`endingFootRaisePosition` at the start of `update`, that call ends with `moving == false`,
`movementProgress == 0`, both step anchors equal to `footActualPosition`, and
`footActualPosition` unchanged. -/
theorem RobotLegCompoent.update_stops_step (sqrt sin : K → K) (pi : K)
    (pelvis kneeTarget : Transform K) (deltaTime : K) (leg : RobotLegCompoent K)
    (hmoving : leg.moving = true)
    (hnear : leg.footActualPosition.distanceTo sqrt leg.endingFootRaisePosition < 0.01) :
    (leg.update sqrt sin pi pelvis kneeTarget deltaTime).moving = false ∧
    (leg.update sqrt sin pi pelvis kneeTarget deltaTime).movementProgress = 0 ∧
    (leg.update sqrt sin pi pelvis kneeTarget deltaTime).startingFootRaisePosition =
      leg.footActualPosition ∧
    (leg.update sqrt sin pi pelvis kneeTarget deltaTime).endingFootRaisePosition =
      leg.footActualPosition ∧
    (leg.update sqrt sin pi pelvis kneeTarget deltaTime).footActualPosition =
      leg.footActualPosition := by
  have hnear2 : leg.endingFootRaisePosition.distanceTo sqrt leg.footActualPosition < 0.01 := by
    rw [Vector3.distanceTo_comm] at hnear
    exact hnear
  have h1 : ¬ (leg.allowStep = false ∧ leg.moving = false ∧
      Vector3.length sqrt ((pelvis.getWorldPosition sqrt).sub leg.footActualPosition) <
        leg.upperLegLength + leg.lowerLegLength) := by
    simp [hmoving]
  have h2 : ¬ ((leg.calculateIdealFootPlacementPosition sqrt pelvis).distanceTo sqrt
      leg.footActualPosition > leg.stepDistance ∧ leg.moving = false) := by
    simp [hmoving]
  have hu : leg.update sqrt sin pi pelvis kneeTarget deltaTime =
      { leg with
        footIdealPosition := leg.calculateIdealFootPlacementPosition sqrt pelvis
        kneePosition := leg.kneePosition.lerp
          (leg.calculateKneePosition sqrt pelvis kneeTarget) 0.5
        pelvisPosition := pelvis.getWorldPosition sqrt
        moving := false
        movementProgress := 0
        startingFootRaisePosition := leg.footActualPosition
        endingFootRaisePosition := leg.footActualPosition } := by
    unfold RobotLegCompoent.update
    simp only []
    rw [if_neg h1, if_neg h2, if_pos (And.intro hnear2 hmoving)]
    simp only [Bool.false_eq_true, if_false]
    rfl
  rw [hu]
  exact ⟨rfl, rfl, rfl, rfl, rfl⟩

theorem RobotLegCompoent.moveFoot_progress (sin : K → K) (pi : K) (ideal : Vector3 K)
    (deltaTime : K) (leg : RobotLegCompoent K) :
    0 ≤ (leg.moveFoot sin pi ideal deltaTime).movementProgress ∧
      (leg.moveFoot sin pi ideal deltaTime).movementProgress ≤ 1 := by
  have hp : (leg.moveFoot sin pi ideal deltaTime).movementProgress =
      if (if leg.movementProgress + deltaTime * leg.stepSpeed > 1 then 1
          else leg.movementProgress + deltaTime * leg.stepSpeed) < 0 then 0
      else (if leg.movementProgress + deltaTime * leg.stepSpeed > 1 then 1
          else leg.movementProgress + deltaTime * leg.stepSpeed) := by
    unfold RobotLegCompoent.moveFoot
    simp only []
    split_ifs <;> rfl
  rw [hp]
  split_ifs with h1 h2 h3 <;> constructor <;> linarith

theorem RobotLegCompoent.update_progress (sqrt sin : K → K) (pi : K)
    (pelvis kneeTarget : Transform K) (deltaTime : K) (leg : RobotLegCompoent K)
    (h : 0 ≤ leg.movementProgress ∧ leg.movementProgress ≤ 1) :
    0 ≤ (leg.update sqrt sin pi pelvis kneeTarget deltaTime).movementProgress ∧
      (leg.update sqrt sin pi pelvis kneeTarget deltaTime).movementProgress ≤ 1 := by
  unfold RobotLegCompoent.update
  simp only []
  split_ifs
  all_goals first
    | exact h
    | exact RobotLegCompoent.moveFoot_progress sin pi _ deltaTime _
    | exact ⟨le_refl 0, zero_le_one⟩

/-- C14: in every state reached from `start()` through any sequence of frames, each setting
`allowStep` to any value and calling `update(dt)` with any `dt` (negative or large ones
included) and any pelvis and knee-target transforms, `0 <= movementProgress <= 1`. -/
theorem RobotLegCompoent.movementProgress_bounds (sqrt sin : K → K) (pi : K)
    (pelvis kneeTarget : Transform K) (leg : RobotLegCompoent K) (frames : List (LegFrame K)) :
    0 ≤ (RobotLegCompoent.run sqrt sin pi frames
        (leg.start sqrt pelvis kneeTarget)).movementProgress ∧
      (RobotLegCompoent.run sqrt sin pi frames
        (leg.start sqrt pelvis kneeTarget)).movementProgress ≤ 1 := by
  have hrun : ∀ (fs : List (LegFrame K)) (l : RobotLegCompoent K),
      (0 ≤ l.movementProgress ∧ l.movementProgress ≤ 1) →
      0 ≤ (RobotLegCompoent.run sqrt sin pi fs l).movementProgress ∧
        (RobotLegCompoent.run sqrt sin pi fs l).movementProgress ≤ 1 := by
    intro fs
    induction fs with
    | nil => intro l hl; exact hl
    | cons f fs ih =>
      intro l hl
      simp only [RobotLegCompoent.run, List.foldl_cons]
      exact ih _ (RobotLegCompoent.update_progress sqrt sin pi f.pelvis f.kneeTarget
        f.deltaTime { l with allowStep := f.allowStep } hl)
  exact hrun frames _ ⟨le_refl 0, zero_le_one⟩

/-- C15: for every leg with `allowStep == false` and `moving == false` whose pelvis is closer
than `upperLegLength + lowerLegLength` to the actual foot, `update(dt)` leaves
`footActualPosition`, `moving`, `movementProgress`, `startingFootRaisePosition` and
`endingFootRaisePosition` unchanged, however far the ideal foot position is. -/
theorem RobotLegCompoent.update_holds_position (sqrt sin : K → K) (pi : K)
    (pelvis kneeTarget : Transform K) (deltaTime : K) (leg : RobotLegCompoent K)
    (hallow : leg.allowStep = false) (hidle : leg.moving = false)
    (hclose : (pelvis.getWorldPosition sqrt).distanceTo sqrt leg.footActualPosition <
      leg.upperLegLength + leg.lowerLegLength) :
    (leg.update sqrt sin pi pelvis kneeTarget deltaTime).footActualPosition =
      leg.footActualPosition ∧
    (leg.update sqrt sin pi pelvis kneeTarget deltaTime).moving = leg.moving ∧
    (leg.update sqrt sin pi pelvis kneeTarget deltaTime).movementProgress =
      leg.movementProgress ∧
    (leg.update sqrt sin pi pelvis kneeTarget deltaTime).startingFootRaisePosition =
      leg.startingFootRaisePosition ∧
    (leg.update sqrt sin pi pelvis kneeTarget deltaTime).endingFootRaisePosition =
      leg.endingFootRaisePosition := by
  rw [RobotLegCompoent.update_hold sqrt sin pi pelvis kneeTarget deltaTime leg
    ⟨hallow, hidle, hclose⟩]
  exact ⟨rfl, rfl, rfl, rfl, rfl⟩

/-- C16: `parabolicLerp(a, b, h, t)` has the `x` and `z` coordinates of the linear
interpolation `a + t·(b − a)` and its `y` coordinate plus `h·sin(t·π)`; with `sin 0 = 0` and
`sin π = 0` it gives `a` at `t = 0` and `b` at `t = 1`; and with the sine non-negative on
`[0, π]` the vertical offset is non-negative for `h >= 0` and `t` in `[0, 1]`. -/
theorem RobotLegCompoent.parabolicLerp_spec (sin : K → K) (pi : K)
    (hsin0 : sin 0 = 0) (hsinpi : sin pi = 0)
    (hsin : ∀ x : K, 0 ≤ x → x ≤ pi → 0 ≤ sin x) (hpi : 0 ≤ pi)
    (a b : Vector3 K) (h t : K) :
    (RobotLegCompoent.parabolicLerp sin pi a b h t).x = a.x + t * (b.x - a.x) ∧
    (RobotLegCompoent.parabolicLerp sin pi a b h t).z = a.z + t * (b.z - a.z) ∧
    (RobotLegCompoent.parabolicLerp sin pi a b h t).y =
      a.y + t * (b.y - a.y) + h * sin (t * pi) ∧
    RobotLegCompoent.parabolicLerp sin pi a b h 0 = a ∧
    RobotLegCompoent.parabolicLerp sin pi a b h 1 = b ∧
    (0 ≤ h → 0 ≤ t → t ≤ 1 → 0 ≤ h * sin (t * pi)) := by
  refine ⟨?_, ?_, ?_, ?_, ?_, ?_⟩
  · simp only [RobotLegCompoent.parabolicLerp, Vector3.lerp]
    ring
  · simp only [RobotLegCompoent.parabolicLerp, Vector3.lerp]
    ring
  · simp only [RobotLegCompoent.parabolicLerp, Vector3.lerp]
    ring
  · cases a
    simp [RobotLegCompoent.parabolicLerp, Vector3.lerp, hsin0]
  · cases b
    simp [RobotLegCompoent.parabolicLerp, Vector3.lerp, hsinpi]
  · intro hh ht0 ht1
    apply mul_nonneg hh
    apply hsin
    · exact mul_nonneg ht0 hpi
    · calc t * pi ≤ 1 * pi := mul_le_mul_of_nonneg_right ht1 hpi
        _ = pi := one_mul pi

theorem realSqrt_values :
    Real.sqrt 0 = 0 ∧ Real.sqrt 1 = 1 ∧ Real.sqrt 4 = 2 ∧ Real.sqrt 9 = 3 ∧ Real.sqrt 25 = 5 ∧
      Real.sqrt (25 / 4) = 5 / 2 := by
  refine ⟨Real.sqrt_zero, Real.sqrt_one, ?_, ?_, ?_, ?_⟩
  · rw [show (4 : ℝ) = 2 * 2 by norm_num]
    exact Real.sqrt_mul_self (by norm_num)
  · rw [show (9 : ℝ) = 3 * 3 by norm_num]
    exact Real.sqrt_mul_self (by norm_num)
  · rw [show (25 : ℝ) = 5 * 5 by norm_num]
    exact Real.sqrt_mul_self (by norm_num)
  · rw [show (25 / 4 : ℝ) = 5 / 2 * (5 / 2) by norm_num]
    exact Real.sqrt_mul_self (by norm_num)

theorem exampleLeg_fields (sqrt : K → K) :
    (exampleLeg K sqrt).footActualPosition = ⟨3, 0, 0⟩ ∧
      (exampleLeg K sqrt).endingFootRaisePosition = ⟨3, 0, 0⟩ ∧
      (exampleLeg K sqrt).footPosOffset = ⟨3, 0, 0⟩ ∧ (exampleLeg K sqrt).groundY = 0 ∧
      (exampleLeg K sqrt).stepDistance = 2 ∧ (exampleLeg K sqrt).upperLegLength = 1 ∧
      (exampleLeg K sqrt).lowerLegLength = 1 ∧ (exampleLeg K sqrt).moving = false ∧
      (exampleLeg K sqrt).allowStep = true := by
  have h : (exampleLeg K sqrt).footActualPosition = ⟨3, 0, 0⟩ := by
    show RobotLegCompoent.calculateIdealFootPlacementPosition sqrt
      (Transform.new (some ⟨0, 0, 0⟩) none none none) (RobotLegCompoent.new ⟨3, 0, 0⟩ 0 1 1 1) = _
    rw [RobotLegCompoent.calculateIdeal_translated]
    simp [RobotLegCompoent.new]
  refine ⟨h, h, rfl, rfl, ?_, rfl, rfl, rfl, rfl⟩
  show (1 : K) + 1 = 2
  norm_num

theorem RobotLegCompoent.update_starts_step_witness :
    (exampleLeg ℝ Real.sqrt).allowStep = true ∧ (exampleLeg ℝ Real.sqrt).moving = false ∧
      ((exampleLeg ℝ Real.sqrt).calculateIdealFootPlacementPosition Real.sqrt
          (examplePelvisAhead ℝ)).distanceTo Real.sqrt
        (exampleLeg ℝ Real.sqrt).footActualPosition > (exampleLeg ℝ Real.sqrt).stepDistance ∧
      ((exampleLeg ℝ Real.sqrt).update Real.sqrt Real.sin Real.pi (examplePelvisAhead ℝ)
        (exampleKneeTarget ℝ) (1 / 60)).moving = true ∧
      ((exampleLeg ℝ Real.sqrt).update Real.sqrt Real.sin Real.pi (examplePelvisAhead ℝ)
        (exampleKneeTarget ℝ) (1 / 60)).endingFootRaisePosition = ⟨11 / 2, 0, 0⟩ := by
  have hf := exampleLeg_fields Real.sqrt
  have hideal : (exampleLeg ℝ Real.sqrt).calculateIdealFootPlacementPosition Real.sqrt
      (examplePelvisAhead ℝ) = ⟨11 / 2, 0, 0⟩ := by
    rw [examplePelvisAhead, RobotLegCompoent.calculateIdeal_translated, hf.2.2.1, hf.2.2.2.1]
    norm_num
  have hfar : ((exampleLeg ℝ Real.sqrt).calculateIdealFootPlacementPosition Real.sqrt
      (examplePelvisAhead ℝ)).distanceTo Real.sqrt
        (exampleLeg ℝ Real.sqrt).footActualPosition > (exampleLeg ℝ Real.sqrt).stepDistance := by
    rw [hideal, hf.1, hf.2.2.2.2.1]
    simp only [Vector3.distanceTo, Vector3.length, Vector3.sub, Vector3.dot]
    norm_num [realSqrt_values]
  have hw := RobotLegCompoent.update_starts_step Real.sqrt Real.sin Real.pi
    (examplePelvisAhead ℝ) (exampleKneeTarget ℝ) (1 / 60) (exampleLeg ℝ Real.sqrt)
    hf.2.2.2.2.2.2.2.2 hf.2.2.2.2.2.2.2.1 hfar
  exact ⟨hf.2.2.2.2.2.2.2.2, hf.2.2.2.2.2.2.2.1, hfar, hw.1, hw.2.2.1.trans hideal⟩

theorem exampleHeldLeg_close :
    (exampleHeldLeg ℝ Real.sqrt).allowStep = false ∧
      (exampleHeldLeg ℝ Real.sqrt).moving = false ∧
      ((examplePelvisAbove ℝ).getWorldPosition Real.sqrt).distanceTo Real.sqrt
          (exampleHeldLeg ℝ Real.sqrt).footActualPosition <
        (exampleHeldLeg ℝ Real.sqrt).upperLegLength +
          (exampleHeldLeg ℝ Real.sqrt).lowerLegLength := by
  have hf := exampleLeg_fields Real.sqrt
  refine ⟨rfl, rfl, ?_⟩
  have h1 : (exampleHeldLeg ℝ Real.sqrt).footActualPosition = ⟨3, 0, 0⟩ := hf.1
  have h2 : (exampleHeldLeg ℝ Real.sqrt).upperLegLength = 1 := rfl
  have h3 : (exampleHeldLeg ℝ Real.sqrt).lowerLegLength = 1 := rfl
  rw [examplePelvisAbove, Transform.new_position_getWorldPosition, h1, h2, h3]
  simp only [Vector3.distanceTo, Vector3.length, Vector3.sub, Vector3.dot]
  norm_num [realSqrt_values]

theorem exampleHeldLeg_far :
    ((exampleHeldLeg ℝ Real.sqrt).calculateIdealFootPlacementPosition Real.sqrt
        (examplePelvisAbove ℝ)).distanceTo Real.sqrt
      (exampleHeldLeg ℝ Real.sqrt).footActualPosition >
        (exampleHeldLeg ℝ Real.sqrt).stepDistance := by
  have hf := exampleLeg_fields Real.sqrt
  have h1 : (exampleHeldLeg ℝ Real.sqrt).footActualPosition = ⟨3, 0, 0⟩ := hf.1
  have h2 : (exampleHeldLeg ℝ Real.sqrt).stepDistance = 2 := hf.2.2.2.2.1
  have h3 : (exampleHeldLeg ℝ Real.sqrt).footPosOffset = ⟨3, 0, 0⟩ := rfl
  have h4 : (exampleHeldLeg ℝ Real.sqrt).groundY = 0 := rfl
  rw [examplePelvisAbove, RobotLegCompoent.calculateIdeal_translated, h1, h2, h3, h4]
  simp only [Vector3.distanceTo, Vector3.length, Vector3.sub, Vector3.dot]
  norm_num [realSqrt_values]

/-- C12, as stated, fails: a started leg with `allowStep == false` whose pelvis stands right
above its foot is idle, its ideal foot position is 3 away from the actual one
(`stepDistance` is 2), and it is still idle after `update`. -/
theorem RobotLegCompoent.update_idle_to_stepping_counterexample :
    (exampleHeldLeg ℝ Real.sqrt).moving = false ∧
      ((exampleHeldLeg ℝ Real.sqrt).calculateIdealFootPlacementPosition Real.sqrt
          (examplePelvisAbove ℝ)).distanceTo Real.sqrt
        (exampleHeldLeg ℝ Real.sqrt).footActualPosition >
          (exampleHeldLeg ℝ Real.sqrt).stepDistance ∧
      ((exampleHeldLeg ℝ Real.sqrt).update Real.sqrt Real.sin Real.pi (examplePelvisAbove ℝ)
        (exampleKneeTarget ℝ) (1 / 60)).moving = false := by
  refine ⟨rfl, exampleHeldLeg_far, ?_⟩
  rw [RobotLegCompoent.update_hold Real.sqrt Real.sin Real.pi (examplePelvisAbove ℝ)
    (exampleKneeTarget ℝ) (1 / 60) (exampleHeldLeg ℝ Real.sqrt) exampleHeldLeg_close]
  rfl

theorem RobotLegCompoent.update_idle_to_stepping_witness :
    (exampleLeg ℝ Real.sqrt).moving = false ∧
      ((exampleLeg ℝ Real.sqrt).calculateIdealFootPlacementPosition Real.sqrt
          (examplePelvisAbove ℝ)).distanceTo Real.sqrt
        (exampleLeg ℝ Real.sqrt).footActualPosition > (exampleLeg ℝ Real.sqrt).stepDistance ∧
      ¬ ((exampleLeg ℝ Real.sqrt).allowStep = false ∧
        ((examplePelvisAbove ℝ).getWorldPosition Real.sqrt).distanceTo Real.sqrt
            (exampleLeg ℝ Real.sqrt).footActualPosition <
          (exampleLeg ℝ Real.sqrt).upperLegLength + (exampleLeg ℝ Real.sqrt).lowerLegLength) ∧
      ((exampleLeg ℝ Real.sqrt).update Real.sqrt Real.sin Real.pi (examplePelvisAbove ℝ)
        (exampleKneeTarget ℝ) (1 / 60)).moving = true := by
  have hgate : ¬ ((exampleLeg ℝ Real.sqrt).allowStep = false ∧
      ((examplePelvisAbove ℝ).getWorldPosition Real.sqrt).distanceTo Real.sqrt
          (exampleLeg ℝ Real.sqrt).footActualPosition <
        (exampleLeg ℝ Real.sqrt).upperLegLength + (exampleLeg ℝ Real.sqrt).lowerLegLength) := by
    intro h
    have ht : (exampleLeg ℝ Real.sqrt).allowStep = true := rfl
    rw [ht] at h
    exact absurd h.1 (by decide)
  exact ⟨rfl, exampleHeldLeg_far, hgate,
    RobotLegCompoent.update_idle_to_stepping Real.sqrt Real.sin Real.pi (examplePelvisAbove ℝ)
      (exampleKneeTarget ℝ) (1 / 60) (exampleLeg ℝ Real.sqrt) rfl exampleHeldLeg_far hgate⟩

theorem RobotLegCompoent.update_stops_step_witness :
    (exampleSteppingLeg ℝ Real.sqrt).moving = true ∧
      (exampleSteppingLeg ℝ Real.sqrt).footActualPosition.distanceTo Real.sqrt
        (exampleSteppingLeg ℝ Real.sqrt).endingFootRaisePosition < 0.01 ∧
      ((exampleSteppingLeg ℝ Real.sqrt).update Real.sqrt Real.sin Real.pi
        (examplePelvisAhead ℝ) (exampleKneeTarget ℝ) (1 / 60)).moving = false ∧
      ((exampleSteppingLeg ℝ Real.sqrt).update Real.sqrt Real.sin Real.pi
        (examplePelvisAhead ℝ) (exampleKneeTarget ℝ) (1 / 60)).endingFootRaisePosition =
          ⟨3, 0, 0⟩ := by
  have hf := exampleLeg_fields Real.sqrt
  have h1 : (exampleSteppingLeg ℝ Real.sqrt).footActualPosition = ⟨3, 0, 0⟩ := hf.1
  have h2 : (exampleSteppingLeg ℝ Real.sqrt).endingFootRaisePosition = ⟨3, 0, 0⟩ := hf.2.1
  have hnear : (exampleSteppingLeg ℝ Real.sqrt).footActualPosition.distanceTo Real.sqrt
      (exampleSteppingLeg ℝ Real.sqrt).endingFootRaisePosition < 0.01 := by
    rw [h1, h2]
    simp only [Vector3.distanceTo, Vector3.length, Vector3.sub, Vector3.dot]
    norm_num [realSqrt_values]
  have hw := RobotLegCompoent.update_stops_step Real.sqrt Real.sin Real.pi
    (examplePelvisAhead ℝ) (exampleKneeTarget ℝ) (1 / 60) (exampleSteppingLeg ℝ Real.sqrt)
    rfl hnear
  exact ⟨rfl, hnear, hw.1, hw.2.2.2.1.trans h1⟩

theorem RobotLegCompoent.update_holds_position_witness :
    (exampleHeldLeg ℝ Real.sqrt).allowStep = false ∧
      (exampleHeldLeg ℝ Real.sqrt).moving = false ∧
      ((examplePelvisAbove ℝ).getWorldPosition Real.sqrt).distanceTo Real.sqrt
          (exampleHeldLeg ℝ Real.sqrt).footActualPosition <
        (exampleHeldLeg ℝ Real.sqrt).upperLegLength +
          (exampleHeldLeg ℝ Real.sqrt).lowerLegLength ∧
      ((exampleHeldLeg ℝ Real.sqrt).update Real.sqrt Real.sin Real.pi (examplePelvisAbove ℝ)
        (exampleKneeTarget ℝ) (1 / 60)).footActualPosition = ⟨3, 0, 0⟩ :=
  ⟨exampleHeldLeg_close.1, exampleHeldLeg_close.2.1, exampleHeldLeg_close.2.2,
   (RobotLegCompoent.update_holds_position Real.sqrt Real.sin Real.pi (examplePelvisAbove ℝ)
      (exampleKneeTarget ℝ) (1 / 60) (exampleHeldLeg ℝ Real.sqrt) exampleHeldLeg_close.1
      exampleHeldLeg_close.2.1 exampleHeldLeg_close.2.2).1.trans (exampleLeg_fields Real.sqrt).1⟩

theorem RobotLegCompoent.parabolicLerp_spec_witness :
    Real.sin 0 = 0 ∧ Real.sin Real.pi = 0 ∧
      (∀ x : ℝ, 0 ≤ x → x ≤ Real.pi → 0 ≤ Real.sin x) ∧ 0 ≤ Real.pi ∧
      RobotLegCompoent.parabolicLerp Real.sin Real.pi ⟨0, 0, 0⟩ ⟨4, 0, 2⟩ 2 0 = ⟨0, 0, 0⟩ ∧
      RobotLegCompoent.parabolicLerp Real.sin Real.pi ⟨0, 0, 0⟩ ⟨4, 0, 2⟩ 2 1 = ⟨4, 0, 2⟩ ∧
      0 ≤ 2 * Real.sin (1 / 2 * Real.pi) :=
  ⟨Real.sin_zero, Real.sin_pi, fun _ h0 h1 => Real.sin_nonneg_of_nonneg_of_le_pi h0 h1,
   Real.pi_pos.le,
   (RobotLegCompoent.parabolicLerp_spec Real.sin Real.pi Real.sin_zero Real.sin_pi
      (fun _ h0 h1 => Real.sin_nonneg_of_nonneg_of_le_pi h0 h1) Real.pi_pos.le
      ⟨0, 0, 0⟩ ⟨4, 0, 2⟩ 2 0).2.2.2.1,
   (RobotLegCompoent.parabolicLerp_spec Real.sin Real.pi Real.sin_zero Real.sin_pi
      (fun _ h0 h1 => Real.sin_nonneg_of_nonneg_of_le_pi h0 h1) Real.pi_pos.le
      ⟨0, 0, 0⟩ ⟨4, 0, 2⟩ 2 1).2.2.2.2.1,
   (RobotLegCompoent.parabolicLerp_spec Real.sin Real.pi Real.sin_zero Real.sin_pi
      (fun _ h0 h1 => Real.sin_nonneg_of_nonneg_of_le_pi h0 h1) Real.pi_pos.le
      ⟨0, 0, 0⟩ ⟨4, 0, 2⟩ 2 (1 / 2)).2.2.2.2.2 (by norm_num) (by norm_num) (by norm_num)⟩

end RobotLegTheorems

/-! ## Theorems: gait orchestrator -/

section OrchestratorTheorems

set_option linter.unusedSectionVars false

variable {K : Type} [LinearOrderedField K]

theorem RobotLegOrchestratorComponent.setLegStatesFrom_getElem (state : ACTIVE_LEG_SET) :
    ∀ (legs : List (RobotLegCompoent K)) (i j : Nat),
      (RobotLegOrchestratorComponent.setLegStatesFrom state legs i)[j]? =
        (legs[j]?).map (fun leg =>
          { leg with allowStep := RobotLegOrchestratorComponent.isValidState state (i + j) })
  | [], _, _ => by simp [RobotLegOrchestratorComponent.setLegStatesFrom]
  | leg :: rest, i, 0 => by simp [RobotLegOrchestratorComponent.setLegStatesFrom]
  | leg :: rest, i, j + 1 => by
      have hij : i + 1 + j = i + (j + 1) := by omega
      simp [RobotLegOrchestratorComponent.setLegStatesFrom,
        RobotLegOrchestratorComponent.setLegStatesFrom_getElem state rest (i + 1) j, hij]

theorem RobotLegOrchestratorComponent.setLegStatesFrom_length (state : ACTIVE_LEG_SET) :
    ∀ (legs : List (RobotLegCompoent K)) (i : Nat),
      (RobotLegOrchestratorComponent.setLegStatesFrom state legs i).length = legs.length
  | [], _ => rfl
  | leg :: rest, i => by
      simp [RobotLegOrchestratorComponent.setLegStatesFrom,
        RobotLegOrchestratorComponent.setLegStatesFrom_length state rest (i + 1)]

theorem RobotLegOrchestratorComponent.isMovingFrom_iff (parity : Nat) :
    ∀ (legs : List (RobotLegCompoent K)) (i : Nat),
      RobotLegOrchestratorComponent.isMovingFrom parity legs i = true ↔
        ∃ j leg, legs[j]? = some leg ∧ (i + j) % 2 = parity ∧ leg.moving = true
  | [], _ => by simp [RobotLegOrchestratorComponent.isMovingFrom]
  | leg :: rest, i => by
      have ih := RobotLegOrchestratorComponent.isMovingFrom_iff parity rest (i + 1)
      have hshift : (∃ j l, (leg :: rest)[j]? = some l ∧ (i + j) % 2 = parity ∧
          l.moving = true) ↔
          (i % 2 = parity ∧ leg.moving = true) ∨
            ∃ j l, rest[j]? = some l ∧ (i + 1 + j) % 2 = parity ∧ l.moving = true := by
        constructor
        · rintro ⟨j, l, hj, hp, hm⟩
          cases j with
          | zero =>
            simp only [List.getElem?_cons_zero, Option.some.injEq] at hj
            subst hj
            exact Or.inl ⟨by simpa using hp, hm⟩
          | succ j =>
            simp only [List.getElem?_cons_succ] at hj
            exact Or.inr ⟨j, l, hj, by rw [← hp]; congr 1; omega, hm⟩
        · rintro (⟨hp, hm⟩ | ⟨j, l, hj, hp, hm⟩)
          · exact ⟨0, leg, by simp, by simpa using hp, hm⟩
          · exact ⟨j + 1, l, by simpa using hj, by rw [← hp]; congr 1; omega, hm⟩
      rw [hshift, ← ih]
      simp only [RobotLegOrchestratorComponent.isMovingFrom]
      by_cases hpar : i % 2 = parity
      · by_cases hm : leg.moving = true
        · simp [hpar, hm]
        · simp [hpar, hm]
      · simp [hpar]

theorem RobotLegOrchestratorComponent.isMoving_iff (parity : Nat)
    (legs : List (RobotLegCompoent K)) :
    RobotLegOrchestratorComponent.isMovingFrom parity legs 0 = true ↔
      RobotLegOrchestratorComponent.GroupMoving parity legs := by
  rw [RobotLegOrchestratorComponent.isMovingFrom_iff]
  simp [RobotLegOrchestratorComponent.GroupMoving]

theorem RobotLegOrchestratorComponent.update_timeout (deltaTime : K)
    (o : RobotLegOrchestratorComponent K) (h : o.timeSinceLastSwitch > o.minSwitchTime) :
    o.update deltaTime =
      { o with
        legComponents :=
          RobotLegOrchestratorComponent.setLegStates ACTIVE_LEG_SET.ALL o.legComponents
        timeSinceLastSwitch := 0 } := by
  unfold RobotLegOrchestratorComponent.update
  simp only []
  rw [if_pos h]

/-- C17, evaluated on a state past the timeout (gait state `EVEN`, 3 seconds since the last
switch, `minSwitchTime` 2): after `update` the timer is 0 and every leg has
`allowStep == true`, but `activeLegSet` is still `EVEN`, not `ALL`. -/
theorem RobotLegOrchestratorComponent.update_timeout_example :
    (exampleOrchestrator ACTIVE_LEG_SET.EVEN 3).timeSinceLastSwitch >
        (exampleOrchestrator ACTIVE_LEG_SET.EVEN 3).minSwitchTime ∧
      ((exampleOrchestrator ACTIVE_LEG_SET.EVEN 3).update (1 / 60)).activeLegSet =
        ACTIVE_LEG_SET.EVEN ∧
      ((exampleOrchestrator ACTIVE_LEG_SET.EVEN 3).update (1 / 60)).activeLegSet ≠
        ACTIVE_LEG_SET.ALL ∧
      ((exampleOrchestrator ACTIVE_LEG_SET.EVEN 3).update (1 / 60)).timeSinceLastSwitch = 0 ∧
      (((exampleOrchestrator ACTIVE_LEG_SET.EVEN 3).update (1 / 60)).legComponents.map
        (fun leg => leg.allowStep)) = [true, true] := by
  have h : (exampleOrchestrator ACTIVE_LEG_SET.EVEN 3).timeSinceLastSwitch >
      (exampleOrchestrator ACTIVE_LEG_SET.EVEN 3).minSwitchTime := by
    show (3 : ℚ) > 2
    norm_num
  rw [RobotLegOrchestratorComponent.update_timeout _ _ h]
  refine ⟨h, rfl, ?_, rfl, rfl⟩
  show ACTIVE_LEG_SET.EVEN ≠ ACTIVE_LEG_SET.ALL
  decide

/-- C18, as stated, fails: with no leg moving and the timer within `minSwitchTime`, `update`
turns the gait state `ALL` into `EVEN` (not `ODD`) and `NONE` into `ODD` (not `EVEN`). -/
theorem RobotLegOrchestratorComponent.update_switch_counterexample :
    (exampleOrchestrator ACTIVE_LEG_SET.ALL 0).timeSinceLastSwitch ≤
        (exampleOrchestrator ACTIVE_LEG_SET.ALL 0).minSwitchTime ∧
      ¬ RobotLegOrchestratorComponent.GroupMoving 0
        (exampleOrchestrator ACTIVE_LEG_SET.ALL 0).legComponents ∧
      ((exampleOrchestrator ACTIVE_LEG_SET.ALL 0).update (1 / 60)).activeLegSet =
        ACTIVE_LEG_SET.EVEN ∧
      ((exampleOrchestrator ACTIVE_LEG_SET.ALL 0).update (1 / 60)).activeLegSet ≠
        ACTIVE_LEG_SET.ODD ∧
      ¬ RobotLegOrchestratorComponent.GroupMoving 1
        (exampleOrchestrator ACTIVE_LEG_SET.NONE 0).legComponents ∧
      ((exampleOrchestrator ACTIVE_LEG_SET.NONE 0).update (1 / 60)).activeLegSet =
        ACTIVE_LEG_SET.ODD ∧
      ((exampleOrchestrator ACTIVE_LEG_SET.NONE 0).update (1 / 60)).activeLegSet ≠
        ACTIVE_LEG_SET.EVEN := by
  have hle : ¬ ((0 : ℚ) > 2) := by norm_num
  have hall : ((exampleOrchestrator ACTIVE_LEG_SET.ALL 0).update (1 / 60)).activeLegSet =
      ACTIVE_LEG_SET.EVEN := by
    simp only [RobotLegOrchestratorComponent.update, exampleOrchestrator, if_neg hle]
    rfl
  have hnone : ((exampleOrchestrator ACTIVE_LEG_SET.NONE 0).update (1 / 60)).activeLegSet =
      ACTIVE_LEG_SET.ODD := by
    simp only [RobotLegOrchestratorComponent.update, exampleOrchestrator, if_neg hle]
    rfl
  refine ⟨?_, ?_, hall, ?_, ?_, hnone, ?_⟩
  · show (0 : ℚ) ≤ 2
    norm_num
  · rw [← RobotLegOrchestratorComponent.isMoving_iff]
    decide
  · rw [hall]
    decide
  · rw [← RobotLegOrchestratorComponent.isMoving_iff]
    decide
  · rw [hnone]
    decide

/-- C18 (amended): for every orchestrator state with `timeSinceLastSwitch <= minSwitchTime`:
when no leg of the examined group (even indices for `EVEN` or `ALL`, odd indices for `ODD` or
`NONE`) is moving, `update` switches `EVEN` to `ODD`, `ODD` to `EVEN`, `ALL` to `EVEN` and
`NONE` to `ODD`, resets the timer to 0 and pushes `allowStep` to every leg according to the new
state; when some leg of the examined group is moving, the gait state and the legs are
unchanged and the timer grows by exactly `dt`. -/
theorem RobotLegOrchestratorComponent.update_switch (deltaTime : K)
    (o : RobotLegOrchestratorComponent K) (hle : o.timeSinceLastSwitch ≤ o.minSwitchTime) :
    (RobotLegOrchestratorComponent.checkIndex ACTIVE_LEG_SET.EVEN = 0 ∧
      RobotLegOrchestratorComponent.checkIndex ACTIVE_LEG_SET.ALL = 0 ∧
      RobotLegOrchestratorComponent.checkIndex ACTIVE_LEG_SET.ODD = 1 ∧
      RobotLegOrchestratorComponent.checkIndex ACTIVE_LEG_SET.NONE = 1) ∧
    (¬ RobotLegOrchestratorComponent.GroupMoving
        (RobotLegOrchestratorComponent.checkIndex o.activeLegSet) o.legComponents →
      (o.activeLegSet = ACTIVE_LEG_SET.EVEN →
        (o.update deltaTime).activeLegSet = ACTIVE_LEG_SET.ODD) ∧
      (o.activeLegSet = ACTIVE_LEG_SET.ODD →
        (o.update deltaTime).activeLegSet = ACTIVE_LEG_SET.EVEN) ∧
      (o.activeLegSet = ACTIVE_LEG_SET.ALL →
        (o.update deltaTime).activeLegSet = ACTIVE_LEG_SET.EVEN) ∧
      (o.activeLegSet = ACTIVE_LEG_SET.NONE →
        (o.update deltaTime).activeLegSet = ACTIVE_LEG_SET.ODD) ∧
      (o.update deltaTime).timeSinceLastSwitch = 0 ∧
      (o.update deltaTime).legComponents =
        RobotLegOrchestratorComponent.setLegStates (o.update deltaTime).activeLegSet
          o.legComponents) ∧
    (RobotLegOrchestratorComponent.GroupMoving
        (RobotLegOrchestratorComponent.checkIndex o.activeLegSet) o.legComponents →
      (o.update deltaTime).activeLegSet = o.activeLegSet ∧
      (o.update deltaTime).legComponents = o.legComponents ∧
      (o.update deltaTime).timeSinceLastSwitch = o.timeSinceLastSwitch + deltaTime) := by
  have hnot : ¬ (o.timeSinceLastSwitch > o.minSwitchTime) := not_lt.mpr hle
  refine ⟨⟨by decide, by decide, by decide, by decide⟩, ?_, ?_⟩
  · intro hgm
    have hm : RobotLegOrchestratorComponent.isMovingFrom
        (RobotLegOrchestratorComponent.checkIndex o.activeLegSet) o.legComponents 0 = false := by
      rw [← Bool.not_eq_true, RobotLegOrchestratorComponent.isMoving_iff]
      exact hgm
    unfold RobotLegOrchestratorComponent.update
    simp only []
    rw [if_neg hnot, if_pos hm]
    refine ⟨?_, ?_, ?_, ?_, rfl, rfl⟩ <;> intro hs <;> simp [hs]
  · intro hgm
    have hm : ¬ (RobotLegOrchestratorComponent.isMovingFrom
        (RobotLegOrchestratorComponent.checkIndex o.activeLegSet) o.legComponents 0 = false) := by
      rw [Bool.not_eq_false, RobotLegOrchestratorComponent.isMoving_iff]
      exact hgm
    unfold RobotLegOrchestratorComponent.update
    simp only []
    rw [if_neg hnot, if_neg hm]
    exact ⟨rfl, rfl, rfl⟩

theorem RobotLegOrchestratorComponent.update_switch_witness :
    (exampleOrchestrator ACTIVE_LEG_SET.EVEN 1).timeSinceLastSwitch ≤
        (exampleOrchestrator ACTIVE_LEG_SET.EVEN 1).minSwitchTime ∧
      ¬ RobotLegOrchestratorComponent.GroupMoving 0
        (exampleOrchestrator ACTIVE_LEG_SET.EVEN 1).legComponents ∧
      ((exampleOrchestrator ACTIVE_LEG_SET.EVEN 1).update (1 / 60)).activeLegSet =
        ACTIVE_LEG_SET.ODD ∧
      ((exampleOrchestrator ACTIVE_LEG_SET.EVEN 1).update (1 / 60)).timeSinceLastSwitch = 0 := by
  have hle : (exampleOrchestrator ACTIVE_LEG_SET.EVEN 1).timeSinceLastSwitch ≤
      (exampleOrchestrator ACTIVE_LEG_SET.EVEN 1).minSwitchTime := by
    show (1 : ℚ) ≤ 2
    norm_num
  have hgm : ¬ RobotLegOrchestratorComponent.GroupMoving 0
      (exampleOrchestrator ACTIVE_LEG_SET.EVEN 1).legComponents := by
    rw [← RobotLegOrchestratorComponent.isMoving_iff]
    decide
  have hw := (RobotLegOrchestratorComponent.update_switch (1 / 60)
    (exampleOrchestrator ACTIVE_LEG_SET.EVEN 1) hle).2.1 hgm
  exact ⟨hle, hgm, hw.1 rfl, hw.2.2.2.2.1⟩

/-- C19: after `start()` the gait state is `EVEN` and, for every index `i` of a resolved leg,
that leg's `allowStep` is true exactly when `i` is even. In general `setLegStates(s)` keeps
the number of legs and changes nothing in leg `i` but `allowStep`, which becomes
(`i` even) for `EVEN`, (`i` odd) for `ODD`, true for `ALL` and false for `NONE`. -/
theorem RobotLegOrchestratorComponent.start_setLegStates
    (resolve : String → Option (RobotLegCompoent K)) (o : RobotLegOrchestratorComponent K) :
    (o.start resolve).activeLegSet = ACTIVE_LEG_SET.EVEN ∧
    (∀ (i : Nat) (leg : RobotLegCompoent K), (o.start resolve).legComponents[i]? = some leg →
      (leg.allowStep = true ↔ Even i)) ∧
    (∀ (s : ACTIVE_LEG_SET) (legs : List (RobotLegCompoent K)),
      (RobotLegOrchestratorComponent.setLegStates s legs).length = legs.length ∧
      ∀ (i : Nat) (leg : RobotLegCompoent K), legs[i]? = some leg →
        ∃ b : Bool,
          (RobotLegOrchestratorComponent.setLegStates s legs)[i]? =
            some { leg with allowStep := b } ∧
          (s = ACTIVE_LEG_SET.EVEN → (b = true ↔ Even i)) ∧
          (s = ACTIVE_LEG_SET.ODD → (b = true ↔ Odd i)) ∧
          (s = ACTIVE_LEG_SET.ALL → b = true) ∧
          (s = ACTIVE_LEG_SET.NONE → b = false)) := by
  have hgen : ∀ (s : ACTIVE_LEG_SET) (legs : List (RobotLegCompoent K)) (i : Nat)
      (leg : RobotLegCompoent K), legs[i]? = some leg →
      (RobotLegOrchestratorComponent.setLegStates s legs)[i]? =
        some { leg with allowStep := RobotLegOrchestratorComponent.isValidState s i } := by
    intro s legs i leg hl
    rw [RobotLegOrchestratorComponent.setLegStates,
      RobotLegOrchestratorComponent.setLegStatesFrom_getElem, hl]
    simp
  refine ⟨rfl, ?_, ?_⟩
  · intro i leg hleg
    simp only [RobotLegOrchestratorComponent.start,
      RobotLegOrchestratorComponent.setLegStates,
      RobotLegOrchestratorComponent.setLegStatesFrom_getElem, Option.map_eq_some'] at hleg
    obtain ⟨l, _, rfl⟩ := hleg
    simp [RobotLegOrchestratorComponent.isValidState, Nat.even_iff]
  · intro s legs
    refine ⟨RobotLegOrchestratorComponent.setLegStatesFrom_length s legs 0, ?_⟩
    intro i leg hl
    refine ⟨RobotLegOrchestratorComponent.isValidState s i, hgen s legs i leg hl, ?_, ?_, ?_, ?_⟩
    · intro hs
      simp [hs, RobotLegOrchestratorComponent.isValidState, Nat.even_iff]
    · intro hs
      simp [hs, RobotLegOrchestratorComponent.isValidState, Nat.odd_iff]
    · intro hs
      simp [hs, RobotLegOrchestratorComponent.isValidState]
    · intro hs
      simp [hs, RobotLegOrchestratorComponent.isValidState]

end OrchestratorTheorems

/-! ## PlayerController: the walkable-radius clamp -/

section PlayerPositionTheorems

variable {K : Type} [LinearOrderedField K]

/-- The position computed by `PlayerController.update` before the clamp is the unclamped
position `(x + axis.x·speed·dt, y, z − axis.y·speed·dt)`. -/
theorem PlayerController.updatePosition_eq (sqrt : K → K) (movementSpeed walkableRadius : K)
    (oldPosition axis : Vector3 K) (deltaTime : K) :
    PlayerController.updatePosition sqrt movementSpeed walkableRadius oldPosition axis
        deltaTime =
      if (PlayerController.unclampedPosition movementSpeed oldPosition axis deltaTime).length
          sqrt > walkableRadius then
        ((PlayerController.unclampedPosition movementSpeed oldPosition axis deltaTime).normalize
          sqrt).mul walkableRadius
      else PlayerController.unclampedPosition movementSpeed oldPosition axis deltaTime := by
  have h : (⟨oldPosition.x + axis.x * (deltaTime * movementSpeed),
      oldPosition.y + 0 * (deltaTime * movementSpeed),
      oldPosition.z - axis.y * (deltaTime * movementSpeed)⟩ : Vector3 K) =
      PlayerController.unclampedPosition movementSpeed oldPosition axis deltaTime := by
    unfold PlayerController.unclampedPosition
    congr 1 <;> ring
  unfold PlayerController.updatePosition
  simp only []
  rw [h]

/-- A vector longer than `r > 0`, normalized and multiplied by `r`, has length exactly `r`. -/
theorem Vector3.length_normalize_mul (sqrt : K → K)
    (hsq : ∀ x : K, 0 ≤ x → sqrt x * sqrt x = x) (hnn : ∀ x : K, 0 ≤ sqrt x)
    (p : Vector3 K) (r : K) (hr : 0 < r) (hp : p.length sqrt > r) :
    ((p.normalize sqrt).mul r).length sqrt = r := by
  have hL : 0 < p.length sqrt := lt_trans hr hp
  have hdot : 0 ≤ p.dot p := by
    unfold Vector3.dot
    nlinarith [mul_self_nonneg p.x, mul_self_nonneg p.y, mul_self_nonneg p.z]
  have hLL : p.length sqrt * p.length sqrt = p.dot p := hsq _ hdot
  have hE : ((p.normalize sqrt).mul r).dot ((p.normalize sqrt).mul r) = r * r := by
    have hne : p.length sqrt ≠ 0 := ne_of_gt hL
    have : ((p.normalize sqrt).mul r).dot ((p.normalize sqrt).mul r) =
        p.dot p / (p.length sqrt * p.length sqrt) * (r * r) := by
      simp only [Vector3.normalize, Vector3.mul, Vector3.dot]
      field_simp
      ring
    rw [this, hLL, div_self, one_mul]
    rw [← hLL]
    exact mul_ne_zero hne hne
  show sqrt (((p.normalize sqrt).mul r).dot ((p.normalize sqrt).mul r)) = r
  rw [hE]
  have h1 : sqrt (r * r) * sqrt (r * r) = r * r := hsq _ (mul_self_nonneg r)
  exact (mul_self_inj_of_nonneg (hnn _) (le_of_lt hr)).mp h1

/-- C20: let `p = (x + axis.x·speed·dt, y, z − axis.y·speed·dt)` be the unclamped new position
of a PlayerController with `walkableRadius = R > 0`. If `length(p) > R`, the position stored
by `update` has length exactly `R` and is a positive multiple of `p`; if `length(p) <= R` the
stored position is `p` itself; so the stored position never has length greater than `R`.
`Math.sqrt` is any function with the laws of the real square root. -/
theorem PlayerController.update_clamp (sqrt : K → K)
    (hsq : ∀ x : K, 0 ≤ x → sqrt x * sqrt x = x) (hnn : ∀ x : K, 0 ≤ sqrt x)
    (movementSpeed walkableRadius : K) (hR : 0 < walkableRadius)
    (oldPosition axis : Vector3 K) (deltaTime : K) :
    ((PlayerController.unclampedPosition movementSpeed oldPosition axis deltaTime).length sqrt
        > walkableRadius →
      (PlayerController.updatePosition sqrt movementSpeed walkableRadius oldPosition axis
        deltaTime).length sqrt = walkableRadius ∧
      ∃ c : K, 0 < c ∧
        PlayerController.updatePosition sqrt movementSpeed walkableRadius oldPosition axis
            deltaTime =
          (PlayerController.unclampedPosition movementSpeed oldPosition axis deltaTime).mul
            c) ∧
    ((PlayerController.unclampedPosition movementSpeed oldPosition axis deltaTime).length sqrt
        ≤ walkableRadius →
      PlayerController.updatePosition sqrt movementSpeed walkableRadius oldPosition axis
          deltaTime =
        PlayerController.unclampedPosition movementSpeed oldPosition axis deltaTime) ∧
    (PlayerController.updatePosition sqrt movementSpeed walkableRadius oldPosition axis
      deltaTime).length sqrt ≤ walkableRadius := by
  rw [PlayerController.updatePosition_eq]
  refine ⟨?_, ?_, ?_⟩
  · intro hgt
    rw [if_pos hgt]
    refine ⟨Vector3.length_normalize_mul sqrt hsq hnn _ _ hR hgt, ?_⟩
    have hL : 0 < (PlayerController.unclampedPosition movementSpeed oldPosition axis
        deltaTime).length sqrt := lt_trans hR hgt
    refine ⟨walkableRadius / (PlayerController.unclampedPosition movementSpeed oldPosition axis
        deltaTime).length sqrt, div_pos hR hL, ?_⟩
    simp only [Vector3.normalize, Vector3.mul]
    congr 1 <;> field_simp
  · intro hle
    rw [if_neg (not_lt.mpr hle)]
  · by_cases hgt : (PlayerController.unclampedPosition movementSpeed oldPosition axis
        deltaTime).length sqrt > walkableRadius
    · rw [if_pos hgt]
      exact le_of_eq (Vector3.length_normalize_mul sqrt hsq hnn _ _ hR hgt)
    · rw [if_neg hgt]
      exact not_lt.mp hgt

theorem PlayerController.update_clamp_witness :
    (0 : ℝ) < 1 ∧
      (PlayerController.unclampedPosition (1 : ℝ) ⟨3, 0, 4⟩ ⟨0, 0, 0⟩ 1).length Real.sqrt > 1 ∧
      (PlayerController.updatePosition Real.sqrt (1 : ℝ) 1 ⟨3, 0, 4⟩ ⟨0, 0, 0⟩ 1).length
        Real.sqrt = 1 ∧
      PlayerController.updatePosition Real.sqrt (1 : ℝ) 1 ⟨3, 0, 4⟩ ⟨0, 0, 0⟩ 1 =
        ⟨3 / 5, 0, 4 / 5⟩ := by
  have hgt : (PlayerController.unclampedPosition (1 : ℝ) ⟨3, 0, 4⟩ ⟨0, 0, 0⟩ 1).length
      Real.sqrt > 1 := by
    simp only [PlayerController.unclampedPosition, Vector3.length, Vector3.dot]
    norm_num [realSqrt_values]
  refine ⟨one_pos, hgt, ((PlayerController.update_clamp Real.sqrt
    (fun x hx => Real.mul_self_sqrt hx) Real.sqrt_nonneg 1 1 one_pos ⟨3, 0, 4⟩ ⟨0, 0, 0⟩
    1).1 hgt).1, ?_⟩
  rw [PlayerController.updatePosition_eq, if_pos hgt]
  simp only [PlayerController.unclampedPosition, Vector3.normalize, Vector3.mul,
    Vector3.length, Vector3.dot]
  norm_num [realSqrt_values]

end PlayerPositionTheorems

/-! ## Theorems: PlayerController heading -/

section PlayerHeadingTheorems

variable {K : Type} [LinearOrderedField K]

theorem PlayerController.update_of_zero_axis (sqrt : K → K) (atan2 : K → K → K) (pi : K)
    (q : QuaternionOps K) (axis : Vector3 K) (deltaTime : K) (c : PlayerController K)
    (hx : axis.x = 0) (hy : axis.y = 0) :
    PlayerController.update sqrt atan2 pi q axis deltaTime c =
      { c with
        position :=
          PlayerController.updatePosition sqrt c.movementSpeed c.walkableRadius c.position axis
            deltaTime
        rotation :=
          q.slerp c.rotation (PlayerController.targetRotation q c.originalRotation
            c.previousTheta 0) (c.rotationSpeed * deltaTime) } := by
  unfold PlayerController.update
  simp only [hx, hy, and_self, if_true]

/-- C21: an update of a PlayerController in which the movement axis is exactly `(0, 0)` leaves
`previousTheta` unchanged and turns, by `slerp`, towards the rotation built from the previous
yaw and a lean angle of 0; over any number of consecutive zero-axis frames `previousTheta`
stays constant. -/
theorem PlayerController.update_zero_axis (sqrt : K → K) (atan2 : K → K → K) (pi : K)
    (q : QuaternionOps K) (axis : Vector3 K) (deltaTime : K) (c : PlayerController K)
    (hx : axis.x = 0) (hy : axis.y = 0) :
    (PlayerController.update sqrt atan2 pi q axis deltaTime c).previousTheta =
      c.previousTheta ∧
    (PlayerController.update sqrt atan2 pi q axis deltaTime c).rotation =
      q.slerp c.rotation
        (PlayerController.targetRotation q c.originalRotation c.previousTheta 0)
        (c.rotationSpeed * deltaTime) ∧
    ∀ frames : List (Vector3 K × K), (∀ f ∈ frames, f.1.x = 0 ∧ f.1.y = 0) →
      (PlayerController.run sqrt atan2 pi q frames c).previousTheta = c.previousTheta := by
  refine ⟨?_, ?_, ?_⟩
  · rw [PlayerController.update_of_zero_axis sqrt atan2 pi q axis deltaTime c hx hy]
  · rw [PlayerController.update_of_zero_axis sqrt atan2 pi q axis deltaTime c hx hy]
  · intro frames
    induction frames generalizing c with
    | nil => intro _; rfl
    | cons f fs ih =>
      intro hf
      have h0 := hf f (List.mem_cons_self f fs)
      simp only [PlayerController.run, List.foldl_cons]
      have h1 := ih (PlayerController.update sqrt atan2 pi q f.1 f.2 c)
        (fun g hg => hf g (List.mem_cons_of_mem f hg))
      simp only [PlayerController.run] at h1
      rw [h1, PlayerController.update_of_zero_axis sqrt atan2 pi q f.1 f.2 c h0.1 h0.2]

theorem PlayerController.update_zero_axis_witness :
    (⟨0, 0, 0⟩ : Vector3 ℚ).x = 0 ∧ (⟨0, 0, 0⟩ : Vector3 ℚ).y = 0 ∧
      examplePlayerController.previousTheta = 90 ∧
      (PlayerController.update Rat.sqrt (fun _ _ => 0) (22 / 7) exampleQuaternionOps ⟨0, 0, 0⟩
        (1 / 60) examplePlayerController).previousTheta = 90 ∧
      (PlayerController.run Rat.sqrt (fun _ _ => 0) (22 / 7) exampleQuaternionOps
        [(⟨0, 0, 0⟩, 1 / 60), (⟨0, 0, 5⟩, 1 / 30)] examplePlayerController).previousTheta = 90 :=
  ⟨rfl, rfl, rfl,
    (PlayerController.update_zero_axis Rat.sqrt (fun _ _ => 0) (22 / 7) exampleQuaternionOps
      ⟨0, 0, 0⟩ (1 / 60) examplePlayerController rfl rfl).1,
    (PlayerController.update_zero_axis Rat.sqrt (fun _ _ => 0) (22 / 7) exampleQuaternionOps
      ⟨0, 0, 0⟩ (1 / 60) examplePlayerController rfl rfl).2.2 _ (by
        intro f hf
        simp only [List.mem_cons, List.mem_singleton, List.not_mem_nil, or_false] at hf
        rcases hf with rfl | rfl <;> exact ⟨rfl, rfl⟩)⟩

end PlayerHeadingTheorems

/-! ## Theorems: camera controller -/

section CameraTheorems

variable {K : Type} [LinearOrderedField K]

theorem CameraControllerComponent.clampPhi_fields (pi : K) (c : CameraControllerComponent K) :
    (c.clampPhi pi).mode = c.mode ∧ (c.clampPhi pi).playerController = c.playerController := by
  unfold CameraControllerComponent.clampPhi
  simp only []
  split_ifs <;> exact ⟨rfl, rfl⟩

theorem CameraControllerComponent.clampPhi_bounds (pi : K) (hpi : 0.2 ≤ pi)
    (c : CameraControllerComponent K) :
    0.1 ≤ (c.clampPhi pi).phi ∧ (c.clampPhi pi).phi ≤ pi - 0.1 := by
  have h1 : (0.1 : K) ≤ pi - 0.1 := by
    have : (0.2 : K) = 0.1 + 0.1 := by norm_num
    linarith
  unfold CameraControllerComponent.clampPhi
  simp only []
  split_ifs with ha hb hb
  · exact ⟨h1, le_refl _⟩
  · exact ⟨le_refl _, not_lt.mp hb⟩
  · exact ⟨h1, le_refl _⟩
  · exact ⟨not_lt.mp ha, not_lt.mp hb⟩

theorem CameraControllerComponent.handleAirplaneMode_fields (pi : K) (f : CameraFrame K)
    (deltaTime : K) (c : CameraControllerComponent K) :
    (c.handleAirplaneMode pi f deltaTime).mode = c.mode ∧
      (c.handleAirplaneMode pi f deltaTime).playerController =
        c.playerController.map (fun _ => true) := by
  unfold CameraControllerComponent.handleAirplaneMode
  simp only []
  split_ifs
  · exact ⟨rfl, rfl⟩
  · exact ⟨(CameraControllerComponent.clampPhi_fields pi _).1,
      (CameraControllerComponent.clampPhi_fields pi _).2⟩
  · exact ⟨(CameraControllerComponent.clampPhi_fields pi _).1,
      (CameraControllerComponent.clampPhi_fields pi _).2⟩

theorem CameraControllerComponent.handleFollowMode_fields (sqrt : K → K) (atan2 : K → K → K)
    (acos : K → K) (f : CameraFrame K) (c : CameraControllerComponent K) :
    (c.handleFollowMode sqrt atan2 acos f).mode = c.mode ∧
      (f.followEntity ≠ none →
        (c.handleFollowMode sqrt atan2 acos f).playerController =
          c.playerController.map (fun _ => false)) := by
  unfold CameraControllerComponent.handleFollowMode
  cases f.followEntity with
  | none => exact ⟨rfl, fun h => absurd rfl h⟩
  | some p => exact ⟨rfl, fun _ => rfl⟩

theorem CameraControllerComponent.update_mode (sqrt : K → K) (atan2 : K → K → K)
    (acos : K → K) (pi : K) (f : CameraFrame K) (deltaTime : K)
    (c : CameraControllerComponent K) :
    (c.update sqrt atan2 acos pi f deltaTime).mode =
      if f.space = ButtonState.DOWN_THIS_FRAME then (c.mode + 1) % 2 else c.mode := by
  unfold CameraControllerComponent.update
  simp only []
  split_ifs
  all_goals first
    | rfl
    | rw [(CameraControllerComponent.handleFollowMode_fields sqrt atan2 acos f _).1]
    | rw [(CameraControllerComponent.handleAirplaneMode_fields pi f deltaTime _).1]

theorem CameraControllerComponent.update_airplane (sqrt : K → K) (atan2 : K → K → K)
    (acos : K → K) (pi : K) (f : CameraFrame K) (deltaTime : K)
    (c : CameraControllerComponent K)
    (hmode : (c.update sqrt atan2 acos pi f deltaTime).mode = 1) :
    (c.update sqrt atan2 acos pi f deltaTime).playerController =
      c.playerController.map (fun _ => true) := by
  have hm := CameraControllerComponent.update_mode sqrt atan2 acos pi f deltaTime c
  rw [hmode] at hm
  unfold CameraControllerComponent.update
  simp only []
  by_cases hs : f.space = ButtonState.DOWN_THIS_FRAME
  · rw [if_pos hs] at hm
    rw [if_pos hs]
    have h0 : ¬ ((c.mode + 1) % 2 = 0) := by omega
    simp only [h0, if_false, ← hm, if_true]
    exact (CameraControllerComponent.handleAirplaneMode_fields pi f deltaTime _).2
  · rw [if_neg hs] at hm
    rw [if_neg hs]
    have h0 : ¬ (c.mode = 0) := by omega
    simp only [h0, if_false, ← hm, if_true]
    exact (CameraControllerComponent.handleAirplaneMode_fields pi f deltaTime _).2

theorem CameraControllerComponent.update_follow (sqrt : K → K) (atan2 : K → K → K)
    (acos : K → K) (pi : K) (f : CameraFrame K) (deltaTime : K)
    (c : CameraControllerComponent K)
    (hmode : (c.update sqrt atan2 acos pi f deltaTime).mode = 0)
    (hentity : f.followEntity ≠ none) :
    (c.update sqrt atan2 acos pi f deltaTime).playerController =
      c.playerController.map (fun _ => false) := by
  have hm := CameraControllerComponent.update_mode sqrt atan2 acos pi f deltaTime c
  rw [hmode] at hm
  unfold CameraControllerComponent.update
  simp only []
  by_cases hs : f.space = ButtonState.DOWN_THIS_FRAME
  · rw [if_pos hs] at hm
    rw [if_pos hs]
    simp only [← hm, if_true]
    exact (CameraControllerComponent.handleFollowMode_fields sqrt atan2 acos f _).2 hentity
  · rw [if_neg hs] at hm
    rw [if_neg hs]
    simp only [← hm, if_true]
    exact (CameraControllerComponent.handleFollowMode_fields sqrt atan2 acos f _).2 hentity

theorem CameraControllerComponent.run_airplane (sqrt : K → K) (atan2 : K → K → K)
    (acos : K → K) (pi : K) :
    ∀ (frames : List (CameraFrame K × K)) (c : CameraControllerComponent K),
      (∀ fr ∈ frames, fr.1.space ≠ ButtonState.DOWN_THIS_FRAME) →
      c.mode = 1 → c.playerController = some true →
      (CameraControllerComponent.run sqrt atan2 acos pi frames c).mode = 1 ∧
        (CameraControllerComponent.run sqrt atan2 acos pi frames c).playerController =
          some true
  | [], c, _, hm, hp => ⟨hm, hp⟩
  | fr :: frames, c, hf, hm, hp => by
      have hs := hf fr (List.mem_cons_self fr frames)
      have hm1 : (c.update sqrt atan2 acos pi fr.1 fr.2).mode = 1 := by
        rw [CameraControllerComponent.update_mode, if_neg hs, hm]
      have hp1 := CameraControllerComponent.update_airplane sqrt atan2 acos pi fr.1 fr.2 c hm1
      rw [hp] at hp1
      simp only [CameraControllerComponent.run, List.foldl_cons]
      exact CameraControllerComponent.run_airplane sqrt atan2 acos pi frames _
        (fun g hg => hf g (List.mem_cons_of_mem fr hg)) hm1 hp1

/-- C22: for a CameraControllerComponent with a non-null `playerController`: after an update
that runs in `AIRPLANE` mode the PlayerController's `disabled` flag is true, `Entity.update`
of the player's entity then makes no call, and this lasts over any further updates without the
space key going down; after an update that runs in `FOLLOW` mode with the followed entity
present the flag is false; the mode changes only on an update in which the space key is
`DOWN_THIS_FRAME`, which turns `FOLLOW` into `AIRPLANE` and `AIRPLANE` into `FOLLOW`. -/
theorem CameraControllerComponent.update_playerController (sqrt : K → K)
    (atan2 : K → K → K) (acos : K → K) (pi : K) (f : CameraFrame K) (deltaTime : K)
    (c : CameraControllerComponent K) (hpc : c.playerController ≠ none) :
    ((c.update sqrt atan2 acos pi f deltaTime).mode = 1 →
      (c.update sqrt atan2 acos pi f deltaTime).playerController = some true ∧
      (∀ (playerUpdate : K → CameraControllerComponent K → CameraControllerComponent K)
        (dt : K) (calls : List Call),
        Entity.update
            ⟨"player", [CameraControllerComponent.heldPlayerController playerUpdate]⟩ dt
            (c.update sqrt atan2 acos pi f deltaTime, calls) =
          (c.update sqrt atan2 acos pi f deltaTime, calls)) ∧
      (∀ frames : List (CameraFrame K × K),
        (∀ fr ∈ frames, fr.1.space ≠ ButtonState.DOWN_THIS_FRAME) →
        (CameraControllerComponent.run sqrt atan2 acos pi frames
            (c.update sqrt atan2 acos pi f deltaTime)).mode = 1 ∧
          (CameraControllerComponent.run sqrt atan2 acos pi frames
            (c.update sqrt atan2 acos pi f deltaTime)).playerController = some true)) ∧
    ((c.update sqrt atan2 acos pi f deltaTime).mode = 0 → f.followEntity ≠ none →
      (c.update sqrt atan2 acos pi f deltaTime).playerController = some false) ∧
    ((c.update sqrt atan2 acos pi f deltaTime).mode ≠ c.mode →
      f.space = ButtonState.DOWN_THIS_FRAME) ∧
    (f.space = ButtonState.DOWN_THIS_FRAME →
      (c.mode = 0 → (c.update sqrt atan2 acos pi f deltaTime).mode = 1) ∧
      (c.mode = 1 → (c.update sqrt atan2 acos pi f deltaTime).mode = 0)) := by
  obtain ⟨b, hb⟩ := Option.ne_none_iff_exists'.mp hpc
  refine ⟨?_, ?_, ?_, ?_⟩
  · intro hmode
    have hp : (c.update sqrt atan2 acos pi f deltaTime).playerController = some true := by
      rw [CameraControllerComponent.update_airplane sqrt atan2 acos pi f deltaTime c hmode, hb]
      rfl
    refine ⟨hp, ?_, ?_⟩
    · intro playerUpdate dt calls
      simp [Entity.update, Entity.updateFrom, Entity.updateStep,
        CameraControllerComponent.heldPlayerController, hp]
    · intro frames hframes
      exact CameraControllerComponent.run_airplane sqrt atan2 acos pi frames _ hframes hmode hp
  · intro hmode hentity
    rw [CameraControllerComponent.update_follow sqrt atan2 acos pi f deltaTime c hmode hentity,
      hb]
    rfl
  · intro hne
    by_contra hs
    rw [CameraControllerComponent.update_mode, if_neg hs] at hne
    exact hne rfl
  · intro hs
    rw [CameraControllerComponent.update_mode, if_pos hs]
    constructor <;> intro h <;> rw [h]

theorem CameraControllerComponent.update_playerController_witness :
    (exampleCameraController ℚ).playerController ≠ none ∧
      (exampleCameraController ℚ).mode = 0 ∧
      ((exampleCameraController ℚ).update Rat.sqrt (fun _ _ => 0) (fun _ => 0) (22 / 7)
        (exampleOtherCanvasFrame ℚ) (1 / 60)).mode = 1 ∧
      ((exampleCameraController ℚ).update Rat.sqrt (fun _ _ => 0) (fun _ => 0) (22 / 7)
        (exampleOtherCanvasFrame ℚ) (1 / 60)).playerController = some true := by
  have hpc : (exampleCameraController ℚ).playerController ≠ none := by
    show some false ≠ none
    decide
  have hw := CameraControllerComponent.update_playerController Rat.sqrt (fun _ _ => 0)
    (fun _ => 0) (22 / 7) (exampleOtherCanvasFrame ℚ) (1 / 60) (exampleCameraController ℚ) hpc
  have hmode := (hw.2.2.2 rfl).1 rfl
  exact ⟨hpc, rfl, hmode, (hw.1 hmode).1⟩

theorem CameraControllerComponent.handleAirplaneMode_phi (pi : K) (hpi : 0.2 ≤ pi)
    (f : CameraFrame K) (deltaTime : K) (c : CameraControllerComponent K)
    (h : ¬ (f.mouse0 = ButtonState.DOWN ∧ f.clickedCanvas ≠ c.cameraEntityID)) :
    0.1 ≤ (c.handleAirplaneMode pi f deltaTime).phi ∧
      (c.handleAirplaneMode pi f deltaTime).phi ≤ pi - 0.1 := by
  unfold CameraControllerComponent.handleAirplaneMode
  simp only []
  split_ifs with hm hc
  · exact absurd ⟨hm, hc⟩ h
  · exact CameraControllerComponent.clampPhi_bounds pi hpi _
  · exact CameraControllerComponent.clampPhi_bounds pi hpi _

/-- C23, evaluated on the camera controller as constructed (`phi = 0`) in a frame in which the
space key switches it to `AIRPLANE` while `mouse0` is down after a click on another canvas:
`handleAirplaneMode` returns before the clamp, and after the update `phi` is still 0, below
0.1. -/
theorem CameraControllerComponent.update_phi_example :
    ((exampleCameraController ℝ).update Real.sqrt (fun _ _ => 0) Real.arccos Real.pi
        (exampleOtherCanvasFrame ℝ) (1 / 60)).mode = 1 ∧
      ((exampleCameraController ℝ).update Real.sqrt (fun _ _ => 0) Real.arccos Real.pi
        (exampleOtherCanvasFrame ℝ) (1 / 60)).phi = 0 ∧
      ¬ (0.1 ≤ ((exampleCameraController ℝ).update Real.sqrt (fun _ _ => 0) Real.arccos Real.pi
        (exampleOtherCanvasFrame ℝ) (1 / 60)).phi) ∧
      (({ exampleCameraController ℝ with mode := 1 } :
          CameraControllerComponent ℝ).handleAirplaneMode Real.pi
        { exampleOtherCanvasFrame ℝ with space := ButtonState.UP } (1 / 60)).phi = 0 := by
  have hu : (exampleCameraController ℝ).update Real.sqrt (fun _ _ => 0) Real.arccos Real.pi
      (exampleOtherCanvasFrame ℝ) (1 / 60) =
      ⟨"webgl", 1, 1, 0, 0, some true⟩ := by
    simp [CameraControllerComponent.update, CameraControllerComponent.handleAirplaneMode,
      exampleCameraController, exampleOtherCanvasFrame, CameraControllerComponent.new]
  rw [hu]
  refine ⟨rfl, rfl, ?_, ?_⟩
  · norm_num
  · simp [CameraControllerComponent.handleAirplaneMode,
      exampleCameraController, exampleOtherCanvasFrame, CameraControllerComponent.new]

end CameraTheorems

/-! ## Theorems: light and material registries -/

section RegistryTheorems

theorem LightingRegistry.addLight_length {K : Type} (r : LightingRegistry K)
    (diffuseColor specularColor : Vector3 K) (intensity : K) (position : Vector3 K)
    (lightType : Nat) :
    (r.lights.length ≤ r.MAX_LIGHTS →
      (r.addLight diffuseColor specularColor intensity position lightType).2 =
          some (Light.new lightType diffuseColor specularColor intensity position) ∧
        (r.addLight diffuseColor specularColor intensity position lightType).1.lights =
          r.lights ++ [Light.new lightType diffuseColor specularColor intensity position]) ∧
    (r.lights.length > r.MAX_LIGHTS →
      r.addLight diffuseColor specularColor intensity position lightType = (r, none)) := by
  unfold LightingRegistry.addLight
  constructor
  · intro h
    rw [if_neg (not_lt.mpr h)]
    exact ⟨rfl, rfl⟩
  · intro h
    rw [if_pos h]

/-- C24, evaluated on a registry that holds exactly `MAX_LIGHTS` (16) lights: `addLight` does
not return `null`; it appends the new light and returns it, and the registry then holds 17
lights. -/
theorem LightingRegistry.addLight_full_example :
    (LightingRegistry.new (List.replicate 16 exampleLight)).lights.length =
        (LightingRegistry.new (List.replicate 16 exampleLight)).MAX_LIGHTS ∧
      ((LightingRegistry.new (List.replicate 16 exampleLight)).addLight
        ⟨1, 0, 0⟩ ⟨1, 1, 1⟩ 2 ⟨0, 3, 0⟩ 0).2 = some (Light.new 0 ⟨1, 0, 0⟩ ⟨1, 1, 1⟩ 2 ⟨0, 3, 0⟩) ∧
      ((LightingRegistry.new (List.replicate 16 exampleLight)).addLight
        ⟨1, 0, 0⟩ ⟨1, 1, 1⟩ 2 ⟨0, 3, 0⟩ 0).1.lights.length = 17 ∧
      ((LightingRegistry.new (List.replicate 16 exampleLight)).addLight
        ⟨1, 0, 0⟩ ⟨1, 1, 1⟩ 2 ⟨0, 3, 0⟩ 0).1.lights.length >
        (LightingRegistry.new (List.replicate 16 exampleLight)).MAX_LIGHTS := by
  have h := (LightingRegistry.addLight_length
    (LightingRegistry.new (List.replicate 16 exampleLight))
    ⟨1, 0, 0⟩ ⟨1, 1, 1⟩ 2 ⟨0, 3, 0⟩ 0).1 (by simp [LightingRegistry.new])
  rw [h.1, h.2]
  refine ⟨by simp [LightingRegistry.new], rfl, by simp [LightingRegistry.new], ?_⟩
  simp [LightingRegistry.new]

theorem MaterialRegistry.setFirstParam_length {V : Type} (name : String) (value : V) :
    ∀ ps : List (MaterialParameter V),
      (MaterialRegistry.setFirstParam name value ps).length = ps.length
  | [] => rfl
  | p :: ps => by
      unfold MaterialRegistry.setFirstParam
      split_ifs
      · rfl
      · simp [MaterialRegistry.setFirstParam_length name value ps]

theorem MaterialRegistry.setGlobalParam_grows {V : Type} (r : MaterialRegistry V)
    (name : String) (value : V) (key : String) (m : Material V)
    (hm : (key, m) ∈ (r.setGlobalParam name value).materials) :
    ∃ m0, (key, m0) ∈ r.materials ∧ m.params.length = m0.params.length + 1 := by
  simp only [MaterialRegistry.setGlobalParam, List.mem_map] at hm
  obtain ⟨⟨k0, m0⟩, hmem, heq⟩ := hm
  simp only [Prod.mk.injEq] at heq
  obtain ⟨rfl, rfl⟩ := heq
  exact ⟨m0, hmem, by simp [MaterialRegistry.setFirstParam_length]⟩

/-- C26, evaluated on a material that already has the parameter `u_time`: `setGlobalParam`
sets its value and still pushes a new parameter, so the material goes from 2 to 3 parameters
and has two parameters called `u_time`; a second call makes it three. -/
theorem MaterialRegistry.setGlobalParam_example :
    (exampleMaterialRegistry.setGlobalParam "u_time" 7).materials =
        [("crystal", ⟨"crystal", "lit", [⟨"u_color", 5⟩, ⟨"u_time", 7⟩, ⟨"u_time", 7⟩]⟩),
         ("ground", ⟨"ground", "lit", [⟨"u_color", 3⟩, ⟨"u_time", 7⟩]⟩)] ∧
      ((exampleMaterialRegistry.setGlobalParam "u_time" 7).materials.map
        (fun km => MaterialRegistry.paramCount "u_time" km.2)) = [2, 1] ∧
      (((exampleMaterialRegistry.setGlobalParam "u_time" 7).setGlobalParam "u_time"
        8).materials.map (fun km => MaterialRegistry.paramCount "u_time" km.2)) = [3, 2] := by
  refine ⟨?_, ?_, ?_⟩ <;> decide

end RegistryTheorems

/-! ## Theorems: runs of the gait orchestrator -/

section OrchestratorRunTheorems

set_option linter.unusedSectionVars false

variable {K : Type} [LinearOrderedField K]

theorem RobotLegOrchestratorComponent.update_activeLegSet (deltaTime : K)
    (o : RobotLegOrchestratorComponent K)
    (h : o.activeLegSet = ACTIVE_LEG_SET.EVEN ∨ o.activeLegSet = ACTIVE_LEG_SET.ODD) :
    (o.update deltaTime).activeLegSet = ACTIVE_LEG_SET.EVEN ∨
      (o.update deltaTime).activeLegSet = ACTIVE_LEG_SET.ODD := by
  unfold RobotLegOrchestratorComponent.update
  simp only []
  split_ifs <;> rcases h with h | h <;> simp_all

theorem RobotLegOrchestratorComponent.step_activeLegSet (o : RobotLegOrchestratorComponent K)
    (s : OrchestratorStep K)
    (h : o.activeLegSet = ACTIVE_LEG_SET.EVEN ∨ o.activeLegSet = ACTIVE_LEG_SET.ODD) :
    (o.step s).activeLegSet = ACTIVE_LEG_SET.EVEN ∨
      (o.step s).activeLegSet = ACTIVE_LEG_SET.ODD := by
  cases s with
  | start resolve => exact Or.inl rfl
  | update deltaTime => exact RobotLegOrchestratorComponent.update_activeLegSet deltaTime o h
  | legs change => exact h

theorem RobotLegOrchestratorComponent.foldl_step_activeLegSet :
    ∀ (steps : List (OrchestratorStep K)) (o : RobotLegOrchestratorComponent K),
      (o.activeLegSet = ACTIVE_LEG_SET.EVEN ∨ o.activeLegSet = ACTIVE_LEG_SET.ODD) →
      ((steps.foldl RobotLegOrchestratorComponent.step o).activeLegSet = ACTIVE_LEG_SET.EVEN ∨
        (steps.foldl RobotLegOrchestratorComponent.step o).activeLegSet = ACTIVE_LEG_SET.ODD)
  | [], _, h => h
  | s :: steps, o, h => by
      simp only [List.foldl_cons]
      exact RobotLegOrchestratorComponent.foldl_step_activeLegSet steps _
        (RobotLegOrchestratorComponent.step_activeLegSet o s h)

theorem RobotLegOrchestratorComponent.setLegStatesFrom_all :
    ∀ (legs : List (RobotLegCompoent K)) (i : Nat),
      ∀ leg ∈ RobotLegOrchestratorComponent.setLegStatesFrom ACTIVE_LEG_SET.ALL legs i,
        leg.allowStep = true
  | [], _ => by simp [RobotLegOrchestratorComponent.setLegStatesFrom]
  | l :: legs, i => by
      intro leg hleg
      simp only [RobotLegOrchestratorComponent.setLegStatesFrom, List.mem_cons] at hleg
      rcases hleg with rfl | hleg
      · rfl
      · exact RobotLegOrchestratorComponent.setLegStatesFrom_all legs (i + 1) leg hleg

/-- C27: in every state reached from the constructor through `start()`, `update(dt)` and the
legs' own state changes in between, `activeLegSet` is `EVEN` or `ODD`, never `ALL` or `NONE`;
when the timeout fires, the update pushes `allowStep = true` to every leg and `activeLegSet`
is still the `EVEN` or `ODD` it was. -/
theorem RobotLegOrchestratorComponent.run_activeLegSet (legIDs : List String)
    (steps : List (OrchestratorStep K)) :
    ((RobotLegOrchestratorComponent.run legIDs steps).activeLegSet = ACTIVE_LEG_SET.EVEN ∨
      (RobotLegOrchestratorComponent.run legIDs steps).activeLegSet = ACTIVE_LEG_SET.ODD) ∧
    (RobotLegOrchestratorComponent.run legIDs steps).activeLegSet ≠ ACTIVE_LEG_SET.ALL ∧
    (RobotLegOrchestratorComponent.run legIDs steps).activeLegSet ≠ ACTIVE_LEG_SET.NONE ∧
    ∀ deltaTime : K,
      (RobotLegOrchestratorComponent.run legIDs steps).timeSinceLastSwitch >
          (RobotLegOrchestratorComponent.run legIDs steps).minSwitchTime →
        (∀ leg ∈ ((RobotLegOrchestratorComponent.run legIDs steps).update
            deltaTime).legComponents, leg.allowStep = true) ∧
        ((RobotLegOrchestratorComponent.run legIDs steps).update deltaTime).activeLegSet =
          (RobotLegOrchestratorComponent.run legIDs steps).activeLegSet := by
  have h : (RobotLegOrchestratorComponent.run legIDs steps).activeLegSet =
        ACTIVE_LEG_SET.EVEN ∨
      (RobotLegOrchestratorComponent.run legIDs steps).activeLegSet = ACTIVE_LEG_SET.ODD :=
    RobotLegOrchestratorComponent.foldl_step_activeLegSet steps _ (Or.inl rfl)
  refine ⟨h, ?_, ?_, ?_⟩
  · rcases h with h | h <;> rw [h] <;> decide
  · rcases h with h | h <;> rw [h] <;> decide
  · intro deltaTime ht
    rw [RobotLegOrchestratorComponent.update_timeout deltaTime _ ht]
    exact ⟨RobotLegOrchestratorComponent.setLegStatesFrom_all _ 0, rfl⟩

theorem RobotLegOrchestratorComponent.run_timeout_example :
    (RobotLegOrchestratorComponent.run ["robot_leg_0"] exampleTimeoutSteps).timeSinceLastSwitch
        = 3 ∧
      (RobotLegOrchestratorComponent.run ["robot_leg_0"] exampleTimeoutSteps).minSwitchTime
        = 2 ∧
      (RobotLegOrchestratorComponent.run ["robot_leg_0"] exampleTimeoutSteps).activeLegSet =
        ACTIVE_LEG_SET.EVEN ∧
      ((RobotLegOrchestratorComponent.run ["robot_leg_0"] exampleTimeoutSteps).update
        (1 / 60)).activeLegSet = ACTIVE_LEG_SET.EVEN ∧
      (((RobotLegOrchestratorComponent.run ["robot_leg_0"] exampleTimeoutSteps).update
        (1 / 60)).legComponents.map (fun leg => leg.allowStep)) = [true] := by
  have hrun : RobotLegOrchestratorComponent.run ["robot_leg_0"] exampleTimeoutSteps =
      ⟨["robot_leg_0"], [{ RobotLegCompoent.new ⟨1, 0, 0⟩ 0 1 1 1 with moving := true }],
        ACTIVE_LEG_SET.EVEN, 3, 2⟩ := by
    simp [RobotLegOrchestratorComponent.run, exampleTimeoutSteps,
      RobotLegOrchestratorComponent.step, RobotLegOrchestratorComponent.start,
      RobotLegOrchestratorComponent.new, RobotLegOrchestratorComponent.update,
      RobotLegOrchestratorComponent.setLegStates,
      RobotLegOrchestratorComponent.setLegStatesFrom,
      RobotLegOrchestratorComponent.isValidState,
      RobotLegOrchestratorComponent.isMovingFrom,
      RobotLegOrchestratorComponent.checkIndex, RobotLegCompoent.new]
  rw [hrun]
  have ht : (3 : ℚ) > 2 := by norm_num
  refine ⟨rfl, rfl, rfl, ?_, ?_⟩
  · rw [RobotLegOrchestratorComponent.update_timeout _ _ ht]
  · rw [RobotLegOrchestratorComponent.update_timeout _ _ ht]
    rfl

end OrchestratorRunTheorems

/-! ## Theorems: the plane projection and the loop guard of `ikSolveNew` -/

section LegIKGuardTheorems

variable {K : Type} [LinearOrderedField K]

/-- C28: when the foot is reachable (`distance(pelvis, foot) <= upperLegLength +
lowerLegLength`) and within 0.01 of the world origin, the FABRIK loop of `ikSolveNew` runs no
pass and the function returns the zero vector, whatever the pelvis, the knee target and the
leg lengths are. -/
theorem ikSolveNew_zero_passes_near_origin (sqrt : K → K)
    (pelvis foot kneeTarget : Vector3 K) (upperLegLength lowerLegLength : K)
    (hreach : pelvis.distanceTo sqrt foot ≤ upperLegLength + lowerLegLength)
    (hnear : foot.distanceTo sqrt Vector3.zero ≤ 0.01) :
    ikSolveNewIterations sqrt pelvis foot kneeTarget upperLegLength lowerLegLength = 0 ∧
      ikSolveNew sqrt pelvis foot kneeTarget upperLegLength lowerLegLength = Vector3.zero := by
  have hlen : ¬ ((foot.sub pelvis).length sqrt > upperLegLength + lowerLegLength) := by
    rw [← Vector3.distanceTo_comm]
    exact not_lt.mpr hreach
  have hguard : ¬ ((⟨pelvis, Vector3.zero, Vector3.zero, 0, Vector3.zero⟩ :
      FabrikState K).currentFootPosition.distanceTo sqrt foot > 0.01 ∧
      (⟨pelvis, Vector3.zero, Vector3.zero, 0, Vector3.zero⟩ : FabrikState K).iteration <
        10) := by
    intro h
    have h1 := h.1
    rw [Vector3.distanceTo_comm] at h1
    exact absurd h1 (not_lt.mpr hnear)
  have hloop : ikSolveNewLoop sqrt pelvis foot kneeTarget upperLegLength lowerLegLength =
      ⟨pelvis, Vector3.zero, Vector3.zero, 0, Vector3.zero⟩ := by
    rw [ikSolveNewLoop_eq, fabrikLoop_exit _ _ _ _ _ _ hguard]
  constructor
  · simp only [ikSolveNewIterations, if_neg hlen, hloop]
  · simp only [ikSolveNew, if_neg hlen, hloop]

theorem ikSolveNew_zero_passes_near_origin_witness :
    Vector3.distanceTo Rat.sqrt (⟨1, 0, 1 / 200⟩ : Vector3 ℚ) ⟨0, 0, 1 / 200⟩ ≤ 1 + 1 ∧
      Vector3.distanceTo Rat.sqrt (⟨0, 0, 1 / 200⟩ : Vector3 ℚ) Vector3.zero ≤ 0.01 ∧
      ikSolveNewIterations Rat.sqrt (⟨1, 0, 1 / 200⟩ : Vector3 ℚ) ⟨0, 0, 1 / 200⟩
        ⟨0, 1, 1 / 200⟩ 1 1 = 0 ∧
      ikSolveNew Rat.sqrt (⟨1, 0, 1 / 200⟩ : Vector3 ℚ) ⟨0, 0, 1 / 200⟩ ⟨0, 1, 1 / 200⟩ 1 1 =
        ⟨0, 0, 0⟩ := by
  have hreach : Vector3.distanceTo Rat.sqrt (⟨1, 0, 1 / 200⟩ : Vector3 ℚ) ⟨0, 0, 1 / 200⟩ ≤
      1 + 1 := by
    simp only [Vector3.distanceTo, Vector3.length, Vector3.sub, Vector3.dot]
    norm_num [ratSqrt_values]
  have hnear : Vector3.distanceTo Rat.sqrt (⟨0, 0, 1 / 200⟩ : Vector3 ℚ) Vector3.zero ≤
      0.01 := by
    simp only [Vector3.distanceTo, Vector3.length, Vector3.sub, Vector3.dot, Vector3.zero]
    norm_num [ratSqrt_values]
  have hw := ikSolveNew_zero_passes_near_origin Rat.sqrt (⟨1, 0, 1 / 200⟩ : Vector3 ℚ)
    ⟨0, 0, 1 / 200⟩ ⟨0, 1, 1 / 200⟩ 1 1 hreach hnear
  exact ⟨hreach, hnear, hw.1, hw.2⟩

/-- C29: the plane-projection step of `ikSolveNew` is the identity on its three inputs: with
the normal `normalize((foot − pelvis) × (kneeTarget − pelvis))`, projecting the pelvis onto the
plane through the pelvis, and then the foot and the knee target onto the plane through the
projected pelvis, returns each point unchanged. -/
theorem ikSolveNew_projection_identity (sqrt : K → K) (pelvis foot kneeTarget : Vector3 K) :
    projectOntoPlane pelvis pelvis
        (((foot.sub pelvis).cross (kneeTarget.sub pelvis)).normalize sqrt) = pelvis ∧
      projectOntoPlane foot
        (projectOntoPlane pelvis pelvis
          (((foot.sub pelvis).cross (kneeTarget.sub pelvis)).normalize sqrt))
        (((foot.sub pelvis).cross (kneeTarget.sub pelvis)).normalize sqrt) = foot ∧
      projectOntoPlane kneeTarget
        (projectOntoPlane pelvis pelvis
          (((foot.sub pelvis).cross (kneeTarget.sub pelvis)).normalize sqrt))
        (((foot.sub pelvis).cross (kneeTarget.sub pelvis)).normalize sqrt) = kneeTarget := by
  have h0 : projectOntoPlane pelvis pelvis
      (((foot.sub pelvis).cross (kneeTarget.sub pelvis)).normalize sqrt) = pelvis := by
    apply projectOntoPlane_of_dot_eq_zero
    simp [Vector3.sub, Vector3.dot]
  rw [h0]
  exact ⟨rfl,
    projectOntoPlane_of_dot_eq_zero foot pelvis _
      (Vector3.dot_normalize_cross sqrt (foot.sub pelvis) (kneeTarget.sub pelvis)).1,
    projectOntoPlane_of_dot_eq_zero kneeTarget pelvis _
      (Vector3.dot_normalize_cross sqrt (foot.sub pelvis) (kneeTarget.sub pelvis)).2⟩

end LegIKGuardTheorems

/-! ## Theorems: parent pointers and children lists -/

section NodeStoreTheorems

theorem NodeStore.addChild_cell (h : NodeStore) (node child x : Nat) :
    ((h.addChild node child).cell x).children =
        (if x = node then (h.cell node).children ++ [child] else (h.cell x).children) ∧
      ((h.addChild node child).cell x).parent =
        (if x = child then some node else (h.cell x).parent) ∧
      ((h.addChild node child).cell x).transformParent =
        (if x = child then some node else (h.cell x).transformParent) := by
  simp only [NodeStore.addChild, NodeStore.setParent, NodeStore.write]
  by_cases hxn : x = node <;> by_cases hxc : x = child <;> by_cases hnc : node = child <;>
    simp_all

theorem NodeStore.removeChild_cell (h : NodeStore) (node child x : Nat) :
    ((h.removeChild node child).cell x).children =
        (if x = node then (h.cell node).children.filter (fun value => value != child)
          else (h.cell x).children) ∧
      ((h.removeChild node child).cell x).parent =
        (if x = child then none else (h.cell x).parent) ∧
      ((h.removeChild node child).cell x).transformParent = (h.cell x).transformParent := by
  simp only [NodeStore.removeChild, NodeStore.write]
  by_cases hxn : x = node <;> by_cases hxc : x = child <;> by_cases hnc : node = child <;>
    simp_all

theorem NodeStore.addChild_mem (h : NodeStore) (node child p c : Nat)
    (hc : c ∈ (h.cell p).children) : c ∈ ((h.addChild node child).cell p).children := by
  rw [(NodeStore.addChild_cell h node child p).1]
  by_cases hp : p = node
  · subst hp
    simp [hc]
  · simp [hp, hc]

theorem NodeStore.inSync_fresh : NodeStore.fresh.InSync := by
  refine ⟨?_, ?_, ?_⟩ <;> simp [NodeStore.fresh]

theorem NodeStore.inSync_of_parent (h : NodeStore)
    (h1 : ∀ p c : Nat, c ∈ (h.cell p).children ↔ (h.cell c).parent = some p)
    (h2 : ∀ p c : Nat, c ∈ (h.cell p).children → (h.cell c).transformParent = some p) :
    h.InSync := by
  refine ⟨h1, h2, ?_⟩
  intro p q c hp hq
  have e1 := (h1 p c).mp hp
  have e2 := (h1 q c).mp hq
  rw [e1] at e2
  exact Option.some.inj e2

theorem NodeStore.not_mem_of_parentFree (h : NodeStore) (node child : Nat) (hs : h.InSync)
    (hfree : h.ParentFree node child) : ∀ p, p ≠ node → child ∉ (h.cell p).children := by
  intro p hp hmem
  have e := (hs.1 p child).mp hmem
  rcases hfree with hf | hf
  · rw [hf] at e
    exact Option.noConfusion e
  · rw [hf] at e
    exact hp (Option.some.inj e).symm

theorem NodeStore.addChild_inSync (h : NodeStore) (node child : Nat) (hs : h.InSync)
    (hfree : h.ParentFree node child) : (h.addChild node child).InSync := by
  have hnot := NodeStore.not_mem_of_parentFree h node child hs hfree
  obtain ⟨h1, h2, _⟩ := hs
  apply NodeStore.inSync_of_parent
  · intro p c
    rw [(NodeStore.addChild_cell h node child p).1, (NodeStore.addChild_cell h node child c).2.1]
    by_cases hp : p = node <;> by_cases hc : c = child
    · subst hp
      subst hc
      simp
    · subst hp
      simp [hc, h1]
    · subst hc
      simp only [if_neg hp, if_true]
      constructor
      · intro hmem
        exact absurd hmem (hnot p hp)
      · intro e
        exact absurd (Option.some.inj e).symm hp
    · simp [hp, hc, h1]
  · intro p c
    rw [(NodeStore.addChild_cell h node child p).1,
      (NodeStore.addChild_cell h node child c).2.2]
    by_cases hp : p = node <;> by_cases hc : c = child
    · subst hp
      subst hc
      simp
    · subst hp
      simp only [if_true, if_neg hc, List.mem_append, List.mem_singleton]
      intro hmem
      rcases hmem with hmem | hmem
      · exact h2 p c hmem
      · exact absurd hmem hc
    · subst hc
      simp only [if_neg hp, if_true]
      intro hmem
      exact absurd hmem (hnot p hp)
    · simp only [if_neg hp, if_neg hc]
      exact h2 p c

theorem NodeStore.removeChild_inSync (h : NodeStore) (node child : Nat) (hs : h.InSync)
    (hfree : h.ParentFree node child) : (h.removeChild node child).InSync := by
  have hnot := NodeStore.not_mem_of_parentFree h node child hs hfree
  obtain ⟨h1, h2, _⟩ := hs
  apply NodeStore.inSync_of_parent
  · intro p c
    rw [(NodeStore.removeChild_cell h node child p).1,
      (NodeStore.removeChild_cell h node child c).2.1]
    by_cases hp : p = node <;> by_cases hc : c = child
    · subst hp
      subst hc
      simp
    · subst hp
      simp [hc, h1]
    · subst hc
      simp only [if_neg hp, if_true]
      constructor
      · intro hmem
        exact absurd hmem (hnot p hp)
      · intro e
        exact Option.noConfusion e
    · simp [hp, hc, h1]
  · intro p c
    rw [(NodeStore.removeChild_cell h node child p).1,
      (NodeStore.removeChild_cell h node child c).2.2]
    by_cases hp : p = node
    · subst hp
      simp only [if_true, List.mem_filter]
      intro hmem
      exact h2 p c hmem.1
    · simp only [if_neg hp]
      exact h2 p c

theorem NodeStore.addChildren_inSync (node : Nat) :
    ∀ (children : List Nat) (h : NodeStore), h.InSync →
      NodeStore.ChildrenFree node h children → (h.addChildren node children).InSync
  | [], _, hs, _ => hs
  | child :: children, h, hs, hfree => by
      simp only [NodeStore.addChildren, List.foldl_cons]
      exact NodeStore.addChildren_inSync node children _
        (NodeStore.addChild_inSync h node child hs hfree.1) hfree.2

theorem NodeStore.apply_inSync (h : NodeStore) (op : NodeOp) (hs : h.InSync)
    (hop : h.Admits op) : (h.apply op).InSync := by
  cases op with
  | addChild node child => exact NodeStore.addChild_inSync h node child hs hop
  | addChildren node children => exact NodeStore.addChildren_inSync node children h hs hop
  | removeChild node child => exact NodeStore.removeChild_inSync h node child hs hop

theorem NodeStore.foldl_apply_inSync :
    ∀ (ops : List NodeOp) (h : NodeStore), h.InSync → h.AdmitsAll ops →
      (ops.foldl NodeStore.apply h).InSync
  | [], _, hs, _ => hs
  | op :: ops, h, hs, hall => by
      simp only [List.foldl_cons]
      exact NodeStore.foldl_apply_inSync ops _ (NodeStore.apply_inSync h op hs hall.1) hall.2

/-- C25, as stated, fails: after `a.addChild(c); b.addChild(c)` (nodes 0, 1 and 2) the node
`c` is still in `a.children` while `c.parent` is `b`, and it occurs in the children lists of
both; after `a.addChild(c); b.removeChild(c)` the node `c` is still in `a.children` while
`c.parent` is `null`. -/
theorem NodeStore.run_inSync_counterexample :
    ¬ (NodeStore.run [NodeOp.addChild 0 2, NodeOp.addChild 1 2]).InSync ∧
      (2 ∈ ((NodeStore.run [NodeOp.addChild 0 2, NodeOp.addChild 1 2]).cell 0).children ∧
        2 ∈ ((NodeStore.run [NodeOp.addChild 0 2, NodeOp.addChild 1 2]).cell 1).children ∧
        ((NodeStore.run [NodeOp.addChild 0 2, NodeOp.addChild 1 2]).cell 2).parent = some 1) ∧
      ¬ (NodeStore.run [NodeOp.addChild 0 2, NodeOp.removeChild 1 2]).InSync ∧
      (2 ∈ ((NodeStore.run [NodeOp.addChild 0 2, NodeOp.removeChild 1 2]).cell 0).children ∧
        ((NodeStore.run [NodeOp.addChild 0 2, NodeOp.removeChild 1 2]).cell 2).parent = none) := by
  have a0 : ((NodeStore.run [NodeOp.addChild 0 2, NodeOp.addChild 1 2]).cell 0).children =
      [2] := by decide
  have a1 : ((NodeStore.run [NodeOp.addChild 0 2, NodeOp.addChild 1 2]).cell 1).children =
      [2] := by decide
  have a2 : ((NodeStore.run [NodeOp.addChild 0 2, NodeOp.addChild 1 2]).cell 2).parent =
      some 1 := by decide
  have b0 : ((NodeStore.run [NodeOp.addChild 0 2, NodeOp.removeChild 1 2]).cell 0).children =
      [2] := by decide
  have b2 : ((NodeStore.run [NodeOp.addChild 0 2, NodeOp.removeChild 1 2]).cell 2).parent =
      none := by decide
  refine ⟨?_, ⟨by rw [a0]; decide, by rw [a1]; decide, a2⟩, ?_, ⟨by rw [b0]; decide, b2⟩⟩
  · intro hs
    have e := (hs.1 0 2).mp (by rw [a0]; decide)
    rw [a2] at e
    exact absurd e (by decide)
  · intro hs
    have e := (hs.1 0 2).mp (by rw [b0]; decide)
    rw [b2] at e
    exact absurd e (by decide)

/-- C25 (amended): in every state reached from fresh SceneNodes through a sequence of
`addChild`, `addChildren` and `removeChild` calls in which every child handed to `addChild`,
`addChildren` or `removeChild` has, at that moment, no parent or the receiver as its parent:
for all nodes `p` and `c`, `c` occurs in `p.children` if and only if `c.parent` is `p` (and
then `c.transform.parent` is `p.transform`), and no node occurs in the children lists of two
different nodes. -/
theorem NodeStore.run_inSync (ops : List NodeOp) (hops : NodeStore.fresh.AdmitsAll ops) :
    (NodeStore.run ops).InSync :=
  NodeStore.foldl_apply_inSync ops NodeStore.fresh NodeStore.inSync_fresh hops

theorem NodeStore.run_inSync_witness :
    NodeStore.fresh.AdmitsAll
        [NodeOp.addChild 0 1, NodeOp.addChildren 0 [2, 3], NodeOp.removeChild 0 2,
          NodeOp.addChild 1 2] ∧
      (NodeStore.run
        [NodeOp.addChild 0 1, NodeOp.addChildren 0 [2, 3], NodeOp.removeChild 0 2,
          NodeOp.addChild 1 2]).InSync ∧
      ((NodeStore.run
        [NodeOp.addChild 0 1, NodeOp.addChildren 0 [2, 3], NodeOp.removeChild 0 2,
          NodeOp.addChild 1 2]).cell 0).children = [1, 3] ∧
      ((NodeStore.run
        [NodeOp.addChild 0 1, NodeOp.addChildren 0 [2, 3], NodeOp.removeChild 0 2,
          NodeOp.addChild 1 2]).cell 2).parent = some 1 := by
  have hops : NodeStore.fresh.AdmitsAll
      [NodeOp.addChild 0 1, NodeOp.addChildren 0 [2, 3], NodeOp.removeChild 0 2,
        NodeOp.addChild 1 2] := by
    simp only [NodeStore.AdmitsAll, NodeStore.Admits, NodeStore.ChildrenFree,
      NodeStore.ParentFree, NodeStore.apply, and_true]
    refine ⟨?_, ⟨?_, ?_⟩, ?_, ?_⟩ <;> decide
  exact ⟨hops, NodeStore.run_inSync _ hops, by decide, by decide⟩

end NodeStoreTheorems

/-! ## Theorems: entities registered twice -/

section WorldTheorems

variable {σ D V : Type}

theorem JSObject.setProps_registered (key : String) (value : V) :
    ∀ ps : List (String × V), (∃ v, JSObject.get ⟨ps⟩ key = some v) →
      (JSObject.setProps key value ps).map Prod.fst = ps.map Prod.fst ∧
        (JSObject.setProps key value ps).length = ps.length ∧
        ∀ k, JSObject.get ⟨JSObject.setProps key value ps⟩ k =
          if k = key then some value else JSObject.get ⟨ps⟩ k
  | [], h => by
      obtain ⟨v, hv⟩ := h
      simp [JSObject.get] at hv
  | (k0, v0) :: rest, h => by
      by_cases hk : k0 = key
      · subst hk
        refine ⟨by simp [JSObject.setProps], by simp [JSObject.setProps], ?_⟩
        intro k
        by_cases hkk : k = k0
        · subst hkk
          simp [JSObject.setProps, JSObject.get]
        · have hkk2 : ¬ k0 = k := fun e => hkk e.symm
          simp [JSObject.setProps, JSObject.get, List.find?_cons, hkk, hkk2]
      · have hrest : ∃ v, JSObject.get ⟨rest⟩ key = some v := by
          obtain ⟨v, hv⟩ := h
          refine ⟨v, ?_⟩
          simpa [JSObject.get, List.find?_cons, hk] using hv
        obtain ⟨ih1, ih2, ih3⟩ := JSObject.setProps_registered key value rest hrest
        refine ⟨by simp [JSObject.setProps, hk, ih1], by simp [JSObject.setProps, hk, ih2], ?_⟩
        intro k
        have ihk := ih3 k
        simp only [JSObject.get] at ihk ⊢
        by_cases hkk : k0 = k
        · subst hkk
          simp [JSObject.setProps, hk, List.find?_cons]
        · simp [JSObject.setProps, hk, List.find?_cons, hkk, ihk]

theorem JSObject.set_registered (o : JSObject V) (key : String) (value : V)
    (hproto : key ≠ "__proto__") (h : ∃ v, o.get key = some v) :
    (o.set key value).keys = o.keys ∧ (o.set key value).props.length = o.props.length ∧
      ∀ k, (o.set key value).get k = if k = key then some value else o.get k := by
  obtain ⟨h1, h2, h3⟩ := JSObject.setProps_registered key value o.props h
  refine ⟨?_, ?_, ?_⟩
  · simp only [JSObject.set, if_neg hproto, JSObject.keys]
    rw [show (List.map (fun p => p.1) (JSObject.setProps key value o.props)) =
      List.map (fun p => p.1) o.props from h1]
  · simp only [JSObject.set, if_neg hproto]
    exact h2
  · intro k
    simp only [JSObject.set, if_neg hproto]
    exact h3 k

theorem World.createEntity_replaces (w : World σ D) (uuid name : String)
    (parent : Option Nat) (components : List (Component σ D)) (earlier : Entity σ D)
    (hname : name ≠ "") (hproto : name ≠ "__proto__")
    (hreg : w.ecs.getEntity name = some earlier) :
    (w.createEntity uuid name parent components).1.ecs.getEntity name =
        some (w.createEntity uuid name parent components).2.1 ∧
      (w.createEntity uuid name parent components).2.1.name = name ∧
      (w.createEntity uuid name parent components).2.1.components = components ∧
      (w.createEntity uuid name parent components).1.ecs.entities.keys = w.ecs.entities.keys ∧
      (w.createEntity uuid name parent components).1.ecs.entities.props.length =
        w.ecs.entities.props.length ∧
      (∀ k, k ≠ name →
        (w.createEntity uuid name parent components).1.ecs.getEntity k = w.ecs.getEntity k) ∧
      (∀ st, (w.createEntity uuid name parent components).1.ecs.start st =
        w.ecs.entities.keys.foldl
          (fun st key =>
            (if key = name then some (w.createEntity uuid name parent components).2.1
              else w.ecs.getEntity key).elim st (fun entity => entity.start st)) st) ∧
      (∀ deltaTime st, (w.createEntity uuid name parent components).1.ecs.update deltaTime st =
        w.ecs.entities.keys.foldl
          (fun st key =>
            (if key = name then some (w.createEntity uuid name parent components).2.1
              else w.ecs.getEntity key).elim st (fun entity => entity.update deltaTime st))
          st) ∧
      (∀ p c, c ∈ (w.nodes.cell p).children →
        c ∈ ((w.createEntity uuid name parent components).1.nodes.cell p).children) := by
  have hset := JSObject.set_registered w.ecs.entities name
    (components.foldl Entity.attachComponent ⟨name, []⟩) hproto ⟨earlier, hreg⟩
  have hattach : ∀ (cs : List (Component σ D)) (e : Entity σ D),
      (cs.foldl Entity.attachComponent e).name = e.name ∧
        (cs.foldl Entity.attachComponent e).components = e.components ++ cs := by
    intro cs
    induction cs with
    | nil => intro e; simp
    | cons c cs ih =>
      intro e
      simp only [List.foldl_cons]
      obtain ⟨i1, i2⟩ := ih (e.attachComponent c)
      exact ⟨i1, by rw [i2]; simp [Entity.attachComponent]⟩
  have hecs : (w.createEntity uuid name parent components).1.ecs =
      ⟨w.ecs.entities.set name (components.foldl Entity.attachComponent ⟨name, []⟩)⟩ := by
    simp [World.createEntity, ECS.createEntity, ECS.addEntity, hname]
  have hent : (w.createEntity uuid name parent components).2.1 =
      components.foldl Entity.attachComponent ⟨name, []⟩ := by
    simp [World.createEntity, ECS.createEntity, hname]
  rw [hecs, hent]
  refine ⟨?_, (hattach components _).1, by simpa using (hattach components ⟨name, []⟩).2,
    hset.1, hset.2.1, ?_, ?_, ?_, ?_⟩
  · simp [ECS.getEntity, hset.2.2]
  · intro k hk
    simp [ECS.getEntity, hset.2.2, hk]
  · intro st
    simp only [ECS.start, JSObject.forIn, hset.1, hset.2.2, ECS.getEntity]
    congr 1
    funext st key
    generalize (if key = name then some (components.foldl Entity.attachComponent ⟨name, []⟩)
      else w.ecs.entities.get key) = o
    cases o <;> rfl
  · intro deltaTime st
    simp only [ECS.update, JSObject.forIn, hset.1, hset.2.2, ECS.getEntity]
    congr 1
    funext st key
    generalize (if key = name then some (components.foldl Entity.attachComponent ⟨name, []⟩)
      else w.ecs.entities.get key) = o
    cases o <;> rfl
  · intro p c hc
    cases parent with
    | none => exact NodeStore.addChild_mem _ _ _ _ _ hc
    | some parentNode => exact NodeStore.addChild_mem _ _ _ _ _ hc

theorem JSObject.setProps_keys (key : String) (value : V) :
    ∀ (ps : List (String × V)) (p : String × V), p ∈ JSObject.setProps key value ps →
      p.1 = key ∨ ∃ q ∈ ps, q.1 = p.1
  | [], p, h => by
      simp only [JSObject.setProps, List.mem_singleton] at h
      exact Or.inl (by rw [h])
  | (k0, v0) :: rest, p, h => by
      by_cases hk : k0 = key
      · simp only [JSObject.setProps, if_pos hk, List.mem_cons] at h
        rcases h with h | h
        · exact Or.inl (by rw [h, hk])
        · exact Or.inr ⟨p, List.mem_cons_of_mem _ h, rfl⟩
      · simp only [JSObject.setProps, if_neg hk, List.mem_cons] at h
        rcases h with h | h
        · exact Or.inr ⟨(k0, v0), List.mem_cons_self _ _, by rw [h]⟩
        · rcases JSObject.setProps_keys key value rest p h with h1 | ⟨q, hq, hq1⟩
          · exact Or.inl h1
          · exact Or.inr ⟨q, List.mem_cons_of_mem _ hq, hq1⟩

theorem JSObject.set_no_proto (o : JSObject V) (key : String) (value : V)
    (h : ∀ p ∈ o.props, p.1 ≠ "__proto__") :
    ∀ p ∈ (o.set key value).props, p.1 ≠ "__proto__" := by
  intro p hp
  by_cases hk : key = "__proto__"
  · simp only [JSObject.set, if_pos hk] at hp
    exact h p hp
  · simp only [JSObject.set, if_neg hk] at hp
    rcases JSObject.setProps_keys key value o.props p hp with h1 | ⟨q, hq, hq1⟩
    · rw [h1]
      exact hk
    · rw [← hq1]
      exact h q hq

theorem JSObject.get_proto (o : JSObject V) (h : ∀ p ∈ o.props, p.1 ≠ "__proto__") :
    o.get "__proto__" = none := by
  simp only [JSObject.get, Option.map_eq_none', List.find?_eq_none]
  intro p hp
  simpa using h p hp

theorem World.run_no_proto (ops : List (WorldOp σ D)) :
    ∀ p ∈ (World.run ops).ecs.entities.props, p.1 ≠ "__proto__" := by
  have hstep : ∀ (w : World σ D) (op : WorldOp σ D),
      (∀ p ∈ w.ecs.entities.props, p.1 ≠ "__proto__") →
      ∀ p ∈ (w.apply op).ecs.entities.props, p.1 ≠ "__proto__" := by
    intro w op hw
    cases op with
    | createEntity uuid entityName parent components =>
      exact JSObject.set_no_proto w.ecs.entities _ _ hw
    | addEntity name entity => exact JSObject.set_no_proto w.ecs.entities _ _ hw
  have hfold : ∀ (ops : List (WorldOp σ D)) (w : World σ D),
      (∀ p ∈ w.ecs.entities.props, p.1 ≠ "__proto__") →
      ∀ p ∈ (ops.foldl World.apply w).ecs.entities.props, p.1 ≠ "__proto__" := by
    intro ops
    induction ops with
    | nil => intro w hw; exact hw
    | cons op ops ih =>
      intro w hw
      simp only [List.foldl_cons]
      exact ih _ (hstep w op hw)
  apply hfold ops World.new
  intro p hp
  have hnew : (World.new : World σ D).ecs.entities.props = [("camera", ⟨"camera", []⟩)] := by
    simp [World.new, ECS.new, ECS.addEntity, JSObject.set, JSObject.empty, JSObject.setProps]
  rw [hnew, List.mem_singleton] at hp
  rw [hp]
  show "camera" ≠ "__proto__"
  decide

/-- C30: in every state reached by registering calls (`createEntity`, `addEntity`),
`ECS.createEntity` with a name that is already registered replaces the mapping:
afterwards `getEntity(name)` returns the new entity, the registered names and their number
are unchanged, the other names keep their entities, `ECS.start` and `ECS.update` run the new
entity where they ran the earlier one, and every node that was in a children list of the scene
graph, the earlier entity's node included, is still there. -/
theorem World.createEntity_registered (ops : List (WorldOp σ D)) (uuid name : String)
    (parent : Option Nat) (components : List (Component σ D)) (earlier : Entity σ D)
    (hname : name ≠ "") (hreg : (World.run ops).ecs.getEntity name = some earlier) :
    ((World.run ops).createEntity uuid name parent components).1.ecs.getEntity name =
        some ((World.run ops).createEntity uuid name parent components).2.1 ∧
      ((World.run ops).createEntity uuid name parent components).2.1.name = name ∧
      ((World.run ops).createEntity uuid name parent components).2.1.components =
        components ∧
      ((World.run ops).createEntity uuid name parent components).1.ecs.entities.keys =
        (World.run ops).ecs.entities.keys ∧
      ((World.run ops).createEntity uuid name parent components).1.ecs.entities.props.length =
        (World.run ops).ecs.entities.props.length ∧
      (∀ k, k ≠ name →
        ((World.run ops).createEntity uuid name parent components).1.ecs.getEntity k =
          (World.run ops).ecs.getEntity k) ∧
      (∀ st, ((World.run ops).createEntity uuid name parent components).1.ecs.start st =
        (World.run ops).ecs.entities.keys.foldl
          (fun st key =>
            (if key = name then
                some ((World.run ops).createEntity uuid name parent components).2.1
              else (World.run ops).ecs.getEntity key).elim st
              (fun entity => entity.start st)) st) ∧
      (∀ deltaTime st,
        ((World.run ops).createEntity uuid name parent components).1.ecs.update deltaTime st =
          (World.run ops).ecs.entities.keys.foldl
            (fun st key =>
              (if key = name then
                  some ((World.run ops).createEntity uuid name parent components).2.1
                else (World.run ops).ecs.getEntity key).elim st
                (fun entity => entity.update deltaTime st)) st) ∧
      (∀ p c, c ∈ ((World.run ops).nodes.cell p).children →
        c ∈ (((World.run ops).createEntity uuid name parent components).1.nodes.cell
          p).children) := by
  have hproto : name ≠ "__proto__" := by
    intro e
    rw [e, ECS.getEntity, JSObject.get_proto _ (World.run_no_proto ops)] at hreg
    exact Option.noConfusion hreg
  exact World.createEntity_replaces (World.run ops) uuid name parent components earlier hname
    hproto hreg

theorem World.createEntity_registered_witness :
    World.childCrystalName 0 ≠ "" ∧
      (World.run exampleCrystalOps).ecs.getEntity (World.childCrystalName 0) =
        some ⟨"child_crystal_0_0", [tagComponent "child of 0"]⟩ ∧
      ((World.run exampleCrystalOps).createEntity "uuid" (World.childCrystalName 0) (some 5)
        [tagComponent "child of 1"]).1.ecs.getEntity (World.childCrystalName 0) =
        some ⟨"child_crystal_0_0", [tagComponent "child of 1"]⟩ ∧
      ((World.run exampleCrystalOps).createEntity "uuid" (World.childCrystalName 0) (some 5)
        [tagComponent "child of 1"]).1.ecs.entities.props.length =
        (World.run exampleCrystalOps).ecs.entities.props.length ∧
      2 ∈ ((World.run exampleCrystalOps).nodes.cell 1).children ∧
      2 ∈ (((World.run exampleCrystalOps).createEntity "uuid" (World.childCrystalName 0)
        (some 5) [tagComponent "child of 1"]).1.nodes.cell 1).children := by
  have hname : World.childCrystalName 0 ≠ "" := by decide
  have hreg : (World.run exampleCrystalOps).ecs.getEntity (World.childCrystalName 0) =
      some ⟨"child_crystal_0_0", [tagComponent "child of 0"]⟩ := rfl
  have hnode : 2 ∈ ((World.run exampleCrystalOps).nodes.cell 1).children := by decide
  have hw := World.createEntity_registered exampleCrystalOps "uuid"
    (World.childCrystalName 0) (some 5) [tagComponent "child of 1"] _ hname hreg
  exact ⟨hname, hreg, hw.1, hw.2.2.2.2.1, hnode, hw.2.2.2.2.2.2.2.2 1 2 hnode⟩

theorem World.buildCrystal_example :
    (exampleTwoCrystalsWorld.ecs.entities.props.map Prod.fst) =
        ["camera", "crystal_0_0", "child_crystal_0_0", "child_crystal_1_1", "child_crystal_2_2",
          "crystal_0_1"] ∧
      exampleTwoCrystalsWorld.next = 9 ∧
      (exampleTwoCrystalsWorld.nodes.cell 1).children = [2, 3, 4] ∧
      (exampleTwoCrystalsWorld.nodes.cell 5).children = [6, 7, 8] ∧
      exampleTwoCrystalsWorld.entityToNode.get "child_crystal_0_0" = some 6 ∧
      (exampleTwoCrystalsWorld.ecs.start ([], [])).1 =
        ["crystal 0", "child of 1", "child of 1", "child of 1", "crystal 1"] := by
  refine ⟨?_, ?_, ?_, ?_, ?_, ?_⟩ <;> decide

end WorldTheorems


end Engine
